import Mathlib

/-! # ChilliSource rendering core and application plumbing

Mesh buffer, texture units, sprite batcher and animation blending; resource providers and
resource directories, localised text, the string parser, widget properties and the Windows
application delegates.

A shallow embedding of `Backend/Rendering/OpenGL/MeshBuffer.cpp` together with the part of the
OpenGL buffer-object API it drives, models of the texture unit table, the dynamic sprite
batcher and the skinned animation group, and embeddings of `Core/Base/Application.cpp`,
`Core/Locale/LocalisedText.cpp`, `Core/String/StringParser.cpp`, `UI/Base/Widget.h` and
`Backend/Platform/Windows/ApplicationDelegatesWindows.cpp`, followed by the properties of the
specification that are settled against them.

Conventions.
* Bytes are natural numbers; a block of memory is a `List Nat`.
* A C++ member function becomes a function from the state before the call to the state after it.
  The state is the pair of the process-wide `World` (GL context, the static
  `pCurrentlyBoundBuffer`, allocator) and the `CMeshBuffer` object itself.
* A function that can run into undefined behaviour (a `memcpy` through a null pointer or past the
  end of a block) returns `Option`; `none` is undefined behaviour.
* A loop whose termination is not structural takes fuel and returns `Option`; `none` then
  also stands for fuel that ran out, and the theorems show how much fuel is enough.
* Times and densities (`f32`) are exact rationals, except in the binary32 model of the
  fixed-update loop, where every `f32` operation rounds.
-/

namespace ChilliSource
namespace OpenGL

/-! ## The OpenGL buffer-object API used by the mesh buffer -/

/-- The two binding points the mesh buffer uses: `GL_ARRAY_BUFFER` and
`GL_ELEMENT_ARRAY_BUFFER`. -/
inductive Target
  | arrayBuffer
  | elementArrayBuffer
  deriving DecidableEq

/-- One entry of the trace of GL calls issued to the driver. -/
inductive GLCall
  | genBuffers (name : Nat)
  | bindBuffer (target : Target) (name : Nat)
  | bufferData (target : Target) (size : Nat) (data : Option (List Nat)) (usage : Nat)
  | mapBuffer (target : Target) (access : Nat)
  | unmapBuffer (target : Target)
  | deleteBuffers (name : Nat)
  deriving DecidableEq

/-- The value of `GL_DYNAMIC_DRAW`. -/
def GL_DYNAMIC_DRAW : Nat := 0x88E8
/-- The value of `GL_STATIC_DRAW`. -/
def GL_STATIC_DRAW : Nat := 0x88E4
/-- The value of `GL_WRITE_ONLY` (and of `GL_WRITE_ONLY_OES`). -/
def GL_WRITE_ONLY : Nat := 0x88B9

/-- The state of the GL context as far as buffer objects are concerned.
* `names`: buffer object names in use (generated or bound, and not deleted);
* `stores`: the data store of each buffer object that has one (first match wins);
* `mapped`: names whose data store is currently mapped into client memory;
* `arrayBinding`, `elementBinding`: the names bound to the two targets (0 is no buffer);
* `uninit`: the byte an uninitialised data store happens to read as;
* `calls`: every GL call issued so far, oldest first. -/
structure GLState where
  names : List Nat
  stores : List (Nat × List Nat)
  mapped : List Nat
  arrayBinding : Nat
  elementBinding : Nat
  uninit : Nat
  calls : List GLCall
  deriving DecidableEq

namespace GLState

/-- The buffer object name bound to a target. -/
def binding (g : GLState) : Target → Nat
  | .arrayBuffer => g.arrayBinding
  | .elementArrayBuffer => g.elementBinding

/-- The data store of a buffer object, when it has one. -/
def store (g : GLState) (name : Nat) : Option (List Nat) :=
  g.stores.lookup name

end GLState

/-- A name that is larger than every name in use, hence unused and non-zero. -/
def freshName (names : List Nat) : Nat :=
  names.foldr max 0 + 1

/-- `glGenBuffers(1, &h)`: returns a non-zero name that is not in use and marks it used. -/
def glGenBuffers (g : GLState) : Nat × GLState :=
  let h := freshName g.names
  (h, { g with names := h :: g.names, calls := g.calls ++ [GLCall.genBuffers h] })

/-- `glBindBuffer(target, name)`: binds `name` to `target`; a non-zero name that is not yet in
use becomes a (store-less) buffer object. -/
def glBindBuffer (t : Target) (name : Nat) (g : GLState) : GLState :=
  let names := if name = 0 ∨ name ∈ g.names then g.names else name :: g.names
  match t with
  | .arrayBuffer =>
    { g with names := names, arrayBinding := name, calls := g.calls ++ [GLCall.bindBuffer t name] }
  | .elementArrayBuffer =>
    { g with names := names, elementBinding := name,
             calls := g.calls ++ [GLCall.bindBuffer t name] }

/-- `glBufferData(target, size, data, usage)`: deletes the data store of the buffer bound to
`target` (unmapping it) and creates a new one of `size` bytes, copied from `data`, or with
uninitialised contents when `data` is `NULL`. With no buffer bound the call is an error and
has no effect. `data`, when given, holds at least `size` bytes. -/
def glBufferData (t : Target) (size : Nat) (data : Option (List Nat)) (usage : Nat)
    (g : GLState) : GLState :=
  let name := g.binding t
  let call := GLCall.bufferData t size data usage
  if name = 0 then { g with calls := g.calls ++ [call] }
  else
    let contents := match data with
      | some bytes => bytes.take size
      | none => List.replicate size g.uninit
    { g with stores := (name, contents) :: g.stores,
             mapped := g.mapped.filter (fun n => n != name),
             calls := g.calls ++ [call] }

/-- `glMapBuffer(target, access)` (`glMapBufferOES` on ES2): maps the data store of the buffer
bound to `target` and returns the buffer whose store the returned pointer addresses; returns
`none` (a null pointer, with a GL error) when no buffer is bound, when the buffer has no data
store, or when it is already mapped. -/
def glMapBuffer (t : Target) (access : Nat) (g : GLState) : Option Nat × GLState :=
  let name := g.binding t
  let g1 := { g with calls := g.calls ++ [GLCall.mapBuffer t access] }
  if name = 0 then (none, g1)
  else match g.store name with
    | none => (none, g1)
    | some _ =>
      if name ∈ g.mapped then (none, g1)
      else (some name, { g1 with mapped := name :: g.mapped })

/-- `glUnmapBuffer(target)` (`glUnmapBufferOES` on ES2): unmaps the buffer bound to `target`;
`GL_FALSE` with an error when it is not mapped. -/
def glUnmapBuffer (t : Target) (g : GLState) : Bool × GLState :=
  let name := g.binding t
  let g1 := { g with calls := g.calls ++ [GLCall.unmapBuffer t] }
  if name ∈ g.mapped then (true, { g1 with mapped := g.mapped.filter (fun n => n != name) })
  else (false, g1)

/-- `glDeleteBuffers(1, &name)`: deletes the buffer object and resets every binding that refers
to it; the name 0 and unused names are silently ignored. -/
def glDeleteBuffers (name : Nat) (g : GLState) : GLState :=
  { g with names := g.names.filter (fun n => n != name),
           stores := g.stores.filter (fun p => p.1 != name),
           mapped := g.mapped.filter (fun n => n != name),
           arrayBinding := if g.arrayBinding = name then 0 else g.arrayBinding,
           elementBinding := if g.elementBinding = name then 0 else g.elementBinding,
           calls := g.calls ++ [GLCall.deleteBuffers name] }

/-! ## Memory -/

/-- A pointer to bytes, as held in `mpVertexData`, `mpIndexData` and the two backup members.
* `null`: the null pointer;
* `heap addr bytes`: the block obtained from `new u8[n]` at address `addr`, with its current
  contents (each such block is owned by exactly one member of one mesh buffer);
* `mapped name`: the pointer returned by `glMapBuffer`, which addresses the data store of the
  buffer object `name`. -/
inductive DataPtr
  | null
  | heap (addr : Nat) (bytes : List Nat)
  | mapped (name : Nat)
  deriving DecidableEq

/-- The process-wide state.
* `gl`: the GL context;
* `pCurrentlyBoundBuffer`: the static `CMeshBuffer::pCurrentlyBoundBuffer`; a mesh buffer is
  identified by its address, `none` is `NULL`;
* `nextAddr`: the address the next `new u8[n]` returns;
* `uninit`: the byte a block fresh from `new u8[n]` happens to read as;
* `removeBufferCalls`: the `RemoveBuffer` calls received by render systems, as pairs
  (render system, mesh buffer), oldest first. -/
structure World where
  gl : GLState
  pCurrentlyBoundBuffer : Option Nat
  nextAddr : Nat
  uninit : Nat
  removeBufferCalls : List (Nat × Nat)
  deriving DecidableEq

namespace World

/-- `new u8[n]`: a fresh block of `n` bytes with uninitialised contents; never null, also for
`n = 0`. -/
def newArray (w : World) (n : Nat) : DataPtr × World :=
  (DataPtr.heap w.nextAddr (List.replicate n w.uninit), { w with nextAddr := w.nextAddr + 1 })

/-- The first `n` bytes readable through a pointer; `none` when the read is undefined (null
pointer, block shorter than `n`, store not mapped). Reading no bytes is always defined. -/
def read (w : World) (p : DataPtr) (n : Nat) : Option (List Nat) :=
  if n = 0 then some []
  else match p with
    | .null => none
    | .heap _ bytes => if n ≤ bytes.length then some (bytes.take n) else none
    | .mapped name =>
      if name ∈ w.gl.mapped then
        match w.gl.store name with
        | some bytes => if n ≤ bytes.length then some (bytes.take n) else none
        | none => none
      else none

/-- Writes `src` to the start of the memory a pointer addresses and returns the pointer to the
updated block; `none` when the write is undefined (null pointer, block shorter than `src`,
store not mapped). Writing no bytes is always defined. -/
def write (w : World) (p : DataPtr) (src : List Nat) : Option (DataPtr × World) :=
  if src.length = 0 then some (p, w)
  else match p with
    | .null => none
    | .heap addr bytes =>
      if src.length ≤ bytes.length then
        some (DataPtr.heap addr (src ++ bytes.drop src.length), w)
      else none
    | .mapped name =>
      if name ∈ w.gl.mapped then
        match w.gl.store name with
        | some bytes =>
          if src.length ≤ bytes.length then
            some (p, { w with gl := { w.gl with
              stores := (name, src ++ bytes.drop src.length) :: w.gl.stores } })
          else none
        | none => none
      else none

end World

/-! ## `CMeshBuffer` -/

/-- Modelled from the spec: the usage flag of a buffer description, declared outside these
sources; the constructor switches on `Rendering::DYNAMIC` and `Rendering::STATIC`. -/
inductive UsageFlag
  | DYNAMIC
  | STATIC
  deriving DecidableEq

/-- Modelled from the spec: the access flag of a buffer description, declared outside these
sources; the constructor switches on `WRITE`, `READ` and `READ_WRITE`. -/
inductive AccessFlag
  | WRITE
  | READ
  | READ_WRITE
  deriving DecidableEq

/-- Modelled from the spec: `Rendering::BufferDescription`, declared outside these sources,
with the fields the mesh buffer reads. -/
structure BufferDescription where
  VertexDataCapacity : Nat
  IndexDataCapacity : Nat
  eUsageFlag : UsageFlag
  eAccessFlag : AccessFlag
  deriving DecidableEq

/-- Modelled from the spec: the class is declared in `MeshBuffer.h`, outside these sources;
the members are the ones `MeshBuffer.cpp` initialises and uses. `self` is the address of the
object (`this`); `mpRenderSystem` is `none` for a null pointer. -/
structure CMeshBuffer where
  self : Nat
  mBufferDesc : BufferDescription
  mVertexBuffer : Nat
  mIndexBuffer : Nat
  mBufferUsage : Nat
  mBufferAccess : Nat
  mpVertexData : DataPtr
  mpIndexData : DataPtr
  mpVertexDataBackup : DataPtr
  mpIndexDataBackup : DataPtr
  mbMapBufferAvailable : Bool
  mbCacheValid : Bool
  mpRenderSystem : Option Nat
  deriving DecidableEq

/-- What a lock returns: the `bool` result, the pointer written to `*outppBuffer`, and the
state after the call. -/
structure LockResult where
  ok : Bool
  out : DataPtr
  world : World
  buffer : CMeshBuffer
  deriving DecidableEq

/-- Modelled from the spec: `CRenderSystem::RemoveBuffer` is not part of the sources; the
render system is notified so that it can drop its tracking reference, which is recorded as one
entry of `removeBufferCalls`. -/
def RemoveBuffer (renderSystem buffer : Nat) (w : World) : World :=
  { w with removeBufferCalls := w.removeBufferCalls ++ [(renderSystem, buffer)] }

namespace CMeshBuffer

/-- Modelled from the spec: `IMeshBuffer::GetVertexCapacity()` of the base class, which is
outside these sources; the fixed vertex capacity the buffer was created with. -/
def GetVertexCapacity (b : CMeshBuffer) : Nat := b.mBufferDesc.VertexDataCapacity

/-- Modelled from the spec: `IMeshBuffer::GetIndexCapacity()` of the base class, which is
outside these sources; the fixed index capacity the buffer was created with. -/
def GetIndexCapacity (b : CMeshBuffer) : Nat := b.mBufferDesc.IndexDataCapacity

/-- The constructor `CMeshBuffer::CMeshBuffer(inBuffDesc)` for the object at address `self`.
`mpRenderSystem` is not in the initialiser list; its value after construction is the
parameter `renderSystem`. -/
def create (self : Nat) (desc : BufferDescription) (renderSystem : Option Nat) (w : World) :
    World × CMeshBuffer :=
  let (vb, g1) := glGenBuffers w.gl
  let (ib, g2) := if desc.IndexDataCapacity > 0 then glGenBuffers g1 else (0, g1)
  let usage := match desc.eUsageFlag with
    | .DYNAMIC => GL_DYNAMIC_DRAW
    | .STATIC => GL_STATIC_DRAW
  let access := match desc.eAccessFlag with
    | .WRITE => GL_WRITE_ONLY
    | .READ => GL_WRITE_ONLY
    | .READ_WRITE => GL_WRITE_ONLY
  let g3 := glBindBuffer .arrayBuffer vb g2
  let g4 := glBufferData .arrayBuffer desc.VertexDataCapacity none usage g3
  let g5 := if ib ≠ 0 then
      glBufferData .elementArrayBuffer desc.IndexDataCapacity none usage
        (glBindBuffer .elementArrayBuffer ib g4)
    else g4
  ({ w with gl := g5, pCurrentlyBoundBuffer := some self },
   { self := self, mBufferDesc := desc, mVertexBuffer := vb, mIndexBuffer := ib,
     mBufferUsage := usage, mBufferAccess := access,
     mpVertexData := .null, mpIndexData := .null,
     mpVertexDataBackup := .null, mpIndexDataBackup := .null,
     mbMapBufferAvailable := false, mbCacheValid := false,
     mpRenderSystem := renderSystem })

/-- `CMeshBuffer::Bind()`. -/
def Bind (w : World) (b : CMeshBuffer) : World :=
  if w.pCurrentlyBoundBuffer ≠ some b.self then
    { w with
      gl := glBindBuffer .elementArrayBuffer b.mIndexBuffer
              (glBindBuffer .arrayBuffer b.mVertexBuffer w.gl),
      pCurrentlyBoundBuffer := some b.self }
  else w

/-- The pointer value of what `glMapBuffer` returned. -/
def mapResult : Option Nat → DataPtr
  | some name => .mapped name
  | none => .null

/-- `CMeshBuffer::LockVertex(outppBuffer, inDataOffset, inDataStride)`; the offset and the
stride are not used by the body. -/
def LockVertex (w : World) (b : CMeshBuffer) : LockResult :=
  if b.mbMapBufferAvailable then
    let g1 := if b.mBufferDesc.eUsageFlag = .DYNAMIC then
        glBufferData .arrayBuffer b.mBufferDesc.VertexDataCapacity none b.mBufferUsage w.gl
      else w.gl
    let (r, g2) := glMapBuffer .arrayBuffer b.mBufferAccess g1
    let p := mapResult r
    { ok := p != .null, out := p, world := { w with gl := g2 },
      buffer := { b with mpVertexData := p, mbCacheValid := false } }
  else
    let (p, w1) := if b.mpVertexData = .null then w.newArray b.mBufferDesc.VertexDataCapacity
      else (b.mpVertexData, w)
    { ok := p != .null, out := p, world := w1,
      buffer := { b with mpVertexData := p, mbCacheValid := false } }

/-- `CMeshBuffer::LockIndex(outppBuffer, inDataOffset, inDataStride)`. -/
def LockIndex (w : World) (b : CMeshBuffer) : LockResult :=
  if b.mIndexBuffer = 0 then
    { ok := false, out := .null, world := w, buffer := b }
  else if b.mbMapBufferAvailable then
    let (r, g1) := glMapBuffer .elementArrayBuffer b.mBufferAccess w.gl
    let p := mapResult r
    { ok := p != .null, out := p, world := { w with gl := g1 },
      buffer := { b with mpIndexData := p, mbCacheValid := false } }
  else
    let (p, w1) := if b.mpIndexData = .null then w.newArray b.mBufferDesc.IndexDataCapacity
      else (b.mpIndexData, w)
    { ok := p != .null, out := p, world := w1,
      buffer := { b with mpIndexData := p, mbCacheValid := false } }

/-- The `data` argument of `glBufferData` for a client pointer: `NULL` stays `NULL`, any other
pointer must address `size` readable bytes (`none` is undefined behaviour). -/
def clientData (w : World) (p : DataPtr) (size : Nat) : Option (Option (List Nat)) :=
  if p = .null then some none
  else (w.read p size).map some

/-- `CMeshBuffer::UnlockVertex()`: the `bool` result and the state after the call. -/
def UnlockVertex (w : World) (b : CMeshBuffer) : Option (Bool × World × CMeshBuffer) :=
  if b.mbMapBufferAvailable then
    let (r, g1) := glUnmapBuffer .arrayBuffer w.gl
    some (r, { w with gl := g1 }, { b with mpVertexData := .null })
  else
    (clientData w b.mpVertexData b.mBufferDesc.VertexDataCapacity).map fun data =>
      (true,
       { w with gl := glBufferData .arrayBuffer b.mBufferDesc.VertexDataCapacity data
                        b.mBufferUsage w.gl },
       b)

/-- `CMeshBuffer::UnlockIndex()`: the `bool` result and the state after the call. -/
def UnlockIndex (w : World) (b : CMeshBuffer) : Option (Bool × World × CMeshBuffer) :=
  if b.mIndexBuffer = 0 then some (false, w, b)
  else if b.mbMapBufferAvailable then
    let (r, g1) := glUnmapBuffer .elementArrayBuffer w.gl
    some (r, { w with gl := g1 }, { b with mpIndexData := .null })
  else
    (clientData w b.mpIndexData b.mBufferDesc.IndexDataCapacity).map fun data =>
      (true,
       { w with gl := glBufferData .elementArrayBuffer b.mBufferDesc.IndexDataCapacity data
                        b.mBufferUsage w.gl },
       b)

/-- `CMeshBuffer::SetMapBufferAvailable(inbEnabled)`. -/
def SetMapBufferAvailable (inbEnabled : Bool) (b : CMeshBuffer) : CMeshBuffer :=
  { b with mbMapBufferAvailable := inbEnabled }

/-- `CMeshBuffer::SetOwningRenderSystem(inpSystem)`. -/
def SetOwningRenderSystem (inpSystem : Option Nat) (b : CMeshBuffer) : CMeshBuffer :=
  { b with mpRenderSystem := inpSystem }

/-- `CMeshBuffer::IsCacheValid()`. -/
def IsCacheValid (b : CMeshBuffer) : Bool := b.mbCacheValid

/-- `CMeshBuffer::SetCacheValid()`. -/
def SetCacheValid (b : CMeshBuffer) : CMeshBuffer := { b with mbCacheValid := true }

/-- `if(!p) p = (T*)new u8[n];` -/
def allocIfNull (w : World) (p : DataPtr) (n : Nat) : DataPtr × World :=
  if p = .null then w.newArray n else (p, w)

/-- `memcpy(dst, src, n)`: the pointer to the updated destination block and the world after the
copy; `none` when the read or the write is undefined. -/
def memcpy (w : World) (dst src : DataPtr) (n : Nat) : Option (DataPtr × World) :=
  (w.read src n).bind fun bytes => w.write dst bytes

/-- Modelled from the spec: the macro `SAFE_DELETE_ARRAY(p)`, defined outside these sources;
frees the block and nulls the pointer; `none` (undefined) for a pointer that does not come
from `new[]`. -/
def safeDeleteArray : DataPtr → Option DataPtr
  | .null => some .null
  | .heap _ _ => some .null
  | .mapped _ => none

/-- The vertex half of `Backup()`: allocate the backup block when there is none, lock, copy
the region into the backup, unlock. -/
def backupVertex (w : World) (b : CMeshBuffer) : Option (World × CMeshBuffer) :=
  let (vbk, w1) := allocIfNull w b.mpVertexDataBackup b.mBufferDesc.VertexDataCapacity
  let b1 := { b with mpVertexDataBackup := vbk }
  let r := LockVertex w1 b1
  (memcpy r.world r.buffer.mpVertexDataBackup r.out r.buffer.GetVertexCapacity).bind fun (d, w2) =>
    (UnlockVertex w2 { r.buffer with mpVertexDataBackup := d }).map fun (_, w3, b3) => (w3, b3)

/-- The index half of `Backup()`, the body of `if(mIndexBuffer != 0)`. -/
def backupIndex (w : World) (b : CMeshBuffer) : Option (World × CMeshBuffer) :=
  let (ibk, w1) := allocIfNull w b.mpIndexDataBackup b.mBufferDesc.IndexDataCapacity
  let b1 := { b with mpIndexDataBackup := ibk }
  let r := LockIndex w1 b1
  (memcpy r.world r.buffer.mpIndexDataBackup r.out r.buffer.GetIndexCapacity).bind fun (d, w2) =>
    (UnlockIndex w2 { r.buffer with mpIndexDataBackup := d }).map fun (_, w3, b3) => (w3, b3)

/-- `CMeshBuffer::Backup()`. -/
def Backup (w : World) (b : CMeshBuffer) : Option (World × CMeshBuffer) :=
  let (ibk, w1) := allocIfNull w b.mpIndexDataBackup b.mBufferDesc.IndexDataCapacity
  let b1 := { b with mpIndexDataBackup := ibk }
  let w2 := Bind w1 b1
  (backupVertex w2 b1).bind fun (w3, b3) =>
    (if b3.mIndexBuffer ≠ 0 then backupIndex w3 b3 else some (w3, b3)).map fun (w4, b4) =>
      (w4, { b4 with mVertexBuffer := 0, mIndexBuffer := 0 })

/-- The vertex half of `Restore()`: lock, copy the backup into the locked region, unlock. The
pointer the lock returns is the one held in `mpVertexData`, so the updated block is stored
there. -/
def restoreVertex (w : World) (b : CMeshBuffer) : Option (World × CMeshBuffer) :=
  let r := LockVertex w b
  (memcpy r.world r.out r.buffer.mpVertexDataBackup r.buffer.GetVertexCapacity).bind fun (d, w2) =>
    (UnlockVertex w2 { r.buffer with mpVertexData := d }).map fun (_, w3, b3) => (w3, b3)

/-- The index half of `Restore()`, the body of `if(mIndexBuffer != 0)`. -/
def restoreIndex (w : World) (b : CMeshBuffer) : Option (World × CMeshBuffer) :=
  let r := LockIndex w b
  (memcpy r.world r.out r.buffer.mpIndexDataBackup r.buffer.GetIndexCapacity).bind fun (d, w2) =>
    (UnlockIndex w2 { r.buffer with mpIndexData := d }).map fun (_, w3, b3) => (w3, b3)

/-- `CMeshBuffer::Restore()`. -/
def Restore (w : World) (b : CMeshBuffer) : Option (World × CMeshBuffer) :=
  let w0 := { w with pCurrentlyBoundBuffer := none }
  if b.mpVertexDataBackup = .null then some (w0, b)
  else
    let (vb, g1) := glGenBuffers w0.gl
    let (ib, g2) := if b.mpIndexDataBackup ≠ .null then glGenBuffers g1 else (b.mIndexBuffer, g1)
    let b1 := { b with mVertexBuffer := vb, mIndexBuffer := ib }
    let w1 := Bind { w0 with gl := g2 } b1
    (restoreVertex w1 b1).bind fun (w2, b2) =>
      (if b2.mIndexBuffer ≠ 0 then restoreIndex w2 b2 else some (w2, b2)).bind fun (w3, b3) =>
        (safeDeleteArray b3.mpVertexDataBackup).bind fun vbk =>
          (safeDeleteArray b3.mpIndexDataBackup).map fun ibk =>
            (w3, { b3 with mpVertexDataBackup := vbk, mpIndexDataBackup := ibk })

/-- The destructor `CMeshBuffer::~CMeshBuffer()`: the world after the object is gone. The four
`SAFE_DELETE_ARRAY` free blocks owned by the object and leave the world as it is. -/
def destroy (w : World) (b : CMeshBuffer) : Option World :=
  let w1 := match b.mpRenderSystem with
    | some renderSystem => RemoveBuffer renderSystem b.self w
    | none => w
  let w2 := if w1.pCurrentlyBoundBuffer = some b.self then
      { w1 with pCurrentlyBoundBuffer := none }
    else w1
  let g1 := glDeleteBuffers b.mVertexBuffer w2.gl
  let g2 := if b.mIndexBuffer ≠ 0 then glDeleteBuffers b.mIndexBuffer g1 else g1
  (safeDeleteArray b.mpVertexData).bind fun _ =>
    (safeDeleteArray b.mpIndexData).bind fun _ =>
      (safeDeleteArray b.mpVertexDataBackup).bind fun _ =>
        (safeDeleteArray b.mpIndexDataBackup).map fun _ => { w2 with gl := g2 }

/-- No member of the buffer holds a pointer obtained from `glMapBuffer`, that is, no lock is
outstanding in mapped-buffer mode. -/
def noMappedPointer (b : CMeshBuffer) : Prop :=
  (∀ n, b.mpVertexData ≠ .mapped n) ∧ (∀ n, b.mpIndexData ≠ .mapped n) ∧
  (∀ n, b.mpVertexDataBackup ≠ .mapped n) ∧ (∀ n, b.mpIndexDataBackup ≠ .mapped n)

end CMeshBuffer

/-! ### Callers of the mesh buffer: lock, write, unlock -/

/-- The two regions of a mesh buffer. -/
inductive Region
  | vertex
  | index
  deriving DecidableEq

namespace Region

/-- The binding point a region is uploaded through. -/
def target : Region → Target
  | .vertex => .arrayBuffer
  | .index => .elementArrayBuffer

/-- `LockVertex` or `LockIndex`. -/
def lock : Region → World → CMeshBuffer → LockResult
  | .vertex => CMeshBuffer.LockVertex
  | .index => CMeshBuffer.LockIndex

/-- `UnlockVertex` or `UnlockIndex`. -/
def unlock : Region → World → CMeshBuffer → Option (Bool × World × CMeshBuffer)
  | .vertex => CMeshBuffer.UnlockVertex
  | .index => CMeshBuffer.UnlockIndex

/-- The capacity of a region in bytes. -/
def capacity : Region → CMeshBuffer → Nat
  | .vertex => fun b => b.mBufferDesc.VertexDataCapacity
  | .index => fun b => b.mBufferDesc.IndexDataCapacity

/-- The member that holds the pointer a lock of the region returned (`mpVertexData` or
`mpIndexData`). -/
def data : Region → CMeshBuffer → DataPtr
  | .vertex => fun b => b.mpVertexData
  | .index => fun b => b.mpIndexData

/-- Stores the pointer to the block a caller has written through back into the member that
owns the block. -/
def setData : Region → DataPtr → CMeshBuffer → CMeshBuffer
  | .vertex => fun p b => { b with mpVertexData := p }
  | .index => fun p b => { b with mpIndexData := p }

end Region

/-- The address of a heap block. -/
def DataPtr.addr : DataPtr → Option Nat
  | .heap a _ => some a
  | _ => none

/-- One lock/unlock pair of a caller that checks the result of the lock: lock the region, write
`bytes` through the returned pointer when the lock succeeded, unlock. -/
def lockWriteUnlock (r : Region) (bytes : List Nat) (w : World) (b : CMeshBuffer) :
    Option (World × CMeshBuffer) :=
  let l := r.lock w b
  if l.ok then
    (l.world.write l.out bytes).bind fun (p, w1) =>
      (r.unlock w1 (r.setData p l.buffer)).map fun (_, w2, b2) => (w2, b2)
  else
    (r.unlock l.world l.buffer).map fun (_, w2, b2) => (w2, b2)

/-- A sequence of lock/unlock pairs, each with the bytes the caller writes. -/
def runPairs : List (Region × List Nat) → World → CMeshBuffer → Option (World × CMeshBuffer)
  | [], w, b => some (w, b)
  | (r, bytes) :: rest, w, b =>
    (lockWriteUnlock r bytes w b).bind fun (w1, b1) => runPairs rest w1 b1

/-- The first `n` bytes readable through the pointer a lock of the region returns. -/
def lockRead (r : Region) (n : Nat) (w : World) (b : CMeshBuffer) : Option (List Nat) :=
  let l := r.lock w b
  l.world.read l.out n

/-- A shadow pointer is either still null or a heap block of the full capacity. -/
def shadowOk (p : DataPtr) (cap : Nat) : Prop :=
  p = .null ∨ ∃ a bytes, p = .heap a bytes ∧ bytes.length = cap

/-- The buffer is in shadow-copy mode and each shadow pointer is null or a full block. -/
def shadowMode (b : CMeshBuffer) : Prop :=
  b.mbMapBufferAvailable = false ∧
  shadowOk b.mpVertexData b.mBufferDesc.VertexDataCapacity ∧
  shadowOk b.mpIndexData b.mBufferDesc.IndexDataCapacity

/-- The members a lock/unlock pair never assigns have the same value in both buffers. -/
def sameSetup (b b1 : CMeshBuffer) : Prop :=
  b1.mBufferDesc = b.mBufferDesc ∧ b1.mIndexBuffer = b.mIndexBuffer ∧
  b1.mVertexBuffer = b.mVertexBuffer ∧ b1.mBufferUsage = b.mBufferUsage

/-- The GL handle of a region. -/
def Region.handle : Region → CMeshBuffer → Nat
  | .vertex => fun b => b.mVertexBuffer
  | .index => fun b => b.mIndexBuffer

/-- The buffer is in mapped-buffer mode, its vertex buffer object (and its index buffer object,
when it has one) is the one bound to its GL target and has a data store of the full capacity,
and neither store is mapped, that is, no lock is outstanding. -/
def mappedMode (w : World) (b : CMeshBuffer) : Prop :=
  b.mbMapBufferAvailable = true ∧
  w.gl.arrayBinding = b.mVertexBuffer ∧
  (b.mIndexBuffer ≠ 0 → w.gl.elementBinding = b.mIndexBuffer) ∧
  b.mVertexBuffer ≠ 0 ∧ b.mVertexBuffer ≠ b.mIndexBuffer ∧
  b.mVertexBuffer ∉ w.gl.mapped ∧ b.mIndexBuffer ∉ w.gl.mapped ∧
  (∃ s, w.gl.store b.mVertexBuffer = some s ∧ s.length = b.mBufferDesc.VertexDataCapacity) ∧
  (b.mIndexBuffer ≠ 0 →
    ∃ s, w.gl.store b.mIndexBuffer = some s ∧ s.length = b.mBufferDesc.IndexDataCapacity)

/-! ### Example states -/

/-- A GL context with no buffer objects, in which uninitialised stores read as zero. -/
def emptyGL : GLState :=
  { names := [], stores := [], mapped := [], arrayBinding := 0, elementBinding := 0,
    uninit := 0, calls := [] }

/-- A world with no mesh buffers. -/
def emptyWorld : World :=
  { gl := emptyGL, pCurrentlyBoundBuffer := none, nextAddr := 100, uninit := 0,
    removeBufferCalls := [] }

/-- A buffer description with four bytes of vertex data and two bytes of index data. -/
def smallDesc (usage : UsageFlag) : BufferDescription :=
  { VertexDataCapacity := 4, IndexDataCapacity := 2, eUsageFlag := usage, eAccessFlag := .WRITE }

/-- A buffer description with four bytes of vertex data and no index data. -/
def vertexOnlyDesc (usage : UsageFlag) : BufferDescription :=
  { VertexDataCapacity := 4, IndexDataCapacity := 0, eUsageFlag := usage, eAccessFlag := .WRITE }

/-- The mesh buffer at address 7 created from `desc` in the empty world, switched to the given
mode, after one lock/unlock pair that wrote `1, 2, 3, 4` to the vertex region. -/
def filledBuffer (desc : BufferDescription) (mapBuffer : Bool) : Option (World × CMeshBuffer) :=
  let s := CMeshBuffer.create 7 desc none emptyWorld
  lockWriteUnlock .vertex [1, 2, 3, 4] s.1 (CMeshBuffer.SetMapBufferAvailable mapBuffer s.2)

/-- `Backup()` immediately followed by `Restore()`. -/
def backupThenRestore (w : World) (b : CMeshBuffer) : Option (World × CMeshBuffer) :=
  (CMeshBuffer.Backup w b).bind fun (w1, b1) => CMeshBuffer.Restore w1 b1

end OpenGL
end ChilliSource

/-! ## Texture units

`Texture.h` declares `CTexture`, the static unit table `paTextureUnits` and the static
`udwCurrentActiveSlot`; the bodies of the member functions are not part of the sources. -/

namespace ChilliSource
namespace OpenGL

/-- One entry of the trace of GL texture calls. -/
inductive TextureCall
  | activeTexture (slot : Nat)
  | bindTexture (type : Nat) (texture : Nat)
  | texParameters (texture : Nat)
  deriving DecidableEq

/-- The value of `GL_TEXTURE_2D`. -/
def GL_TEXTURE_2D : Nat := 0x0DE1

/-- `CTexture::TextureUnit`: the identity of the object that occupies a unit (`none` is
`NULL`) and a slot number; the constructor sets `NULL` and `-1`. -/
structure TextureUnit where
  pObjectID : Option Nat
  dwTextureSlot : Int
  deriving DecidableEq

/-- The process-wide texture state: the unit table `paTextureUnits` with the number of units
the hardware has, the active-unit cache `udwCurrentActiveSlot`, and the trace of GL calls,
oldest first. -/
structure TextureUnits where
  unitCount : Nat
  paTextureUnits : Nat → TextureUnit
  udwCurrentActiveSlot : Nat
  calls : List TextureCall

/-- The members of `CTexture` that binding reads or writes; `self` is the address of the
object, which is its identity in the unit table. -/
structure CTexture where
  self : Nat
  mGLTexID : Nat
  mbHasTextureFilterModeChanged : Bool
  mdwTextureSlot : Int
  deriving DecidableEq

/-- Modelled from the spec: `CTexture::ClearCache()`, whose body is not in the sources; the
table is reset on context loss, every unit as its constructor leaves it. -/
def ClearCache (unitCount : Nat) : TextureUnits :=
  { unitCount := unitCount, paTextureUnits := fun _ => { pObjectID := none, dwTextureSlot := -1 },
    udwCurrentActiveSlot := 0, calls := [] }

/-- Modelled from the spec: `CTexture::SetActiveTextureSlot(slot)`, whose body is not in the
sources; the global active-unit cache avoids redundant state changes, so the GL call is
issued only when the active unit changes. -/
def SetActiveTextureSlot (slot : Nat) (u : TextureUnits) : TextureUnits :=
  if u.udwCurrentActiveSlot = slot then u
  else { u with udwCurrentActiveSlot := slot, calls := u.calls ++ [TextureCall.activeTexture slot] }

/-- The number of `glBindTexture` calls in a trace. -/
def bindCalls : List TextureCall → Nat
  | [] => 0
  | TextureCall.bindTexture _ _ :: rest => bindCalls rest + 1
  | _ :: rest => bindCalls rest

namespace CTexture

/-- Modelled from the spec: the unit a request is served on; a unit beyond the hardware limit
degrades to the last unit (clamped). -/
def clampSlot (u : TextureUnits) (inSlot : Nat) : Nat :=
  if inSlot < u.unitCount then inSlot else u.unitCount - 1

/-- Modelled from the spec: whether the unit a request for `inSlot` is served on holds this
exact texture object. -/
def holds (u : TextureUnits) (t : CTexture) (inSlot : Nat) : Bool :=
  (u.paTextureUnits (clampSlot u inSlot)).pObjectID == some t.self

/-- Modelled from the spec: `CTexture::Bind(inSlot)`, whose body is not in the sources. If the
requested unit already holds this exact object the call is a no-op; otherwise it issues the
GPU bind, makes the table entry point at this object, and applies filter and wrap parameters
that were marked dirty since the last bind. -/
def Bind (inSlot : Nat) (s : TextureUnits × CTexture) : TextureUnits × CTexture :=
  let u := s.1
  let t := s.2
  let slot := clampSlot u inSlot
  if (u.paTextureUnits slot).pObjectID = some t.self then (u, t)
  else
    let u1 := SetActiveTextureSlot slot u
    let u2 := { u1 with
      paTextureUnits := fun i =>
        if i = slot then { pObjectID := some t.self, dwTextureSlot := slot }
        else u1.paTextureUnits i,
      calls := u1.calls ++ [TextureCall.bindTexture GL_TEXTURE_2D t.mGLTexID] }
    let u3 := if t.mbHasTextureFilterModeChanged then
        { u2 with calls := u2.calls ++ [TextureCall.texParameters t.mGLTexID] }
      else u2
    (u3, { t with mbHasTextureFilterModeChanged := false, mdwTextureSlot := slot })

end CTexture

end OpenGL

/-! ## Dynamic sprite batcher

`DynamicSpriteBatcher.h` declares the command type, the render command and the members of
`DynamicSpriteBatch`; the bodies of the member functions are not part of the sources. -/

namespace Rendering

/-- `kudwNumBuffers`. -/
def kudwNumBuffers : Nat := 2

/-- `kudwBufferArrayBounds`. -/
def kudwBufferArrayBounds : Nat := kudwNumBuffers - 1

/-- `CommandType`. -/
inductive CommandType
  | k_draw
  | k_scissorOn
  | k_scissorOff
  deriving DecidableEq

/-- `RenderCommand`. A material is identified by the address its shared pointer holds (`none`
is the empty pointer). `m_offset` is the position in the sprite cache of the first sprite of
the range and `m_stride` the number of sprites in it. -/
structure RenderCommand where
  m_material : Option Nat
  m_scissorPos : Int × Int
  m_scissorSize : Int × Int
  m_offset : Nat
  m_stride : Nat
  m_type : CommandType
  deriving DecidableEq

/-- Modelled from the spec: `SpriteComponent::SpriteData`, declared outside these sources, as
far as the batcher looks into it: the material, and the quad (vertices, UVs, colours), which
the batcher only copies. -/
structure SpriteData where
  pMaterial : Nat
  quad : Nat
  deriving DecidableEq

/-- What one flush hands to the render system: the buffer of the pair it was written to, the
sprites copied into it, and the render commands replayed against it, in order. -/
structure Flush where
  buffer : Nat
  sprites : List SpriteData
  commands : List RenderCommand
  deriving DecidableEq

/-- The members of `DynamicSpriteBatch`, the fixed item capacity of the sprite cache, and the
flushes made so far, oldest first. -/
structure DynamicSpriteBatch where
  capacity : Nat
  maSpriteCache : List SpriteData
  maRenderCommands : List RenderCommand
  mpLastMaterial : Option Nat
  mudwCurrentRenderSpriteBatch : Nat
  mudwSpriteCommandCounter : Nat
  flushed : List Flush
  deriving DecidableEq

/-- The render commands of a list of flushes, in the order they were replayed. -/
def issued : List Flush → List RenderCommand
  | [] => []
  | f :: rest => f.commands ++ issued rest

namespace DynamicSpriteBatch

/-- Modelled from the spec: the constructor, whose body is not in the sources; the batcher
starts idle, with nothing cached and nothing flushed. -/
def create (capacity : Nat) : DynamicSpriteBatch :=
  { capacity := capacity, maSpriteCache := [], maRenderCommands := [], mpLastMaterial := none,
    mudwCurrentRenderSpriteBatch := 0, mudwSpriteCommandCounter := 0, flushed := [] }

/-- Modelled from the spec: `InsertDrawCommand()`, whose body is not in the sources. Takes the
sprites cached since the last command boundary and generates a draw command for them, with the
material that was active during the range; with no such sprite there is nothing to draw. -/
def InsertDrawCommand (s : DynamicSpriteBatch) : DynamicSpriteBatch :=
  if s.mudwSpriteCommandCounter = 0 then s
  else
    { s with
      maRenderCommands := s.maRenderCommands ++
        [{ m_material := s.mpLastMaterial, m_scissorPos := (0, 0), m_scissorSize := (0, 0),
           m_offset := s.maSpriteCache.length - s.mudwSpriteCommandCounter,
           m_stride := s.mudwSpriteCommandCounter, m_type := CommandType.k_draw }],
      mudwSpriteCommandCounter := 0 }

/-- Modelled from the spec: `BuildAndFlushBatch()`, whose body is not in the sources. The
cached sprites are copied into the current buffer of the pair and the accumulated commands are
replayed against it; then the active buffer index is swapped and the cache is cleared. -/
def BuildAndFlushBatch (s : DynamicSpriteBatch) : DynamicSpriteBatch :=
  { s with
    flushed := s.flushed ++
      [{ buffer := s.mudwCurrentRenderSpriteBatch, sprites := s.maSpriteCache,
         commands := s.maRenderCommands }],
    mudwCurrentRenderSpriteBatch :=
      if s.mudwCurrentRenderSpriteBatch ≥ kudwBufferArrayBounds then 0
      else s.mudwCurrentRenderSpriteBatch + 1,
    maSpriteCache := [], maRenderCommands := [], mpLastMaterial := none,
    mudwSpriteCommandCounter := 0 }

/-- Modelled from the spec: `ForceRender()`, whose body is not in the sources. Renders the
currently batched sprites regardless of whether the batch is full. -/
def ForceRender (s : DynamicSpriteBatch) : DynamicSpriteBatch :=
  if s.maSpriteCache = [] ∧ s.maRenderCommands = [] then s
  else BuildAndFlushBatch (InsertDrawCommand s)

/-- Modelled from the spec: `Render(sprite)`, whose body is not in the sources. If the incoming
material differs from the material of the sprites queued last, a command boundary is inserted;
the sprite is appended to the cache; when the cache has reached the item capacity the batch is
flushed. -/
def Render (sprite : SpriteData) (s : DynamicSpriteBatch) : DynamicSpriteBatch :=
  let s1 := if s.mpLastMaterial ≠ none ∧ s.mpLastMaterial ≠ some sprite.pMaterial then
      InsertDrawCommand s
    else s
  let s2 := { s1 with
    maSpriteCache := s1.maSpriteCache ++ [sprite],
    mpLastMaterial := some sprite.pMaterial,
    mudwSpriteCommandCounter := s1.mudwSpriteCommandCounter + 1 }
  if s2.maSpriteCache.length ≥ s2.capacity then ForceRender s2 else s2

/-- Modelled from the spec: `EnableScissoring(pos, size)`, whose body is not in the sources.
A scissor toggle always forces a command boundary, then queues the scissor command. -/
def EnableScissoring (pos size : Int × Int) (s : DynamicSpriteBatch) : DynamicSpriteBatch :=
  let s1 := InsertDrawCommand s
  { s1 with maRenderCommands := s1.maRenderCommands ++
      [{ m_material := none, m_scissorPos := pos, m_scissorSize := size, m_offset := 0,
         m_stride := 0, m_type := CommandType.k_scissorOn }] }

/-- Modelled from the spec: `DisableScissoring()`, whose body is not in the sources. -/
def DisableScissoring (s : DynamicSpriteBatch) : DynamicSpriteBatch :=
  let s1 := InsertDrawCommand s
  { s1 with maRenderCommands := s1.maRenderCommands ++
      [{ m_material := none, m_scissorPos := (0, 0), m_scissorSize := (0, 0), m_offset := 0,
         m_stride := 0, m_type := CommandType.k_scissorOff }] }

/-- Submits the sprites in order. -/
def submit : List SpriteData → DynamicSpriteBatch → DynamicSpriteBatch
  | [], s => s
  | sprite :: rest, s => submit rest (Render sprite s)

/-- Submits the sprites in order and then flushes. -/
def submitAndFlush (sprites : List SpriteData) (s : DynamicSpriteBatch) : DynamicSpriteBatch :=
  ForceRender (submit sprites s)

/-- The number of render commands flushed so far plus the number still to come from what is
queued: the queued commands and, when sprites are cached past the last boundary, one more. -/
def commandTotal (s : DynamicSpriteBatch) : Nat :=
  (issued s.flushed).length + s.maRenderCommands.length + s.mudwSpriteCommandCounter

/-- The batcher is idle, or exactly one sprite is cached past the last command boundary and its
material differs from `next`. -/
def oneSpriteRun (s : DynamicSpriteBatch) (next : Nat) : Prop :=
  (s.mudwSpriteCommandCounter = 0 ∧ s.maSpriteCache = [] ∧ s.maRenderCommands = [] ∧
    s.mpLastMaterial = none) ∨
  (s.mudwSpriteCommandCounter = 1 ∧ s.maSpriteCache ≠ [] ∧
    ∃ m, s.mpLastMaterial = some m ∧ m ≠ next)

end DynamicSpriteBatch

/-- `n` sprites that all use material `m`; the quads are numbered. -/
def sameMaterial (m : Nat) : Nat → List SpriteData
  | 0 => []
  | n + 1 => { pMaterial := m, quad := n } :: sameMaterial m n

/-- `n` sprites that alternate between the materials `m1` and `m2`, starting with `m1`. -/
def alternating (m1 m2 : Nat) : Nat → List SpriteData
  | 0 => []
  | n + 1 => { pMaterial := m1, quad := n } :: alternating m2 m1 n

/-! ## Skinned animation group

`SkinnedAnimationGroup.h` declares `CSkinnedAnimationGroup` and its members; the bodies of the
member functions are not part of the sources. Single-precision numbers are modelled as exact
rationals. -/

/-- A vector of three numbers. -/
structure Vector3 where
  x : ℚ
  y : ℚ
  z : ℚ
  deriving DecidableEq

/-- A quaternion. -/
structure Quaternion where
  w : ℚ
  x : ℚ
  y : ℚ
  z : ℚ
  deriving DecidableEq

/-- Modelled from the spec: the local transform of one joint, with translation, orientation
and scale. -/
structure JointTransform where
  translation : Vector3
  orientation : Quaternion
  scale : Vector3
  deriving DecidableEq

/-- Modelled from the spec: a frame of a skinned animation, declared outside these sources;
the local transform of every joint, by joint index. -/
abbrev SkinnedAnimationFrame := Nat → JointTransform

/-- Modelled from the spec: a skinned animation clip, declared outside these sources,
represented by the frame that sampling it at a playback position yields. -/
structure SkinnedAnimation where
  frameAt : ℚ → SkinnedAnimationFrame

/-- `AnimationBlendType::ENUM`. -/
inductive AnimationBlendType
  | LINEAR
  deriving DecidableEq

/-- `CSkinnedAnimationGroup::AnimationItem`. -/
structure AnimationItem where
  pSkinnedAnimation : SkinnedAnimation
  fBlendlinePosition : ℚ

/-- The members of `CSkinnedAnimationGroup` that building the animation data reads or writes;
`mCurrentAnimationData` is `none` for the empty pointer. -/
structure CSkinnedAnimationGroup where
  mAnimations : List AnimationItem
  mCurrentAnimationData : Option SkinnedAnimationFrame
  mbAnimationLengthDirty : Bool
  mbPrepared : Bool

/-- Modelled from the spec: linear interpolation between two numbers. -/
def lerp (a b t : ℚ) : ℚ := a + (b - a) * t

/-- Modelled from the spec: linear interpolation between two vectors. -/
def Vector3.lerp (a b : Vector3) (t : ℚ) : Vector3 :=
  { x := Rendering.lerp a.x b.x t, y := Rendering.lerp a.y b.y t,
    z := Rendering.lerp a.z b.z t }

/-- Modelled from the spec: linear interpolation between two quaternions. -/
def Quaternion.lerp (a b : Quaternion) (t : ℚ) : Quaternion :=
  { w := Rendering.lerp a.w b.w t, x := Rendering.lerp a.x b.x t,
    y := Rendering.lerp a.y b.y t, z := Rendering.lerp a.z b.z t }

/-- Modelled from the spec: the interpolation factor clamped to `[0, 1]`. -/
def clampFactor (t : ℚ) : ℚ := max 0 (min 1 t)

namespace CSkinnedAnimationGroup

/-- Modelled from the spec: the constructor, whose body is not in the sources; the group
starts with no clips and not prepared. -/
def create : CSkinnedAnimationGroup :=
  { mAnimations := [], mCurrentAnimationData := none, mbAnimationLengthDirty := true,
    mbPrepared := false }

/-- Modelled from the spec: `AttachAnimation(clip, blendlinePosition)`, whose body is not in
the sources; adds the pair to the clip set of the group. -/
def AttachAnimation (inpAnimation : SkinnedAnimation) (infBlendlinePosition : ℚ)
    (g : CSkinnedAnimationGroup) : CSkinnedAnimationGroup :=
  { g with
    mAnimations := g.mAnimations ++
      [{ pSkinnedAnimation := inpAnimation, fBlendlinePosition := infBlendlinePosition }],
    mbAnimationLengthDirty := true }

/-- Modelled from the spec: `CalculateAnimationFrame(clip, playbackPosition)`, whose body is
not in the sources; samples the clip at the playback position. -/
def CalculateAnimationFrame (inpAnimation : SkinnedAnimation) (infPlaybackPosition : ℚ) :
    SkinnedAnimationFrame :=
  inpAnimation.frameAt infPlaybackPosition

/-- Modelled from the spec: `LerpBetweenFrames(frameA, frameB, factor)`, whose body is not in
the sources; linearly interpolates the two local transforms of every joint. -/
def LerpBetweenFrames (inFrameA inFrameB : SkinnedAnimationFrame) (infInterpFactor : ℚ) :
    SkinnedAnimationFrame :=
  fun joint =>
    { translation := (inFrameA joint).translation.lerp (inFrameB joint).translation
        infInterpFactor,
      orientation := (inFrameA joint).orientation.lerp (inFrameB joint).orientation
        infInterpFactor,
      scale := (inFrameA joint).scale.lerp (inFrameB joint).scale infInterpFactor }

/-- Modelled from the spec: the lower anchor of the bracket, the last attached clip whose
blendline position is at most `x`. -/
def lowerAnchor (items : List AnimationItem) (x : ℚ) : Option AnimationItem :=
  items.foldl (fun found item => if item.fBlendlinePosition ≤ x then some item else found) none

/-- Modelled from the spec: the upper anchor of the bracket, the first attached clip whose
blendline position is above `x`. -/
def upperAnchor (items : List AnimationItem) (x : ℚ) : Option AnimationItem :=
  items.find? (fun item => decide (x < item.fBlendlinePosition))

/-- Modelled from the spec: the frame `BuildAnimationData` resolves. The two attached clips
whose blendline positions bracket the requested position are sampled at the playback position
and interpolated by the fractional position between the two anchors, clamped to `[0, 1]`; a
position outside the range of the attached clips resolves to the nearest single clip; with no
clip attached there is no frame. Linear is the only supported blend type. -/
def blendedFrame (ineBlendType : AnimationBlendType) (items : List AnimationItem)
    (infPlaybackPosition infBlendlinePosition : ℚ) : Option SkinnedAnimationFrame :=
  match ineBlendType, lowerAnchor items infBlendlinePosition,
      upperAnchor items infBlendlinePosition with
  | .LINEAR, some lo, some hi =>
    some (LerpBetweenFrames
      (CalculateAnimationFrame lo.pSkinnedAnimation infPlaybackPosition)
      (CalculateAnimationFrame hi.pSkinnedAnimation infPlaybackPosition)
      (clampFactor ((infBlendlinePosition - lo.fBlendlinePosition) /
        (hi.fBlendlinePosition - lo.fBlendlinePosition))))
  | .LINEAR, some lo, none =>
    some (CalculateAnimationFrame lo.pSkinnedAnimation infPlaybackPosition)
  | .LINEAR, none, some hi =>
    some (CalculateAnimationFrame hi.pSkinnedAnimation infPlaybackPosition)
  | .LINEAR, none, none => none

/-- Modelled from the spec: `BuildAnimationData(blendType, playbackPosition,
blendlinePosition)`, whose body is not in the sources. The resolved frame becomes the current
animation data and the group is prepared; with no clip attached the group stays as it is. -/
def BuildAnimationData (ineBlendType : AnimationBlendType)
    (infPlaybackPosition infBlendlinePosition : ℚ) (g : CSkinnedAnimationGroup) :
    CSkinnedAnimationGroup :=
  match blendedFrame ineBlendType g.mAnimations infPlaybackPosition infBlendlinePosition with
  | some frame => { g with mCurrentAnimationData := some frame, mbPrepared := true }
  | none => g

end CSkinnedAnimationGroup

/-- A frame in which every joint is translated by `(v, v, v)`, with zero orientation and unit
scale. -/
def constantFrame (v : ℚ) : SkinnedAnimationFrame :=
  fun _ => { translation := { x := v, y := v, z := v },
             orientation := { w := 1, x := 0, y := 0, z := 0 },
             scale := { x := 1, y := 1, z := 1 } }

/-- A clip whose frame at playback position `t` translates every joint by `offset + t`. -/
def slidingClip (offset : ℚ) : SkinnedAnimation :=
  { frameAt := fun t => constantFrame (offset + t) }

/-- The "walk" item of the example group: the clip that starts at offset 10, attached at
blendline position 1. -/
def walkItem : AnimationItem :=
  { pSkinnedAnimation := slidingClip 10, fBlendlinePosition := 1 }

/-- A group with an "idle" clip at blendline position 0 and the "walk" clip at position 1. -/
def idleWalkGroup : CSkinnedAnimationGroup :=
  CSkinnedAnimationGroup.AttachAnimation walkItem.pSkinnedAnimation walkItem.fBlendlinePosition
    (CSkinnedAnimationGroup.AttachAnimation (slidingClip 0) 0 CSkinnedAnimationGroup.create)

end Rendering
end ChilliSource

/-! # Application: resource providers and resource directories

`CApplication::GetResourceProviderProducing` and `CApplication::DetermineResourceDirectories`
of `Core/Base/Application.cpp`. -/

namespace ChilliSource
namespace Core

/-- An interface identifier (`InterfaceIDType`), a hash of the interface name. -/
abbrev InterfaceIDType := Nat

/-- The queries of `IResourceProvider` the application uses; `address` tells providers apart.
The interface itself is declared outside these sources, its two predicates are the ones
`CSceneProvider` overrides in `Core/Scene/SceneProvider.cpp`. -/
structure IResourceProvider where
  address : Nat
  CanCreateResourceOfKind : InterfaceIDType → Bool
  CanCreateResourceFromFileWithExtension : String → Bool

/-- The interface identifier `CSceneDesc::InterfaceID`; the hash value is a stand-in. -/
def CSceneDesc_InterfaceID : InterfaceIDType := 1

/-- An interface identifier of another resource type (a texture); the hash value is a
stand-in. -/
def ITexture_InterfaceID : InterfaceIDType := 2

/-- The file extension `kMoSceneExtension` of `SceneProvider.cpp`. -/
def kMoSceneExtension : String := "moscene"

/-- The provider `CSceneProvider` of `SceneProvider.cpp`: it creates resources of the kind
`CSceneDesc` only, from files with the extension `moscene` only. -/
def CSceneProvider (address : Nat) : IResourceProvider :=
  { address := address,
    CanCreateResourceOfKind := fun inInterfaceID => inInterfaceID == CSceneDesc_InterfaceID,
    CanCreateResourceFromFileWithExtension := fun inExtension =>
      inExtension == kMoSceneExtension }

/-- `CApplication::GetResourceProviderProducing(inInterfaceID, inExtension)` over the registered
providers `mResourceProviders`: the loop returns the first provider that accepts the
extension, `none` is the `NULL` after the loop. The body never reads `inInterfaceID`. -/
def GetResourceProviderProducing (mResourceProviders : List IResourceProvider)
    (inInterfaceID : InterfaceIDType) (inExtension : String) : Option IResourceProvider :=
  let _ := inInterfaceID
  mResourceProviders.find? fun pProv => pProv.CanCreateResourceFromFileWithExtension inExtension

/-- One entry of the directory table: `ResourceDirectoryInfo`, with the two densities as exact
rationals. -/
structure ResourceDirectoryInfo where
  strDirectory : String
  udwMaxRes : Nat
  fMaxDensity : ℚ
  fResourcesDensity : ℚ

/-- `ResolutionSortPredicate(inLHS, inRHS)`. -/
def ResolutionSortPredicate (inLHS inRHS : ResourceDirectoryInfo) : Bool :=
  inLHS.udwMaxRes < inRHS.udwMaxRes

/-- What `std::sort` with `ResolutionSortPredicate` guarantees of its result: a rearrangement
of the input in which no later entry comes before an earlier one under the predicate. The
order of entries with equal `udwMaxRes` is not fixed. -/
def SortsByResolution (stdSort : List ResourceDirectoryInfo → List ResourceDirectoryInfo) :
    Prop :=
  ∀ l, (stdSort l).Perm l ∧
    (stdSort l).Pairwise fun a b => ResolutionSortPredicate b a = false

/-- One `std::sort` that is allowed: ordered insertion by `udwMaxRes`. -/
def insertByResolution (x : ResourceDirectoryInfo) :
    List ResourceDirectoryInfo → List ResourceDirectoryInfo
  | [] => [x]
  | y :: rest =>
    if ResolutionSortPredicate y x then y :: insertByResolution x rest else x :: y :: rest

/-- Insertion sort by `udwMaxRes`, one admissible behaviour of `std::sort`. -/
def sortByResolution : List ResourceDirectoryInfo → List ResourceDirectoryInfo
  | [] => []
  | x :: rest => insertByResolution x (sortByResolution rest)

/-- The four arguments `DetermineResourceDirectories` hands to
`IFileSystem::SetResourceDirectories`. -/
structure ResourceDirectories where
  strDeviceDir : String
  strDefaultDeviceDir : String
  strDefaultDir : String
  fAssetDensity : ℚ

/-- The test of the selection loop: "the density and the resolution must both be under the
maximum for the directory to be selected". -/
def fitsScreen (udwCurrentRes : Nat) (fCurrenctDensity : ℚ) (it : ResourceDirectoryInfo) :
    Bool :=
  decide (udwCurrentRes ≤ it.udwMaxRes) && decide (fCurrenctDensity ≤ it.fMaxDensity)

/-- The selection loop of `DetermineResourceDirectories` over the sorted table: the pair
`(strDeviceDir, fAssetDensity)` after the loop, which starts as `("", 1.0)` and is
overwritten by the first entry that passes the test (`break`). -/
def selectDirectory (udwCurrentRes : Nat) (fCurrenctDensity : ℚ) :
    List ResourceDirectoryInfo → String × ℚ
  | [] => ("", 1)
  | it :: rest =>
    if fitsScreen udwCurrentRes fCurrenctDensity it then (it.strDirectory, it.fResourcesDensity)
    else selectDirectory udwCurrentRes fCurrenctDensity rest

/-- `CApplication::DetermineResourceDirectories()`. The table and the two default directories
are what the application's `SetResourceDirectories` override filled in, `width`, `height` and
`density` are what `CScreen` reports, `stdSort` is the behaviour of `std::sort`. The product of
the two `u32` dimensions wraps at `2 ^ 32`. -/
def DetermineResourceDirectories
    (stdSort : List ResourceDirectoryInfo → List ResourceDirectoryInfo)
    (aDirectoryInfos : List ResourceDirectoryInfo) (strDefaultDeviceDir strDefaultDir : String)
    (width height : Nat) (density : ℚ) : ResourceDirectories :=
  let sorted := stdSort aDirectoryInfos
  let udwCurrentRes := (width * height) % 2 ^ 32
  let found := selectDirectory udwCurrentRes density sorted
  let strDeviceDir := if found.1 = "" then strDefaultDeviceDir else found.1
  { strDeviceDir := strDeviceDir, strDefaultDeviceDir := strDefaultDeviceDir,
    strDefaultDir := strDefaultDir, fAssetDensity := found.2 }

/-- Whether an entry admits the screen: both of its maxima are at least what the screen
has. -/
def ResourceDirectoryInfo.admits (e : ResourceDirectoryInfo) (resolution : Nat)
    (density : ℚ) : Prop :=
  resolution ≤ e.udwMaxRes ∧ density ≤ e.fMaxDensity

instance (e : ResourceDirectoryInfo) (resolution : Nat) (density : ℚ) :
    Decidable (e.admits resolution density) :=
  inferInstanceAs (Decidable (resolution ≤ e.udwMaxRes ∧ density ≤ e.fMaxDensity))

/-- A directory table with a high-definition and a standard-definition entry. -/
def twoDirectories : List ResourceDirectoryInfo :=
  [ { strDirectory := "HD/", udwMaxRes := 2073600, fMaxDensity := 3, fResourcesDensity := 2 },
    { strDirectory := "SD/", udwMaxRes := 409920, fMaxDensity := 2, fResourcesDensity := 1 } ]

/-- A directory table whose only entry keeps its resources in the root directory `""`. -/
def rootDirectory : List ResourceDirectoryInfo :=
  [ { strDirectory := "", udwMaxRes := 2073600, fMaxDensity := 3, fResourcesDensity := 2 } ]

/-! # Localised text

`CLocalisedText` of `Core/Locale/LocalisedText.cpp`. -/

/-- A UTF-8 string (`UTF8String`), and the bytes of a `std::string`, as a list of
characters. -/
abbrev UTF8String := List Char

/-- Modelled from the spec: `CStringUtils::UTF8_MISSING`, the marker returned for a key without
text. The constant is defined outside these sources; its characters play no role. -/
def UTF8_MISSING : UTF8String := "MISSING".toList

/-- A text key (`LocalisedTextKey`), a signed 32-bit integer. -/
abbrev LocalisedTextKey := Int

/-- The conversion `(s32)` of a `u32` value. -/
def toS32 (n : Nat) : Int :=
  if n % 2 ^ 32 < 2 ^ 31 then (n % 2 ^ 32 : Nat) else ((n % 2 ^ 32 : Nat) : Int) - 2 ^ 32

/-- Modelled from the spec: the file stream behind a non-null `FileStreamPtr`, a class declared
outside these sources. `bad` and `open` are what `IsBad()` and `IsOpen()` answer, `content`
is what `GetAll` reads, and `lines` are the lines `GetLine` still has to deliver (an exhausted
stream delivers empty lines). -/
structure FileStream where
  bad : Bool
  isOpen : Bool
  content : List Char
  lines : List String
  deriving DecidableEq

namespace FileStream

/-- The stream after `Close()`. -/
def Close (f : FileStream) : FileStream := { f with isOpen := false }

/-- The guard body `if(stream->IsOpen()) stream->Close();`. -/
def closeIfOpen (f : FileStream) : FileStream := if f.isOpen then f.Close else f

/-- The call `GetLine(strID)`: the line read and the stream after it. -/
def GetLine (f : FileStream) : String × FileStream :=
  match f.lines with
  | [] => ("", f)
  | l :: rest => (l, { f with lines := rest })

end FileStream

/-- The static state of `CLocalisedText`: `mudwLineCount`, the array `mpText` (`none` is
`NULL`) and the table `mpTextLookup` (`none` is `NULL`). The table type `IDToLookupIndex` is
declared outside these sources; it is kept as the list of inserted pairs, searched from the
front. -/
structure CLocalisedText where
  mudwLineCount : Nat
  mpText : Option (List UTF8String)
  mpTextLookup : Option (List (String × LocalisedTextKey))
  deriving DecidableEq

namespace CLocalisedText

/-- The state before any load: the static initialisers. -/
def initial : CLocalisedText := { mudwLineCount := 0, mpText := none, mpTextLookup := none }

/-- `CLocalisedText::GetText(const LocalisedTextKey&)`. The result `none` is undefined
behaviour: indexing a null array or indexing past its end. -/
def GetText (s : CLocalisedText) (inKey : LocalisedTextKey) : Option UTF8String :=
  if 0 ≤ inKey ∧ inKey < toS32 s.mudwLineCount then
    match s.mpText with
    | some text => text[inKey.toNat]?
    | none => none
  else some UTF8_MISSING

/-- `CLocalisedText::GetText(const std::string&)`. The result `none` is the failed
`MOFLOW_ASSERT(mpTextLookup, ...)`, or undefined behaviour inside the keyed call. -/
def GetTextByID (s : CLocalisedText) (instrID : String) : Option UTF8String :=
  match s.mpTextLookup with
  | none => none
  | some lookup =>
    match lookup.lookup instrID with
    | some key => GetText s key
    | none => GetText s (-1)

/-- The first loop of `LoadLocalisedText`, over what is left of the file: the pair
`(udwLineCount, udwCurrentLine)` after it. A line feed followed by a carriage return, or a
carriage return followed by a line feed, is consumed as one terminator; the last character
of the file has no successor to look at (`itNext != strFile.end()`). -/
def countLines : List Char → Nat → Nat → Nat × Nat
  | [], udwLineCount, udwCurrentLine => (udwLineCount, udwCurrentLine)
  | [byChar], udwLineCount, udwCurrentLine =>
    if byChar = '\n' ∨ byChar = '\r' then (udwLineCount + 1, 0)
    else (udwLineCount, udwCurrentLine + 1)
  | byChar :: next :: rest, udwLineCount, udwCurrentLine =>
    if byChar = '\n' then
      if next = '\r' then countLines rest (udwLineCount + 1) 0
      else countLines (next :: rest) (udwLineCount + 1) 0
    else if byChar = '\r' then
      if next = '\n' then countLines rest (udwLineCount + 1) 0
      else countLines (next :: rest) (udwLineCount + 1) 0
    else countLines (next :: rest) udwLineCount (udwCurrentLine + 1)

/-- The line count `LoadLocalisedText` stores in `mudwLineCount`: the terminators counted by
the first loop, plus one when characters follow the last terminator ("catch if last line has no
newline"). -/
def lineCount (strFile : List Char) : Nat :=
  let r := countLines strFile 0 0
  if r.2 ≠ 0 then r.1 + 1 else r.1

/-- The assignment `mpText[index] = value`; writing past the end of the array is undefined
behaviour (`none`). -/
def assign (mpText : List UTF8String) (index : Nat) (value : UTF8String) :
    Option (List UTF8String) :=
  if index < mpText.length then some (mpText.set index value) else none

/-- The second loop of `LoadLocalisedText`, over what is left of the file, with the line under
construction `strTextLine`, the index `udwCurrentLine` and the array `mpText`: the array after
the loop. A terminator stores the line under construction; any other character is appended to
it, a backslash followed by `n` as one line feed. Nothing is stored after the loop. -/
def storeLines : List Char → UTF8String → Nat → List UTF8String → Option (List UTF8String)
  | [], _, _, mpText => some mpText
  | [byChar], strTextLine, udwCurrentLine, mpText =>
    if byChar = '\n' ∨ byChar = '\r' then assign mpText udwCurrentLine strTextLine
    else some mpText
  | byChar :: next :: rest, strTextLine, udwCurrentLine, mpText =>
    if byChar = '\n' then
      (assign mpText udwCurrentLine strTextLine).bind fun mpText1 =>
        if next = '\r' then storeLines rest [] (udwCurrentLine + 1) mpText1
        else storeLines (next :: rest) [] (udwCurrentLine + 1) mpText1
    else if byChar = '\r' then
      (assign mpText udwCurrentLine strTextLine).bind fun mpText1 =>
        if next = '\n' then storeLines rest [] (udwCurrentLine + 1) mpText1
        else storeLines (next :: rest) [] (udwCurrentLine + 1) mpText1
    else if byChar = '\\' ∧ next = 'n' then
      storeLines rest (strTextLine ++ ['\n']) udwCurrentLine mpText
    else storeLines (next :: rest) (strTextLine ++ [byChar]) udwCurrentLine mpText

/-- `CLocalisedText::LoadLocalisedText(incLocaleFile)`: the `bool` result, the state and the
stream after the call. A null stream passes the test `incLocaleFile == NULL` and is then
dereferenced by `incLocaleFile->IsOpen()`: undefined behaviour, `none`. -/
def LoadLocalisedText (s : CLocalisedText) (incLocaleFile : Option FileStream) :
    Option (Bool × CLocalisedText × FileStream) :=
  match incLocaleFile with
  | none => none
  | some file =>
    if file.bad then some (false, s, file.closeIfOpen)
    else
      let strFile := file.content
      let mudwLineCount := lineCount strFile
      (storeLines strFile [] 0 (List.replicate mudwLineCount [])).map fun mpText =>
        (true, { s with mudwLineCount := mudwLineCount, mpText := some mpText }, file.Close)

/-- The loop of `LoadTextID`: `count` more lines are read and inserted under the keys from
`udwCurrentLine` on. -/
def readIDs : Nat → Nat → FileStream → List (String × LocalisedTextKey) →
    List (String × LocalisedTextKey) × FileStream
  | 0, _, file, lookup => (lookup, file)
  | count + 1, udwCurrentLine, file, lookup =>
    let r := file.GetLine
    readIDs count (udwCurrentLine + 1) r.2 (lookup ++ [(r.1, toS32 udwCurrentLine)])

/-- `CLocalisedText::LoadTextID(incIDFile)`: the `bool` result, the state and the stream after
the call. A null stream is dereferenced by `incIDFile->IsOpen()`: undefined behaviour,
`none`. -/
def LoadTextID (s : CLocalisedText) (incIDFile : Option FileStream) :
    Option (Bool × CLocalisedText × FileStream) :=
  match incIDFile with
  | none => none
  | some file =>
    if file.bad then some (false, s, file.closeIfOpen)
    else
      let r := readIDs s.mudwLineCount 0 file []
      some (true, { s with mpTextLookup := some r.1 }, r.2.Close)

/-- `CLocalisedText::LoadTextFromFile(ineLocation, inFilePath, inFileName)`: the `bool` result
and the state after the call. `localFile` and `idFile` are the streams the file system creates
for the text file and for `TagText.id`. -/
def LoadTextFromFile (s : CLocalisedText) (localFile idFile : Option FileStream) :
    Option (Bool × CLocalisedText) :=
  let s0 := { s with mpText := none, mpTextLookup := none, mudwLineCount := 0 }
  (LoadLocalisedText s0 localFile).bind fun r1 =>
    if r1.1 = false then some (false, r1.2.1)
    else
      (LoadTextID r1.2.1 idFile).bind fun r2 =>
        if r2.1 = false then some (false, r2.2.1)
        else some (true, r2.2.1)

end CLocalisedText

/-- A good, open stream over the given text. -/
def textStream (content : String) : FileStream :=
  { bad := false, isOpen := true, content := content.toList, lines := [] }

/-- A good, open stream that delivers the given lines to `GetLine`. -/
def idStream (lines : List String) : FileStream :=
  { bad := false, isOpen := true, content := [], lines := lines }

/-- A stream that reports `IsBad()`, as for a file that does not exist. -/
def badStream : FileStream := { bad := true, isOpen := false, content := [], lines := [] }

/-- The state with the two lines `a` and `b` under the identifiers `ID_A` and `ID_B`. -/
def twoLines : CLocalisedText :=
  { mudwLineCount := 2, mpText := some ["a".toList, "b".toList],
    mpTextLookup := some [("ID_A", 0), ("ID_B", 1)] }

end Core
end ChilliSource

/-! # String parser

`EnumerateItems` of `Core/String/StringParser.cpp`. -/

namespace ChilliSource
namespace Core

/-- The read `in_stringList[i]` of a constant `std::string`: the character at `i`, and the
terminating null character at `i = size()`. -/
def charAt (in_stringList : List Char) (i : Nat) : Char := in_stringList.getD i '\x00'

/-- The inner loop `while(in_stringList[i] != ' ' && i < size) i++;`: the index after it, or
`none` when the fuel runs out first. -/
def skipItem (in_stringList : List Char) (size : Nat) : Nat → Nat → Option Nat
  | 0, _ => none
  | fuel + 1, i =>
    if charAt in_stringList i ≠ ' ' ∧ i < size then skipItem in_stringList size fuel (i + 1)
    else some i

/-- The inner loop `while(in_stringList[i] == ' ' && i < size) i++;`: the index after it, or
`none` when the fuel runs out first. -/
def skipSpaces (in_stringList : List Char) (size : Nat) : Nat → Nat → Option Nat
  | 0, _ => none
  | fuel + 1, i =>
    if charAt in_stringList i = ' ' ∧ i < size then skipSpaces in_stringList size fuel (i + 1)
    else some i

/-- The outer loop `while(i < size)` of `EnumerateItems` from the state `(i, itemCount)`: the
item count after it, or `none` when the fuel runs out first. Each loop of one pass gets the
fuel that is left. -/
def enumerateLoop (in_stringList : List Char) (size : Nat) : Nat → Nat → Nat → Option Nat
  | 0, _, _ => none
  | fuel + 1, i, itemCount =>
    if i < size then
      (if charAt in_stringList i ≠ ' ' then
          (skipItem in_stringList size (fuel + 1) i).map fun i1 => (i1, itemCount + 1)
        else some (i, itemCount)).bind fun st =>
        (skipSpaces in_stringList size (fuel + 1) st.1).bind fun i2 =>
          enumerateLoop in_stringList size fuel i2 st.2
    else some itemCount

/-- `EnumerateItems(in_stringList)` run with the given fuel. The length is stored in a `u32`
(`const u32 size = in_stringList.size()`), so it wraps at `2 ^ 32`; the counters `i` and
`itemCount` never exceed `size`. -/
def EnumerateItems (fuel : Nat) (in_stringList : List Char) : Option Nat :=
  enumerateLoop in_stringList (in_stringList.length % 2 ^ 32) fuel 0 0

/-- The number of positions of the string at which a run of non-space characters starts: a
character other than `' '` that is the first of the string or follows a `' '`. The flag says
whether the previous character was a space (or there was none). -/
def runStarts : Bool → List Char → Nat
  | _, [] => 0
  | afterSpace, c :: rest =>
    (if afterSpace ∧ c ≠ ' ' then 1 else 0) + runStarts (c == ' ') rest

/-- The number of maximal runs of non-space characters of a string, as the specification
words it: every maximal run has exactly one start. -/
def maximalRuns (s : List Char) : Nat := runStarts true s

end Core

/-! # Widget properties

`Widget::SetProperty` and `Widget::GetProperty` of `UI/Base/Widget.h`. -/

namespace UI

/-- Modelled from the spec: `PropertyAccessor<TType>`, declared in `PropertyAccessor.h`, which is
outside these sources: a setter and a getter delegate bound to the widget at address `owner`,
acting on that widget's members `F`. -/
structure PropertyAccessor (F V : Type) where
  owner : Nat
  setter : F → V → F
  getter : F → V

/-- Modelled from the spec: `PropertyMap`, declared in `PropertyMap.h`, which is outside these
sources: the named properties a widget was defined with and their current values. -/
abbrev PropertyMap (V : Type) := List (String × V)

namespace PropertyMap

/-- Modelled from the spec: `PropertyMap::SetProperty(name, value)`. As the comment on
`Widget::SetProperty` says, "if no property exists with the name then it will assert"
(`none`); otherwise the value under the name is replaced. -/
def SetProperty {V : Type} (m : PropertyMap V) (in_name : String) (in_value : V) :
    Option (PropertyMap V) :=
  if (m.lookup in_name).isSome then
    some (m.map fun kv => if kv.1 = in_name then (kv.1, in_value) else kv)
  else none

/-- Modelled from the spec: `PropertyMap::GetProperty(name)`. As the comment on
`Widget::GetProperty` says, "if no property exists with the name then it will assert"
(`none`). -/
def GetProperty {V : Type} (m : PropertyMap V) (in_name : String) : Option V :=
  m.lookup in_name

end PropertyMap

/-- The members of `Widget` that `SetProperty` and `GetProperty` use: the members `fields`
behind the default accessors, `m_customProperties`, `m_defaultPropertyLinks` and
`m_customPropertyLinks` (a linked widget is named by its address). All properties hold values
of the one type `V`, the `TType` of the call. -/
structure Widget (F V : Type) where
  fields : F
  m_customProperties : PropertyMap V
  m_defaultPropertyLinks : List (String × PropertyAccessor F V)
  m_customPropertyLinks : List (String × (Nat × String))

/-- The widgets in memory; the address of a widget is its position. -/
abbrev Widgets (F V : Type) := List (Widget F V)

namespace Widget

/-- The call `accessor->Set(in_value)`: the owner's members are replaced by what the setter
returns. An accessor whose owner is gone is a dangling pointer (`none`). -/
def accessorSet {F V : Type} (ws : Widgets F V) (accessor : PropertyAccessor F V)
    (in_value : V) : Option (Widgets F V) :=
  match ws[accessor.owner]? with
  | some o => some (ws.set accessor.owner { o with fields := accessor.setter o.fields in_value })
  | none => none

/-- The call `accessor->Get()`. -/
def accessorGet {F V : Type} (ws : Widgets F V) (accessor : PropertyAccessor F V) :
    Option V :=
  match ws[accessor.owner]? with
  | some o => some (accessor.getter o.fields)
  | none => none

/-- `Widget::SetProperty<TType>(in_name, in_value)` on the widget at address `self`: the
widgets after the call. The fuel bounds the depth of forwarding through custom property links;
`none` is a failed assertion, a dangling pointer, or forwarding that does not end within the
fuel. -/
def SetProperty {F V : Type} : Nat → Widgets F V → Nat → String → V → Option (Widgets F V)
  | 0, _, _, _, _ => none
  | fuel + 1, ws, self, in_name, in_value =>
    match ws[self]? with
    | none => none
    | some w =>
      match w.m_defaultPropertyLinks.lookup in_name with
      | some accessor => accessorSet ws accessor in_value
      | none =>
        match w.m_customPropertyLinks.lookup in_name with
        | some link => SetProperty fuel ws link.1 link.2 in_value
        | none =>
          (PropertyMap.SetProperty w.m_customProperties in_name in_value).map fun m =>
            ws.set self { w with m_customProperties := m }

/-- `Widget::GetProperty<TType>(in_name)` on the widget at address `self`. -/
def GetProperty {F V : Type} : Nat → Widgets F V → Nat → String → Option V
  | 0, _, _, _ => none
  | fuel + 1, ws, self, in_name =>
    match ws[self]? with
    | none => none
    | some w =>
      match w.m_defaultPropertyLinks.lookup in_name with
      | some accessor => accessorGet ws accessor
      | none =>
        match w.m_customPropertyLinks.lookup in_name with
        | some link => GetProperty fuel ws link.1 link.2
        | none => PropertyMap.GetProperty w.m_customProperties in_name

end Widget

/-- The link tables of a widget. -/
def links {F V : Type} (w : Widget F V) :
    List (String × PropertyAccessor F V) × List (String × (Nat × String)) :=
  (w.m_defaultPropertyLinks, w.m_customPropertyLinks)

/-- Every accessor of every widget returns from its getter what its setter was last given. -/
def LawfulAccessors {F V : Type} (ws : Widgets F V) : Prop :=
  ∀ w ∈ ws, ∀ link ∈ w.m_defaultPropertyLinks, ∀ f v, link.2.getter (link.2.setter f v) = v

/-- The accessor of the default property `Rotation`: `SetRotation` and `GetLocalRotation` on
the member `m_localRotation`, the only member kept in the examples. -/
def rotationAccessor (owner : Nat) : PropertyAccessor Int Int :=
  { owner := owner, setter := fun _ v => v, getter := fun f => f }

/-- Two widgets: a slider at address 0, which has the default property `Rotation`, the custom
property `Value`, and forwards `HandleSize` to the custom property `Size` of its private
sub-widget at address 1. -/
def sliderWidgets : Widgets Int Int :=
  [ { fields := 0, m_customProperties := [("Value", 5)],
      m_defaultPropertyLinks := [("Rotation", rotationAccessor 0)],
      m_customPropertyLinks := [("HandleSize", (1, "Size"))] },
    { fields := 0, m_customProperties := [("Size", 3)],
      m_defaultPropertyLinks := [("Rotation", rotationAccessor 1)],
      m_customPropertyLinks := [] } ]

end UI
end ChilliSource

/-! # Application delegates (Windows)

`CApplicationDelegates` of `Backend/Platform/Windows/ApplicationDelegatesWindows.cpp`, with
times as exact rationals: the idealisation in which the calls of a frame are traced. How many
fixed updates the binary32 arithmetic of the program makes is the subject of the section on
the fixed-update loop in binary32 arithmetic. -/

namespace ChilliSource
namespace WindowsPlatform

/-- The constant `kfUpdateClampThreshold` of `Application.cpp` (`0.33f`). -/
def kfUpdateClampThreshold : ℚ := 33 / 100

/-- The constant `kfUpdateIntervalMax` of `Application.cpp`: "we never carry more than this
to the next frame". -/
def kfUpdateIntervalMax : ℚ := kfUpdateClampThreshold

/-- The constant `kfDefaultUpdateInterval` of `Application.cpp`. -/
def kfDefaultUpdateInterval : ℚ := 1 / 60

/-- The calls the delegates make into the rest of the engine. -/
inductive AppCall
  | renderSystemResume
  | resumeEvent
  | stateManagerResume
  | stateManagerPause
  | setUpdaterActive (inbActive : Bool)
  | renderSystemSuspend
  | suspendEvent
  | lateSuspendEvent
  | executeMainThreadTasks
  | fixedUpdate (dt : ℚ)
  | update (dt : ℚ)
  | renderToScreen
  | flushBufferedInput
  deriving DecidableEq

/-- The static state of `CApplication` the delegates read and write: the update interval, the
elapsed time set by `SetAppElapsedTime`, whether a render system and an input system exist, and
the trace of the calls made so far. -/
structure CApplication where
  mfUpdateInterval : ℚ
  uddwCurrentAppTime : Nat
  hasRenderSystem : Bool
  hasInputSystem : Bool
  calls : List AppCall

namespace CApplication

/-- `CApplication::GetUpdateInterval()`. -/
def GetUpdateInterval (app : CApplication) : ℚ := app.mfUpdateInterval

/-- `CApplication::GetUpdateIntervalMax()`. -/
def GetUpdateIntervalMax (_app : CApplication) : ℚ := kfUpdateIntervalMax

/-- One call into the engine, appended to the trace. -/
def call (c : AppCall) (app : CApplication) : CApplication :=
  { app with calls := app.calls ++ [c] }

/-- The number of `FixedUpdate` calls in the trace. -/
def fixedUpdates (app : CApplication) : Nat :=
  (app.calls.filter fun c => match c with
    | .fixedUpdate _ => true
    | _ => false).length

end CApplication

/-- The members of `CApplicationDelegates`. -/
structure CApplicationDelegates where
  mfUpdateIntervalRemainder : ℚ
  mbShouldInvokeResumeEvent : Bool
  mbIsFirstFrame : Bool
  mbIsSuspending : Bool

/-- The application statics together with the delegates object. -/
abbrev AppState := CApplication × CApplicationDelegates

namespace CApplicationDelegates

/-- The constructor `CApplicationDelegates::CApplicationDelegates()`. -/
def create : CApplicationDelegates :=
  { mfUpdateIntervalRemainder := 0, mbShouldInvokeResumeEvent := false, mbIsFirstFrame := true,
    mbIsSuspending := false }

/-- The fixed-update loop of `OnFrameBegin`,
`while((mfUpdateIntervalRemainder >= GetUpdateInterval()) || mbIsFirstFrame)`: the state after
the loop, or `none` when the fuel runs out first. -/
def fixedUpdateLoop : Nat → AppState → Option AppState
  | 0, _ => none
  | fuel + 1, s =>
    if s.2.mfUpdateIntervalRemainder ≥ s.1.GetUpdateInterval ∨ s.2.mbIsFirstFrame then
      fixedUpdateLoop fuel
        (s.1.call (.fixedUpdate s.1.GetUpdateInterval),
         { s.2 with
           mfUpdateIntervalRemainder := s.2.mfUpdateIntervalRemainder - s.1.GetUpdateInterval,
           mbIsFirstFrame := false })
    else some s

end CApplicationDelegates

/-- The time the fixed-update loop starts from: `min(remainder + dt, 0.33)`. -/
def clampedTime (s : AppState) (infDt : ℚ) : ℚ :=
  min (s.2.mfUpdateIntervalRemainder + infDt) s.1.GetUpdateIntervalMax

/-- The state a frame leaves behind when its loop makes `k` fixed updates. -/
def frameOutcome (k : Nat) (infDt : ℚ) (inuddwTimestamp : Nat) (s : AppState) : AppState :=
  ({ s.1 with
      uddwCurrentAppTime := inuddwTimestamp,
      calls := s.1.calls ++ [AppCall.executeMainThreadTasks] ++
        List.replicate k (AppCall.fixedUpdate s.1.GetUpdateInterval) ++
        [AppCall.update infDt, AppCall.renderToScreen] ++
        (if s.1.hasInputSystem then [AppCall.flushBufferedInput] else []) },
   { s.2 with
      mfUpdateIntervalRemainder := clampedTime s infDt - k * s.1.GetUpdateInterval,
      mbIsFirstFrame := false })

end WindowsPlatform
end ChilliSource

/-! # The fixed-update loop in binary32 arithmetic

The remainder, the frame time and the update interval are `f32` values, and every addition and
subtraction of `OnFrameBegin` rounds its result to binary32. A finite binary32 value is an
integer multiple of `2 ^ (-149)`; it is kept as that integer. -/

namespace ChilliSource
namespace WindowsPlatform
namespace Binary32

/-- The search for the exponent of a magnitude `n`: the least `s` from the given one on with
`n < 2 ^ (s + 24)`, so that `n / 2 ^ s` has at most 24 bits. The fuel `n` is always enough. -/
def shiftUp : Nat → Nat → Nat → Nat
  | 0, s, _ => s
  | fuel + 1, s, n => if n < 2 ^ (s + 24) then s else shiftUp fuel (s + 1) n

/-- Rounding of a magnitude to a 24-bit significand, to nearest, ties to even (the default
rounding of IEEE 754). Magnitudes below `2 ^ 24`, the subnormal range and the first normal
binade, are kept as they are. The exponent is not bounded above: a result beyond the largest
finite binary32 value stands for the infinity the hardware returns, which compares with
finite values in the same way. -/
def roundMagnitude (n : Nat) : Nat :=
  let shift := shiftUp n 0 n
  let q := n / 2 ^ shift
  let r := n % 2 ^ shift
  if 2 * r > 2 ^ shift ∨ (2 * r = 2 ^ shift ∧ q % 2 = 1) then (q + 1) * 2 ^ shift
  else q * 2 ^ shift

/-- Rounding of an exact result to binary32. -/
def roundF32 (x : Int) : Int :=
  if x < 0 then -(roundMagnitude x.natAbs : Int) else (roundMagnitude x.natAbs : Int)

/-- The `f32` addition `a + b`. -/
def add (a b : Int) : Int := roundF32 (a + b)

/-- The `f32` subtraction `a - b`. -/
def sub (a b : Int) : Int := roundF32 (a - b)

/-- The binary32 value `significand * 2 ^ (exponent - 149)`. -/
def ofBits (significand exponent : Nat) : Int := ((significand * 2 ^ exponent : Nat) : Int)

/-- The constant `kfUpdateIntervalMax` of `Application.cpp`, `0.33f`: the bit pattern
`0x3EA8F5C3`, which is `11072963 * 2 ^ (-25)`. -/
def kfUpdateIntervalMax : Int := ofBits 11072963 124

/-- The constant `kfDefaultUpdateInterval` of `Application.cpp`, `1.0f/60.0f`: the bit pattern
`0x3C888889`, which is `8947849 * 2 ^ (-29)`. -/
def kfDefaultUpdateInterval : Int := ofBits 8947849 120

/-- The frame time `0.1f`: the bit pattern `0x3DCCCCCD`, which is `13421773 * 2 ^ (-27)`. -/
def oneTenth : Int := ofBits 13421773 122

/-- The update interval `1e-9f`: the bit pattern `0x3089705F`, which is
`9007199 * 2 ^ (-53)`. -/
def oneBillionth : Int := ofBits 9007199 96

/-- What lines 120 to 128 of `OnFrameBegin` read and write: the two members
`mfUpdateIntervalRemainder` and `mbIsFirstFrame`, and the number of `FixedUpdate` calls made
so far. -/
structure UpdateState where
  mfUpdateIntervalRemainder : Int
  mbIsFirstFrame : Bool
  fixedUpdates : Nat
  deriving DecidableEq

/-- The fixed-update loop of `OnFrameBegin`,
`while((mfUpdateIntervalRemainder >= GetUpdateInterval()) || mbIsFirstFrame)`, with the
subtraction rounded to binary32: the state after the loop, or `none` when the fuel runs out
first. -/
def fixedUpdateLoop (interval : Int) : Nat → UpdateState → Option UpdateState
  | 0, _ => none
  | fuel + 1, s =>
    if s.mfUpdateIntervalRemainder ≥ interval ∨ s.mbIsFirstFrame then
      fixedUpdateLoop interval fuel
        { mfUpdateIntervalRemainder := sub s.mfUpdateIntervalRemainder interval,
          mbIsFirstFrame := false, fixedUpdates := s.fixedUpdates + 1 }
    else some s

/-- The time the loop starts from, `Min(mfUpdateIntervalRemainder + infDt,
GetUpdateIntervalMax())`, with the addition rounded to binary32. -/
def clampedTime (s : UpdateState) (infDt : Int) : Int :=
  min (add s.mfUpdateIntervalRemainder infDt) kfUpdateIntervalMax

/-- Lines 120 to 128 of `OnFrameBegin` in binary32 arithmetic: the assignment of the clamped
time to `mfUpdateIntervalRemainder`, and the fixed-update loop. -/
def runFixedUpdates (interval infDt : Int) (fuel : Nat) (s : UpdateState) :
    Option UpdateState :=
  fixedUpdateLoop interval fuel { s with mfUpdateIntervalRemainder := clampedTime s infDt }

end Binary32
end WindowsPlatform
end ChilliSource

/-! # Lemmas on the GL model and on memory -/

namespace ChilliSource
namespace OpenGL

/-- The name `glGenBuffers` returns exceeds every name in use. -/
theorem lt_freshName (names : List Nat) (n : Nat) (h : n ∈ names) : n < freshName names := by
  unfold freshName
  induction names with
  | nil => cases h
  | cons a t ih =>
    simp only [List.foldr_cons]
    rcases List.mem_cons.mp h with rfl | h
    · exact Nat.lt_succ_of_le (le_max_left _ _)
    · exact lt_of_lt_of_le (ih h) (Nat.succ_le_succ (le_max_right _ _))

/-- The name `glGenBuffers` returns is not in use. -/
theorem freshName_not_mem (names : List Nat) : freshName names ∉ names :=
  fun h => lt_irrefl _ (lt_freshName names _ h)

/-- `glBufferData` appends exactly its own entry to the trace. -/
theorem glBufferData_calls (t : Target) (n : Nat) (d : Option (List Nat)) (u : Nat)
    (g : GLState) :
    (glBufferData t n d u g).calls = g.calls ++ [GLCall.bufferData t n d u] := by
  by_cases h : g.binding t = 0 <;> simp [glBufferData, h]

/-- `glBufferData` keeps the names in use. -/
theorem glBufferData_names (t : Target) (n : Nat) (d : Option (List Nat)) (u : Nat)
    (g : GLState) : (glBufferData t n d u g).names = g.names := by
  by_cases h : g.binding t = 0 <;> simp [glBufferData, h]

/-- `glBindBuffer` keeps every name in use. -/
theorem glBindBuffer_names (t : Target) (name : Nat) (g : GLState) (n : Nat)
    (h : n ∈ g.names) : n ∈ (glBindBuffer t name g).names := by
  cases t <;> simp only [glBindBuffer] <;> split <;> simp [h]

/-- `Bind()` keeps every name in use. -/
theorem Bind_names (w : World) (b : CMeshBuffer) (n : Nat) (h : n ∈ w.gl.names) :
    n ∈ (CMeshBuffer.Bind w b).gl.names := by
  unfold CMeshBuffer.Bind
  split
  · exact glBindBuffer_names _ _ _ _ (glBindBuffer_names _ _ _ _ h)
  · exact h

/-- Filtering a name out of a list that does not contain it leaves the list as it is. -/
theorem filter_ne_of_not_mem (l : List Nat) (n : Nat) (h : n ∉ l) :
    l.filter (fun m => m != n) = l := by
  refine List.filter_eq_self.mpr (fun a ha => ?_)
  have hne : a ≠ n := fun e => h (e ▸ ha)
  simpa using hne

/-- Looking up a name in a store list extended by an entry for another name. -/
theorem lookup_cons_ne (n k : Nat) (bytes : List Nat) (stores : List (Nat × List Nat))
    (h : k ≠ n) : List.lookup k ((n, bytes) :: stores) = List.lookup k stores := by
  have : (k == n) = false := by simpa using h
  simp [List.lookup, this]

/-- Reading within a heap block yields its leading bytes. -/
theorem read_heap (w : World) (a : Nat) (bytes : List Nat) (n : Nat) (h : n ≤ bytes.length) :
    w.read (.heap a bytes) n = some (bytes.take n) := by
  unfold World.read
  by_cases hn : n = 0
  · subst hn; simp
  · simp [hn, h]

/-- Reading a whole heap block yields the block. -/
theorem read_heap_all (w : World) (a : Nat) (bytes : List Nat) :
    w.read (.heap a bytes) bytes.length = some bytes := by
  rw [read_heap w a bytes _ (le_refl _), List.take_length]

/-- Writing within a heap block replaces its leading bytes and leaves the world as it is. -/
theorem write_heap (w : World) (a : Nat) (bytes src : List Nat)
    (h : src.length ≤ bytes.length) :
    w.write (.heap a bytes) src = some (.heap a (src ++ bytes.drop src.length), w) := by
  unfold World.write
  by_cases hn : src.length = 0
  · have hs : src = [] := List.length_eq_zero.mp hn
    subst hs; simp
  · simp [hn, h]

/-- Overwriting a whole block replaces it. -/
theorem write_heap_all (w : World) (a : Nat) (bytes src : List Nat)
    (h : src.length = bytes.length) :
    w.write (.heap a bytes) src = some (.heap a src, w) := by
  rw [write_heap w a bytes src (le_of_eq h), h, List.drop_length, List.append_nil]

/-- The block after a write has the length of the block before. -/
theorem length_overwrite (bytes src : List Nat) (h : src.length ≤ bytes.length) :
    (src ++ bytes.drop src.length).length = bytes.length := by
  simp [List.length_append, List.length_drop]; omega

end OpenGL
end ChilliSource

/-! # Backup and restore (C1, C6) -/

namespace ChilliSource
namespace OpenGL

/-- In shadow-copy mode, for a buffer with an index handle whose two shadow blocks exist and
that has no backup yet, `Backup()` leaves a copy of the vertex shadow block in the vertex
backup and a copy of the index shadow block in the index backup, keeps the shadow blocks, and
sets both handles to 0. -/
theorem Backup_shadow (w : World) (b : CMeshBuffer) (a ai : Nat) (v iv : List Nat)
    (hm : b.mbMapBufferAvailable = false) (hx : b.mIndexBuffer ≠ 0)
    (hv : b.mpVertexData = .heap a v) (hvl : v.length = b.mBufferDesc.VertexDataCapacity)
    (hi : b.mpIndexData = .heap ai iv) (hil : iv.length = b.mBufferDesc.IndexDataCapacity)
    (hvb : b.mpVertexDataBackup = .null) (hib : b.mpIndexDataBackup = .null) :
    ∃ w1, CMeshBuffer.Backup w b = some (w1,
        { b with mpVertexDataBackup := .heap (w.nextAddr + 1) v,
                 mpIndexDataBackup := .heap w.nextAddr iv,
                 mVertexBuffer := 0, mIndexBuffer := 0, mbCacheValid := false }) ∧
      ∀ n ∈ w.gl.names, n ∈ w1.gl.names := by
  have r1 : ∀ w0 : World, w0.read (.heap a v) b.mBufferDesc.VertexDataCapacity = some v := by
    intro w0; rw [← hvl]; exact read_heap_all w0 a v
  have r2 : ∀ w0 : World, w0.read (.heap ai iv) b.mBufferDesc.IndexDataCapacity = some iv := by
    intro w0; rw [← hil]; exact read_heap_all w0 ai iv
  have w1 : ∀ (w0 : World) (c u : Nat), w0.write
      (.heap c (List.replicate b.mBufferDesc.VertexDataCapacity u)) v
        = some (.heap c v, w0) := by
    intro w0 c u; exact write_heap_all w0 c _ v (by simp [hvl])
  have w2 : ∀ (w0 : World) (c u : Nat), w0.write
      (.heap c (List.replicate b.mBufferDesc.IndexDataCapacity u)) iv
        = some (.heap c iv, w0) := by
    intro w0 c u; exact write_heap_all w0 c _ iv (by simp [hil])
  refine ⟨{ CMeshBuffer.Bind w b with
      nextAddr := w.nextAddr + 2,
      gl := (glBufferData .elementArrayBuffer b.mBufferDesc.IndexDataCapacity (some iv)
        b.mBufferUsage (glBufferData .arrayBuffer b.mBufferDesc.VertexDataCapacity (some v)
          b.mBufferUsage (CMeshBuffer.Bind w b).gl)) }, ?_, ?_⟩
  · by_cases hc : w.pCurrentlyBoundBuffer = some b.self <;>
    simp [CMeshBuffer.Backup, CMeshBuffer.backupVertex, CMeshBuffer.backupIndex,
      CMeshBuffer.allocIfNull, CMeshBuffer.memcpy, CMeshBuffer.LockVertex,
      CMeshBuffer.LockIndex, CMeshBuffer.UnlockVertex, CMeshBuffer.UnlockIndex,
      CMeshBuffer.clientData, CMeshBuffer.GetVertexCapacity, CMeshBuffer.GetIndexCapacity,
      CMeshBuffer.Bind, World.newArray, hm, hx, hv, hi, hvb, hib, r1, r2, w1, w2, hc]
  · intro n hn
    simp only [glBufferData_names]
    exact Bind_names w b n hn

/-- The GL context after `Restore()` in shadow-copy mode: two names generated, both bound,
the two backups uploaded. -/
theorem restoredGL_store (g : GLState) (vcap icap usage : Nat) (v iv : List Nat)
    (hvl : v.length = vcap) (hil : iv.length = icap) :
    (glBufferData .elementArrayBuffer icap (some iv) usage
      (glBufferData .arrayBuffer vcap (some v) usage
        (glBindBuffer .elementArrayBuffer (glGenBuffers (glGenBuffers g).2).1
          (glBindBuffer .arrayBuffer (glGenBuffers g).1
            (glGenBuffers (glGenBuffers g).2).2)))).store (glGenBuffers g).1 = some v ∧
    (glBufferData .elementArrayBuffer icap (some iv) usage
      (glBufferData .arrayBuffer vcap (some v) usage
        (glBindBuffer .elementArrayBuffer (glGenBuffers (glGenBuffers g).2).1
          (glBindBuffer .arrayBuffer (glGenBuffers g).1
            (glGenBuffers (glGenBuffers g).2).2)))).store (glGenBuffers (glGenBuffers g).2).1
      = some iv := by
  have h1 : freshName g.names ≠ 0 := Nat.succ_ne_zero _
  have h2 : freshName (freshName g.names :: g.names) ≠ 0 := Nat.succ_ne_zero _
  have h3 : freshName g.names < freshName (freshName g.names :: g.names) :=
    lt_freshName _ _ (List.mem_cons_self _ _)
  have h4 : freshName (freshName g.names :: g.names) ≠ freshName g.names := Nat.ne_of_gt h3
  have h5 : (freshName g.names == freshName (freshName g.names :: g.names)) = false := by
    simpa using h4.symm
  subst hvl hil
  simp [glBufferData, glBindBuffer, glGenBuffers, GLState.binding, GLState.store, h1, h2,
    List.lookup, h5]

/-- In shadow-copy mode, for a buffer whose two shadow blocks and two backups exist,
`Restore()` generates two new handles, copies the backups into the shadow blocks, uploads them
to the new buffer objects and frees the backups. -/
theorem Restore_shadow (w : World) (b : CMeshBuffer) (a ai c d : Nat)
    (v0 i0 v iv : List Nat) (hm : b.mbMapBufferAvailable = false)
    (hv : b.mpVertexData = .heap a v0) (hv0 : v0.length = b.mBufferDesc.VertexDataCapacity)
    (hi : b.mpIndexData = .heap ai i0) (hi0 : i0.length = b.mBufferDesc.IndexDataCapacity)
    (hvb : b.mpVertexDataBackup = .heap c v)
    (hvl : v.length = b.mBufferDesc.VertexDataCapacity)
    (hib : b.mpIndexDataBackup = .heap d iv)
    (hil : iv.length = b.mBufferDesc.IndexDataCapacity) :
    ∃ w1, CMeshBuffer.Restore w b = some (w1,
        { b with mVertexBuffer := freshName w.gl.names,
                 mIndexBuffer := freshName (freshName w.gl.names :: w.gl.names),
                 mpVertexData := .heap a v, mpIndexData := .heap ai iv,
                 mpVertexDataBackup := .null, mpIndexDataBackup := .null,
                 mbCacheValid := false }) ∧
      w1.gl.store (freshName w.gl.names) = some v ∧
      w1.gl.store (freshName (freshName w.gl.names :: w.gl.names)) = some iv ∧
      w1.pCurrentlyBoundBuffer = some b.self := by
  have r1 : ∀ (w0 : World) (e : Nat),
      w0.read (.heap e v) b.mBufferDesc.VertexDataCapacity = some v := by
    intro w0 e; rw [← hvl]; exact read_heap_all w0 e v
  have r2 : ∀ (w0 : World) (e : Nat),
      w0.read (.heap e iv) b.mBufferDesc.IndexDataCapacity = some iv := by
    intro w0 e; rw [← hil]; exact read_heap_all w0 e iv
  have w1 : ∀ (w0 : World), w0.write (.heap a v0) v = some (.heap a v, w0) := by
    intro w0; exact write_heap_all w0 a _ v (by rw [hvl, hv0])
  have w2 : ∀ (w0 : World), w0.write (.heap ai i0) iv = some (.heap ai iv, w0) := by
    intro w0; exact write_heap_all w0 ai _ iv (by rw [hil, hi0])
  have hx : (glGenBuffers (glGenBuffers w.gl).2).1 ≠ 0 := Nat.succ_ne_zero _
  obtain ⟨s1, s2⟩ := restoredGL_store w.gl b.mBufferDesc.VertexDataCapacity
    b.mBufferDesc.IndexDataCapacity b.mBufferUsage v iv hvl hil
  refine ⟨{ w with
      pCurrentlyBoundBuffer := some b.self,
      gl := (glBufferData .elementArrayBuffer b.mBufferDesc.IndexDataCapacity (some iv)
        b.mBufferUsage (glBufferData .arrayBuffer b.mBufferDesc.VertexDataCapacity (some v)
          b.mBufferUsage (glBindBuffer .elementArrayBuffer
            (glGenBuffers (glGenBuffers w.gl).2).1 (glBindBuffer .arrayBuffer
              (glGenBuffers w.gl).1 (glGenBuffers (glGenBuffers w.gl).2).2)))) },
    ?_, s1, s2, rfl⟩
  simp [CMeshBuffer.Restore, CMeshBuffer.restoreVertex, CMeshBuffer.restoreIndex,
    CMeshBuffer.memcpy, CMeshBuffer.LockVertex, CMeshBuffer.LockIndex,
    CMeshBuffer.UnlockVertex, CMeshBuffer.UnlockIndex, CMeshBuffer.clientData,
    CMeshBuffer.GetVertexCapacity, CMeshBuffer.GetIndexCapacity, CMeshBuffer.Bind,
    CMeshBuffer.safeDeleteArray, hm, hv, hi, hvb, hib, r1, r2, w1, w2, hx]
  exact ⟨rfl, rfl⟩

/-- In shadow-copy mode, for a buffer with an index handle whose two shadow blocks exist and
that has no backup, `Backup()` followed immediately by `Restore()` is defined, leaves both
shadow blocks with their bytes, uploads exactly these bytes to the two new buffer objects,
frees the backups, and the new handles are non-zero names that were not in use before, so
they differ from the handles the buffer held when these were names in use. -/
theorem backupThenRestore_shadow (w : World) (b : CMeshBuffer) (a ai : Nat) (v iv : List Nat)
    (hm : b.mbMapBufferAvailable = false) (hx : b.mIndexBuffer ≠ 0)
    (hv : b.mpVertexData = .heap a v) (hvl : v.length = b.mBufferDesc.VertexDataCapacity)
    (hi : b.mpIndexData = .heap ai iv) (hil : iv.length = b.mBufferDesc.IndexDataCapacity)
    (hvb : b.mpVertexDataBackup = .null) (hib : b.mpIndexDataBackup = .null) :
    ∃ w2 b2, backupThenRestore w b = some (w2, b2) ∧
      b2.mpVertexData = .heap a v ∧ b2.mpIndexData = .heap ai iv ∧
      w2.gl.store b2.mVertexBuffer = some v ∧ w2.gl.store b2.mIndexBuffer = some iv ∧
      b2.mpVertexDataBackup = .null ∧ b2.mpIndexDataBackup = .null ∧
      b2.mVertexBuffer ≠ 0 ∧ b2.mIndexBuffer ≠ 0 ∧
      b2.mVertexBuffer ∉ w.gl.names ∧ b2.mIndexBuffer ∉ w.gl.names ∧
      (b.mVertexBuffer ∈ w.gl.names → b2.mVertexBuffer ≠ b.mVertexBuffer) ∧
      (b.mIndexBuffer ∈ w.gl.names → b2.mIndexBuffer ≠ b.mIndexBuffer) := by
  obtain ⟨w1, h1, hn⟩ := Backup_shadow w b a ai v iv hm hx hv hvl hi hil hvb hib
  obtain ⟨w2, h2, s1, s2, -⟩ := Restore_shadow w1
    { b with mpVertexDataBackup := .heap (w.nextAddr + 1) v,
             mpIndexDataBackup := .heap w.nextAddr iv,
             mVertexBuffer := 0, mIndexBuffer := 0, mbCacheValid := false }
    a ai (w.nextAddr + 1) w.nextAddr v iv v iv hm hv hvl hi hil rfl hvl rfl hil
  have f1 : ∀ n ∈ w.gl.names, n < freshName w1.gl.names :=
    fun n h => lt_freshName _ _ (hn n h)
  have f2 : ∀ n ∈ w.gl.names, n < freshName (freshName w1.gl.names :: w1.gl.names) :=
    fun n h => lt_freshName _ _ (List.mem_cons_of_mem _ (hn n h))
  have h3 : backupThenRestore w b = CMeshBuffer.Restore w1
      { b with mpVertexDataBackup := .heap (w.nextAddr + 1) v,
               mpIndexDataBackup := .heap w.nextAddr iv,
               mVertexBuffer := 0, mIndexBuffer := 0, mbCacheValid := false } := by
    unfold backupThenRestore
    rw [h1]
    rfl
  refine ⟨w2, _, h3.trans h2, rfl, rfl, s1, s2, rfl, rfl,
    Nat.succ_ne_zero _, Nat.succ_ne_zero _, ?_, ?_, ?_, ?_⟩
  · exact fun h => lt_irrefl _ (f1 _ h)
  · exact fun h => lt_irrefl _ (f2 _ h)
  · exact fun h => Nat.ne_of_gt (f1 _ h)
  · exact fun h => Nat.ne_of_gt (f2 _ h)

/-- C1 (code defect): in mapped-buffer mode `Backup()` followed immediately by `Restore()`
does not reproduce the vertex region. For the STATIC buffer holding `1, 2, 3, 4` the backup
succeeds, but `Restore()` maps a regenerated buffer object that never got a data store and
copies through the null pointer (undefined behaviour). For the DYNAMIC buffer holding
`1, 2, 3, 4` the region after the round trip is `0, 0, 0, 0`, the uninitialised store that
`LockVertex` created inside `Backup()`. -/
theorem C1_backup_restore_mapped_mode_loses_region :
    ((filledBuffer (vertexOnlyDesc .STATIC) true).map fun s => s.1.gl.store s.2.mVertexBuffer)
        = some (some [1, 2, 3, 4]) ∧
    ((filledBuffer (vertexOnlyDesc .STATIC) true).bind fun s =>
        (CMeshBuffer.Backup s.1 s.2).map fun t => t.2.mpVertexDataBackup)
        = some (DataPtr.heap 101 [1, 2, 3, 4]) ∧
    ((filledBuffer (vertexOnlyDesc .STATIC) true).bind fun s => backupThenRestore s.1 s.2)
        = none ∧
    ((filledBuffer (vertexOnlyDesc .DYNAMIC) true).map fun s => s.1.gl.store s.2.mVertexBuffer)
        = some (some [1, 2, 3, 4]) ∧
    (((filledBuffer (vertexOnlyDesc .DYNAMIC) true).bind fun s => backupThenRestore s.1 s.2).map
        fun s => s.1.gl.store s.2.mVertexBuffer) = some (some [0, 0, 0, 0]) := by
  decide

/-- C6 (code defect): for the DYNAMIC buffer in mapped-buffer mode whose vertex region holds
`1, 2, 3, 4`, `Backup()` leaves `0, 0, 0, 0` in the vertex backup: `LockVertex` replaces the
data store by an uninitialised one before it maps it, so the copy is taken from the new
store. The handles are 0 afterwards. -/
theorem C6_backup_mapped_dynamic_copies_fresh_store :
    ((filledBuffer (smallDesc .DYNAMIC) true).map fun s => s.1.gl.store s.2.mVertexBuffer)
        = some (some [1, 2, 3, 4]) ∧
    ((filledBuffer (smallDesc .DYNAMIC) true).bind fun s =>
        (CMeshBuffer.Backup s.1 s.2).map fun t =>
          (t.2.mpVertexDataBackup, t.2.mVertexBuffer, t.2.mIndexBuffer))
        = some (DataPtr.heap 101 [0, 0, 0, 0], 0, 0) := by
  decide

end OpenGL
end ChilliSource

/-! # Lock and unlock (C2) -/

namespace ChilliSource
namespace OpenGL

/-- In shadow-copy mode one vertex lock/unlock pair leaves the written bytes at the start of
the shadow block, keeps the block where it is, and uploads the whole block. -/
theorem vertex_pair_shadow (w : World) (b : CMeshBuffer) (bytes : List Nat)
    (hm : b.mbMapBufferAvailable = false)
    (hv : shadowOk b.mpVertexData b.mBufferDesc.VertexDataCapacity)
    (hlen : bytes.length ≤ b.mBufferDesc.VertexDataCapacity) :
    ∃ a full w1, lockWriteUnlock .vertex bytes w b
        = some (w1, { b with mpVertexData := .heap a full, mbCacheValid := false }) ∧
      full.length = b.mBufferDesc.VertexDataCapacity ∧ full.take bytes.length = bytes ∧
      (CMeshBuffer.LockVertex w b).out.addr = some a ∧
      (∀ a0 old, b.mpVertexData = .heap a0 old → a = a0) ∧
      w1.gl = glBufferData .arrayBuffer b.mBufferDesc.VertexDataCapacity (some full)
                b.mBufferUsage w.gl := by
  rcases hv with h | ⟨a0, old, h, hl⟩
  · have hl : bytes.length ≤
        (List.replicate b.mBufferDesc.VertexDataCapacity w.uninit).length := by
      simpa using hlen
    have hf := length_overwrite _ _ hl
    rw [List.length_replicate] at hf
    refine ⟨w.nextAddr, bytes ++ (List.replicate b.mBufferDesc.VertexDataCapacity w.uninit).drop
      bytes.length, { w with nextAddr := w.nextAddr + 1, gl := (glBufferData .arrayBuffer
        b.mBufferDesc.VertexDataCapacity (some (bytes ++ (List.replicate
          b.mBufferDesc.VertexDataCapacity w.uninit).drop bytes.length)) b.mBufferUsage w.gl) },
      ?_, hf, ?_, ?_, ?_, rfl⟩
    · simp only [lockWriteUnlock, Region.lock, CMeshBuffer.LockVertex, hm, h, World.newArray,
        Region.unlock, Region.setData, CMeshBuffer.UnlockVertex, CMeshBuffer.clientData]
      have hr := read_heap_all { w with nextAddr := w.nextAddr + 1 } w.nextAddr
        (bytes ++ (List.replicate b.mBufferDesc.VertexDataCapacity w.uninit).drop bytes.length)
      rw [hf] at hr
      simp [write_heap _ _ _ _ hl]
      exact ⟨_, by simpa using hr, rfl⟩
    · simp
    · simp [CMeshBuffer.LockVertex, hm, h, World.newArray, DataPtr.addr]
    · intro a1 old h1; rw [h] at h1; cases h1
  · have hl2 : bytes.length ≤ old.length := by omega
    have hf := length_overwrite _ _ hl2
    rw [hl] at hf
    refine ⟨a0, bytes ++ old.drop bytes.length, { w with gl := (glBufferData .arrayBuffer
        b.mBufferDesc.VertexDataCapacity (some (bytes ++ old.drop bytes.length))
        b.mBufferUsage w.gl) }, ?_, hf, ?_, ?_, ?_, rfl⟩
    · simp only [lockWriteUnlock, Region.lock, CMeshBuffer.LockVertex, hm, h,
        Region.unlock, Region.setData, CMeshBuffer.UnlockVertex, CMeshBuffer.clientData]
      have hr := read_heap_all w a0 (bytes ++ old.drop bytes.length)
      rw [hf] at hr
      simp [write_heap _ _ _ _ hl2, hr]
    · simp
    · simp [CMeshBuffer.LockVertex, hm, h, DataPtr.addr]
    · intro a1 old1 h1; rw [h] at h1; cases h1; rfl

/-- In shadow-copy mode one index lock/unlock pair on a buffer with an index handle leaves the
written bytes at the start of the shadow block, keeps the block where it is, and uploads the
whole block. -/
theorem index_pair_shadow (w : World) (b : CMeshBuffer) (bytes : List Nat)
    (hm : b.mbMapBufferAvailable = false) (hx : b.mIndexBuffer ≠ 0)
    (hv : shadowOk b.mpIndexData b.mBufferDesc.IndexDataCapacity)
    (hlen : bytes.length ≤ b.mBufferDesc.IndexDataCapacity) :
    ∃ a full w1, lockWriteUnlock .index bytes w b
        = some (w1, { b with mpIndexData := .heap a full, mbCacheValid := false }) ∧
      full.length = b.mBufferDesc.IndexDataCapacity ∧ full.take bytes.length = bytes ∧
      (CMeshBuffer.LockIndex w b).out.addr = some a ∧
      (∀ a0 old, b.mpIndexData = .heap a0 old → a = a0) ∧
      w1.gl = glBufferData .elementArrayBuffer b.mBufferDesc.IndexDataCapacity (some full)
                b.mBufferUsage w.gl := by
  rcases hv with h | ⟨a0, old, h, hl⟩
  · have hl : bytes.length ≤
        (List.replicate b.mBufferDesc.IndexDataCapacity w.uninit).length := by
      simpa using hlen
    have hf := length_overwrite _ _ hl
    rw [List.length_replicate] at hf
    refine ⟨w.nextAddr, bytes ++ (List.replicate b.mBufferDesc.IndexDataCapacity w.uninit).drop
      bytes.length, { w with nextAddr := w.nextAddr + 1, gl := (glBufferData .elementArrayBuffer
        b.mBufferDesc.IndexDataCapacity (some (bytes ++ (List.replicate
          b.mBufferDesc.IndexDataCapacity w.uninit).drop bytes.length)) b.mBufferUsage w.gl) },
      ?_, hf, ?_, ?_, ?_, rfl⟩
    · have hr := read_heap_all { w with nextAddr := w.nextAddr + 1 } w.nextAddr
        (bytes ++ (List.replicate b.mBufferDesc.IndexDataCapacity w.uninit).drop bytes.length)
      rw [hf] at hr
      simp [lockWriteUnlock, Region.lock, CMeshBuffer.LockIndex, hm, hx, h, World.newArray,
        Region.unlock, Region.setData, CMeshBuffer.UnlockIndex, CMeshBuffer.clientData,
        write_heap _ _ _ _ hl]
      exact ⟨_, by simpa using hr, rfl⟩
    · simp
    · simp [CMeshBuffer.LockIndex, hm, hx, h, World.newArray, DataPtr.addr]
    · intro a1 old h1; rw [h] at h1; cases h1
  · have hl2 : bytes.length ≤ old.length := by omega
    have hf := length_overwrite _ _ hl2
    rw [hl] at hf
    refine ⟨a0, bytes ++ old.drop bytes.length, { w with gl := (glBufferData .elementArrayBuffer
        b.mBufferDesc.IndexDataCapacity (some (bytes ++ old.drop bytes.length))
        b.mBufferUsage w.gl) }, ?_, hf, ?_, ?_, ?_, rfl⟩
    · have hr := read_heap_all w a0 (bytes ++ old.drop bytes.length)
      rw [hf] at hr
      simp [lockWriteUnlock, Region.lock, CMeshBuffer.LockIndex, hm, hx, h,
        Region.unlock, Region.setData, CMeshBuffer.UnlockIndex, CMeshBuffer.clientData,
        write_heap _ _ _ _ hl2, hr]
    · simp
    · simp [CMeshBuffer.LockIndex, hm, hx, h, DataPtr.addr]
    · intro a1 old1 h1; rw [h] at h1; cases h1; rfl

/-- On a buffer without an index handle an index lock/unlock pair changes nothing. -/
theorem index_pair_no_index (w : World) (b : CMeshBuffer) (bytes : List Nat)
    (hx : b.mIndexBuffer = 0) : lockWriteUnlock .index bytes w b = some (w, b) := by
  simp [lockWriteUnlock, Region.lock, Region.unlock, CMeshBuffer.LockIndex,
    CMeshBuffer.UnlockIndex, hx]

/-- In shadow-copy mode a successful lock/unlock pair of either region leaves the written bytes
at the start of the region's shadow block, which stays at its address, and issues exactly one
GL call, the upload of the whole block. -/
theorem pair_shadow (r : Region) (w : World) (b : CMeshBuffer) (bytes : List Nat)
    (hs : shadowMode b) (hx : r = .index → b.mIndexBuffer ≠ 0)
    (hlen : bytes.length ≤ r.capacity b) :
    ∃ a full w1 b1, lockWriteUnlock r bytes w b = some (w1, b1) ∧
      r.data b1 = .heap a full ∧ full.length = r.capacity b ∧ full.take bytes.length = bytes ∧
      (r.lock w b).out.addr = some a ∧
      (∀ a0 old, r.data b = .heap a0 old → a = a0) ∧
      w1.gl.calls = w.gl.calls ++
        [GLCall.bufferData r.target (r.capacity b) (some full) b.mBufferUsage] ∧
      shadowMode b1 ∧ sameSetup b b1 ∧ (∀ q, q ≠ r → q.data b1 = q.data b) := by
  obtain ⟨hm, hv, hi⟩ := hs
  cases r with
  | vertex =>
    obtain ⟨a, full, w1, h1, h2, h3, h4, h5, h6⟩ := vertex_pair_shadow w b bytes hm hv hlen
    refine ⟨a, full, w1, _, h1, rfl, h2, h3, h4, h5, ?_, ?_, ?_, ?_⟩
    · rw [h6, glBufferData_calls]; rfl
    · exact ⟨hm, Or.inr ⟨a, full, rfl, h2⟩, hi⟩
    · exact ⟨rfl, rfl, rfl, rfl⟩
    · intro q hq; cases q with
      | vertex => exact absurd rfl hq
      | index => rfl
  | index =>
    obtain ⟨a, full, w1, h1, h2, h3, h4, h5, h6⟩ :=
      index_pair_shadow w b bytes hm (hx rfl) hi hlen
    refine ⟨a, full, w1, _, h1, rfl, h2, h3, h4, h5, ?_, ?_, ?_, ?_⟩
    · rw [h6, glBufferData_calls]; rfl
    · exact ⟨hm, hv, Or.inr ⟨a, full, rfl, h2⟩⟩
    · exact ⟨rfl, rfl, rfl, rfl⟩
    · intro q hq; cases q with
      | vertex => rfl
      | index => exact absurd rfl hq

/-- In shadow-copy mode every lock/unlock pair is defined, keeps the buffer in shadow-copy mode
and leaves the shadow block of the other region as it is. -/
theorem pair_shadow_frame (r : Region) (w : World) (b : CMeshBuffer) (bytes : List Nat)
    (hs : shadowMode b) (hlen : bytes.length ≤ r.capacity b) :
    ∃ w1 b1, lockWriteUnlock r bytes w b = some (w1, b1) ∧
      shadowMode b1 ∧ sameSetup b b1 ∧ (∀ q, q ≠ r → q.data b1 = q.data b) := by
  by_cases hx : r = .index ∧ b.mIndexBuffer = 0
  · obtain ⟨rfl, hx⟩ := hx
    exact ⟨w, b, index_pair_no_index w b bytes hx, hs, ⟨rfl, rfl, rfl, rfl⟩, fun _ _ => rfl⟩
  · have hx2 : r = .index → b.mIndexBuffer ≠ 0 := fun h1 h2 => hx ⟨h1, h2⟩
    obtain ⟨a, full, w1, b1, h1, -, -, -, -, -, -, h8, h9, h10⟩ :=
      pair_shadow r w b bytes hs hx2 hlen
    exact ⟨w1, b1, h1, h8, h9, h10⟩

/-- In shadow-copy mode a sequence of lock/unlock pairs is defined, keeps the buffer in
shadow-copy mode and leaves the shadow block of a region no pair of the sequence locks as it
is. -/
theorem runPairs_shadow (ops : List (Region × List Nat)) (w : World) (b : CMeshBuffer)
    (hs : shadowMode b) (hlen : ∀ op ∈ ops, op.2.length ≤ op.1.capacity b) :
    ∃ w1 b1, runPairs ops w b = some (w1, b1) ∧ shadowMode b1 ∧ sameSetup b b1 ∧
      (∀ q, (∀ op ∈ ops, op.1 ≠ q) → q.data b1 = q.data b) := by
  induction ops generalizing w b with
  | nil => exact ⟨w, b, rfl, hs, ⟨rfl, rfl, rfl, rfl⟩, fun _ _ => rfl⟩
  | cons op rest ih =>
    obtain ⟨r, bytes⟩ := op
    obtain ⟨w1, b1, h1, hs1, hset1, hfr1⟩ :=
      pair_shadow_frame r w b bytes hs (hlen (r, bytes) (List.mem_cons_self _ _))
    have hcap : ∀ q : Region, q.capacity b1 = q.capacity b := by
      intro q; cases q <;> simp [Region.capacity, hset1.1]
    obtain ⟨w2, b2, h2, hs2, hset2, hfr2⟩ := ih w1 b1 hs1 (by
      intro op hop
      rw [hcap]
      exact hlen op (List.mem_cons_of_mem _ hop))
    refine ⟨w2, b2, by simp [runPairs, h1, h2], hs2, ?_, ?_⟩
    · obtain ⟨e1, e2, e3, e4⟩ := hset1
      obtain ⟨f1, f2, f3, f4⟩ := hset2
      exact ⟨f1.trans e1, f2.trans e2, f3.trans e3, f4.trans e4⟩
    · intro q hq
      rw [hfr2 q (fun op hop => hq op (List.mem_cons_of_mem _ hop))]
      exact hfr1 q (fun h => hq (r, bytes) (List.mem_cons_self _ _) h.symm)

/-- In shadow-copy mode a lock of a region whose shadow block exists returns that block, and
its bytes are what is readable through the returned pointer. -/
theorem lockRead_shadow (r : Region) (w : World) (b : CMeshBuffer) (a : Nat)
    (full : List Nat) (n : Nat) (hm : b.mbMapBufferAvailable = false)
    (hx : r = .index → b.mIndexBuffer ≠ 0) (hd : r.data b = .heap a full)
    (hn : n ≤ full.length) :
    lockRead r n w b = some (full.take n) ∧ (r.lock w b).out = .heap a full := by
  cases r with
  | vertex =>
    have hd1 : b.mpVertexData = .heap a full := hd
    simp [lockRead, Region.lock, CMeshBuffer.LockVertex, hm, hd1, read_heap _ _ _ _ hn]
  | index =>
    have hd1 : b.mpIndexData = .heap a full := hd
    simp [lockRead, Region.lock, CMeshBuffer.LockIndex, hm, hx rfl, hd1, read_heap _ _ _ _ hn]

/-- In shadow-copy mode, in every sequence of lock/unlock pairs (`pre`, then a pair on region
`r` that writes `bytes`, then pairs `mid` on the other region) the sequence is defined, the
pair on `r` issues exactly one GL call, which uploads the full capacity of the shadow block
that starts with `bytes`, the next lock of `r` returns the same shadow block as the lock of the
pair did, and `bytes` are exactly the bytes readable through its pointer. -/
theorem shadow_lock_unlock_readback (w : World) (b : CMeshBuffer)
    (pre mid : List (Region × List Nat)) (r : Region) (bytes : List Nat)
    (hs : shadowMode b) (hx : r = .index → b.mIndexBuffer ≠ 0)
    (hpre : ∀ op ∈ pre, op.2.length ≤ op.1.capacity b)
    (hbytes : bytes.length ≤ r.capacity b)
    (hmid : ∀ op ∈ mid, op.1 ≠ r ∧ op.2.length ≤ op.1.capacity b) :
    ∃ w1 b1 w2 b2 w3 b3 a full,
      runPairs pre w b = some (w1, b1) ∧
      lockWriteUnlock r bytes w1 b1 = some (w2, b2) ∧
      runPairs mid w2 b2 = some (w3, b3) ∧
      w2.gl.calls = w1.gl.calls ++
        [GLCall.bufferData r.target (r.capacity b) (some full) b.mBufferUsage] ∧
      full.length = r.capacity b ∧ full.take bytes.length = bytes ∧
      (r.lock w1 b1).out.addr = some a ∧ (r.lock w3 b3).out.addr = some a ∧
      lockRead r bytes.length w3 b3 = some bytes := by
  obtain ⟨w1, b1, h1, hs1, hset1, -⟩ := runPairs_shadow pre w b hs hpre
  have hcap1 : ∀ q : Region, q.capacity b1 = q.capacity b := by
    intro q; cases q <;> simp [Region.capacity, hset1.1]
  obtain ⟨a, full, w2, b2, h2, hd2, hl2, ht2, ha2, -, hc2, hs2, hset2, -⟩ :=
    pair_shadow r w1 b1 bytes hs1 (fun e => by rw [hset1.2.1]; exact hx e)
      (by rw [hcap1]; exact hbytes)
  have hcap2 : ∀ q : Region, q.capacity b2 = q.capacity b := by
    intro q; rw [← hcap1 q]; cases q <;> simp [Region.capacity, hset2.1]
  obtain ⟨w3, b3, h3, hs3, hset3, hfr3⟩ := runPairs_shadow mid w2 b2 hs2 (by
    intro op hop; rw [hcap2]; exact (hmid op hop).2)
  have hd3 : r.data b3 = .heap a full := by
    rw [hfr3 r (fun op hop => (hmid op hop).1)]; exact hd2
  have hx3 : r = .index → b3.mIndexBuffer ≠ 0 := by
    intro e; rw [hset3.2.1, hset2.2.1, hset1.2.1]; exact hx e
  have hb : bytes.length ≤ full.length := by rw [hl2, hcap1]; exact hbytes
  obtain ⟨hr, ho⟩ := lockRead_shadow r w3 b3 a full bytes.length hs3.1 hx3 hd3 hb
  refine ⟨w1, b1, w2, b2, w3, b3, a, full, h1, h2, h3, ?_, ?_, ht2, ha2, ?_, ?_⟩
  · rw [hc2, hcap1, hset1.2.2.2]
  · rw [hl2, hcap1]
  · rw [ho]; rfl
  · rw [hr, ht2]

/-- In mapped-buffer mode one vertex lock/unlock pair on the bound buffer leaves a vertex data
store of the full capacity that starts with the written bytes, and leaves every other data
store, the bindings and the set of mapped stores as they were. -/
theorem vertex_pair_mapped (w : World) (b : CMeshBuffer) (bytes : List Nat)
    (hmap : mappedMode w b) (hlen : bytes.length ≤ b.mBufferDesc.VertexDataCapacity) :
    ∃ w1 full, lockWriteUnlock .vertex bytes w b
        = some (w1, { b with mpVertexData := .null, mbCacheValid := false }) ∧
      w1.gl.store b.mVertexBuffer = some full ∧
      full.length = b.mBufferDesc.VertexDataCapacity ∧ full.take bytes.length = bytes ∧
      (∀ k, k ≠ b.mVertexBuffer → w1.gl.store k = w.gl.store k) ∧
      w1.gl.mapped = w.gl.mapped ∧ w1.gl.arrayBinding = w.gl.arrayBinding ∧
      w1.gl.elementBinding = w.gl.elementBinding := by
  obtain ⟨hm, hab, heb, hv0, hvi, hvm, him, ⟨s, hs, hsl⟩, hidx⟩ := hmap
  have hs2 : List.lookup b.mVertexBuffer w.gl.stores = some s := hs
  have hf := filter_ne_of_not_mem _ _ hvm
  have hlk : ∀ (k : Nat) (x : List Nat) (l : List (Nat × List Nat)), k ≠ b.mVertexBuffer →
      List.lookup k ((b.mVertexBuffer, x) :: l) = List.lookup k l :=
    fun k x l hk => lookup_cons_ne _ _ _ _ hk
  by_cases hu : b.mBufferDesc.eUsageFlag = .DYNAMIC
  · by_cases hb : bytes.length = 0
    · have hb2 : bytes = [] := List.length_eq_zero.mp hb
      subst hb2
      simp [lockWriteUnlock, Region.lock, Region.unlock, Region.setData,
        CMeshBuffer.LockVertex, CMeshBuffer.UnlockVertex, hm, hu, glMapBuffer, glUnmapBuffer,
        glBufferData, GLState.binding, hab, hv0, hvm, CMeshBuffer.mapResult, World.write,
        GLState.store, hf]
      exact fun k hk => hlk k _ _ hk
    · simp [lockWriteUnlock, Region.lock, Region.unlock, Region.setData,
        CMeshBuffer.LockVertex, CMeshBuffer.UnlockVertex, hm, hu, glMapBuffer, glUnmapBuffer,
        glBufferData, GLState.binding, hab, hv0, hvm, CMeshBuffer.mapResult, World.write,
        GLState.store, hf, hb, hlen]
      intro k hk
      rw [hlk k _ _ hk, hlk k _ _ hk]
  · have hu2 : b.mBufferDesc.eUsageFlag = .STATIC := by
      cases h : b.mBufferDesc.eUsageFlag
      · exact absurd h hu
      · rfl
    by_cases hb : bytes.length = 0
    · have hb2 : bytes = [] := List.length_eq_zero.mp hb
      subst hb2
      simp [lockWriteUnlock, Region.lock, Region.unlock, Region.setData,
        CMeshBuffer.LockVertex, CMeshBuffer.UnlockVertex, hm, hu2, glMapBuffer, glUnmapBuffer,
        GLState.binding, hab, hv0, hvm, CMeshBuffer.mapResult, World.write,
        GLState.store, hf, hs2, hsl]
    · simp [lockWriteUnlock, Region.lock, Region.unlock, Region.setData,
        CMeshBuffer.LockVertex, CMeshBuffer.UnlockVertex, hm, hu2, glMapBuffer, glUnmapBuffer,
        GLState.binding, hab, hv0, hvm, CMeshBuffer.mapResult, World.write,
        GLState.store, hf, hs2, hsl, hb, hlen]
      intro k hk
      rw [hlk k _ _ hk]

/-- In mapped-buffer mode one index lock/unlock pair on the bound buffer with an index handle
leaves an index data store of the full capacity that starts with the written bytes, and leaves
every other data store, the bindings and the set of mapped stores as they were. -/
theorem index_pair_mapped (w : World) (b : CMeshBuffer) (bytes : List Nat)
    (hmap : mappedMode w b) (hx : b.mIndexBuffer ≠ 0)
    (hlen : bytes.length ≤ b.mBufferDesc.IndexDataCapacity) :
    ∃ w1 full, lockWriteUnlock .index bytes w b
        = some (w1, { b with mpIndexData := .null, mbCacheValid := false }) ∧
      w1.gl.store b.mIndexBuffer = some full ∧
      full.length = b.mBufferDesc.IndexDataCapacity ∧ full.take bytes.length = bytes ∧
      (∀ k, k ≠ b.mIndexBuffer → w1.gl.store k = w.gl.store k) ∧
      w1.gl.mapped = w.gl.mapped ∧ w1.gl.arrayBinding = w.gl.arrayBinding ∧
      w1.gl.elementBinding = w.gl.elementBinding := by
  obtain ⟨hm, hab, heb, hv0, hvi, hvm, him, -, hidx⟩ := hmap
  have heb := heb hx
  obtain ⟨s, hs, hsl⟩ := hidx hx
  have hs2 : List.lookup b.mIndexBuffer w.gl.stores = some s := hs
  have hf := filter_ne_of_not_mem _ _ him
  have hlk : ∀ (k : Nat) (x : List Nat) (l : List (Nat × List Nat)), k ≠ b.mIndexBuffer →
      List.lookup k ((b.mIndexBuffer, x) :: l) = List.lookup k l :=
    fun k x l hk => lookup_cons_ne _ _ _ _ hk
  by_cases hb : bytes.length = 0
  · have hb2 : bytes = [] := List.length_eq_zero.mp hb
    subst hb2
    simp [lockWriteUnlock, Region.lock, Region.unlock, Region.setData,
      CMeshBuffer.LockIndex, CMeshBuffer.UnlockIndex, hm, hx, glMapBuffer, glUnmapBuffer,
      GLState.binding, heb, him, CMeshBuffer.mapResult, World.write,
      GLState.store, hf, hs2, hsl]
  · simp [lockWriteUnlock, Region.lock, Region.unlock, Region.setData,
      CMeshBuffer.LockIndex, CMeshBuffer.UnlockIndex, hm, hx, glMapBuffer, glUnmapBuffer,
      GLState.binding, heb, him, CMeshBuffer.mapResult, World.write,
      GLState.store, hf, hs2, hsl, hb, hlen]
    intro k hk
    rw [hlk k _ _ hk]

/-- In mapped-buffer mode a successful lock/unlock pair of either region on the bound buffer
leaves a data store of the full capacity that starts with the written bytes, keeps the buffer
bound with no lock outstanding, and leaves every other data store as it was. -/
theorem pair_mapped (r : Region) (w : World) (b : CMeshBuffer) (bytes : List Nat)
    (hmap : mappedMode w b) (hx : r = .index → b.mIndexBuffer ≠ 0)
    (hlen : bytes.length ≤ r.capacity b) :
    ∃ w1 b1 full, lockWriteUnlock r bytes w b = some (w1, b1) ∧
      mappedMode w1 b1 ∧ sameSetup b b1 ∧
      w1.gl.store (r.handle b) = some full ∧ full.length = r.capacity b ∧
      full.take bytes.length = bytes ∧
      (∀ k, k ≠ r.handle b → w1.gl.store k = w.gl.store k) := by
  have hmap0 := hmap
  obtain ⟨hm, hab, heb, hv0, hvi, hvm, him, ⟨s, hs, hsl⟩, hidx⟩ := hmap
  cases r with
  | vertex =>
    obtain ⟨w1, full, h1, h2, h3, h4, h5, h6, h7, h8⟩ := vertex_pair_mapped w b bytes hmap0 hlen
    refine ⟨w1, _, full, h1, ?_, ⟨rfl, rfl, rfl, rfl⟩, h2, h3, h4, h5⟩
    refine ⟨hm, h7.trans hab, fun hi => h8.trans (heb hi), hv0, hvi, by rw [h6]; exact hvm,
      by rw [h6]; exact him, ⟨full, h2, h3⟩, fun hi => ?_⟩
    obtain ⟨t, ht, htl⟩ := hidx hi
    exact ⟨t, by rw [h5 _ (Ne.symm hvi)]; exact ht, htl⟩
  | index =>
    obtain ⟨w1, full, h1, h2, h3, h4, h5, h6, h7, h8⟩ :=
      index_pair_mapped w b bytes hmap0 (hx rfl) hlen
    refine ⟨w1, _, full, h1, ?_, ⟨rfl, rfl, rfl, rfl⟩, h2, h3, h4, h5⟩
    refine ⟨hm, h7.trans hab, fun hi => h8.trans (heb hi), hv0, hvi, by rw [h6]; exact hvm,
      by rw [h6]; exact him, ⟨s, ?_, hsl⟩, fun _ => ⟨full, h2, h3⟩⟩
    rw [h5 _ hvi]
    exact hs

/-- In mapped-buffer mode every lock/unlock pair on the bound buffer is defined, keeps the
buffer bound with no lock outstanding, and leaves the data stores of other buffer objects as
they were. -/
theorem pair_mapped_frame (r : Region) (w : World) (b : CMeshBuffer) (bytes : List Nat)
    (hmap : mappedMode w b) (hlen : bytes.length ≤ r.capacity b) :
    ∃ w1 b1, lockWriteUnlock r bytes w b = some (w1, b1) ∧
      mappedMode w1 b1 ∧ sameSetup b b1 ∧
      (∀ k, k ≠ r.handle b → w1.gl.store k = w.gl.store k) := by
  by_cases hx : r = .index ∧ b.mIndexBuffer = 0
  · obtain ⟨rfl, hx⟩ := hx
    exact ⟨w, b, index_pair_no_index w b bytes hx, hmap, ⟨rfl, rfl, rfl, rfl⟩,
      fun _ _ => rfl⟩
  · have hx2 : r = .index → b.mIndexBuffer ≠ 0 := fun h1 h2 => hx ⟨h1, h2⟩
    obtain ⟨w1, b1, full, h1, h2, h3, -, -, -, h7⟩ := pair_mapped r w b bytes hmap hx2 hlen
    exact ⟨w1, b1, h1, h2, h3, h7⟩

/-- In mapped-buffer mode a sequence of lock/unlock pairs on the bound buffer is defined, keeps
the buffer bound with no lock outstanding, and leaves the data store of a region no pair of
the sequence locks as it was. -/
theorem runPairs_mapped (ops : List (Region × List Nat)) (w : World) (b : CMeshBuffer)
    (hmap : mappedMode w b) (hlen : ∀ op ∈ ops, op.2.length ≤ op.1.capacity b) :
    ∃ w1 b1, runPairs ops w b = some (w1, b1) ∧ mappedMode w1 b1 ∧ sameSetup b b1 ∧
      (∀ q : Region, (∀ op ∈ ops, op.1 ≠ q) →
        w1.gl.store (q.handle b) = w.gl.store (q.handle b)) := by
  induction ops generalizing w b with
  | nil => exact ⟨w, b, rfl, hmap, ⟨rfl, rfl, rfl, rfl⟩, fun _ _ => rfl⟩
  | cons op rest ih =>
    obtain ⟨r, bytes⟩ := op
    obtain ⟨w1, b1, h1, hs1, hset1, hfr1⟩ :=
      pair_mapped_frame r w b bytes hmap (hlen (r, bytes) (List.mem_cons_self _ _))
    have hcap : ∀ q : Region, q.capacity b1 = q.capacity b := by
      intro q; cases q <;> simp [Region.capacity, hset1.1]
    have hhan : ∀ q : Region, q.handle b1 = q.handle b := by
      intro q; cases q <;> simp [Region.handle, hset1.2.1, hset1.2.2.1]
    obtain ⟨w2, b2, h2, hs2, hset2, hfr2⟩ := ih w1 b1 hs1 (by
      intro op hop
      rw [hcap]
      exact hlen op (List.mem_cons_of_mem _ hop))
    refine ⟨w2, b2, by simp [runPairs, h1, h2], hs2, ?_, ?_⟩
    · obtain ⟨e1, e2, e3, e4⟩ := hset1
      obtain ⟨f1, f2, f3, f4⟩ := hset2
      exact ⟨f1.trans e1, f2.trans e2, f3.trans e3, f4.trans e4⟩
    · intro q hq
      have hqr : r ≠ q := hq (r, bytes) (List.mem_cons_self _ _)
      have hne : q.handle b ≠ r.handle b := by
        have hvi := hmap.2.2.2.2.1
        cases q <;> cases r <;> simp [Region.handle] at hqr ⊢
        · exact hvi
        · exact Ne.symm hvi
      have := hfr2 q (fun op hop => hq op (List.mem_cons_of_mem _ hop))
      rw [hhan] at this
      rw [this]
      exact hfr1 _ hne

/-- In mapped-buffer mode a lock of the index region, or of the vertex region of a STATIC
buffer, on the bound buffer returns the pointer to the data store of the region, and the bytes
of the store are what is readable through it. -/
theorem lockRead_mapped (r : Region) (w : World) (b : CMeshBuffer) (full : List Nat) (n : Nat)
    (hmap : mappedMode w b) (hx : r = .index → b.mIndexBuffer ≠ 0)
    (hu : r = .vertex → b.mBufferDesc.eUsageFlag = .STATIC)
    (hd : w.gl.store (r.handle b) = some full) (hn : n ≤ full.length) :
    lockRead r n w b = some (full.take n) ∧ (r.lock w b).out = .mapped (r.handle b) := by
  obtain ⟨hm, hab, heb, hv0, hvi, hvm, him, -, -⟩ := hmap
  cases r with
  | vertex =>
    have hd1 : List.lookup b.mVertexBuffer w.gl.stores = some full := hd
    by_cases h0 : n = 0
    · subst h0
      simp [lockRead, Region.lock, CMeshBuffer.LockVertex, hm, hu rfl, glMapBuffer,
        GLState.binding, hab, hv0, hvm, CMeshBuffer.mapResult, World.read, GLState.store, hd1,
        Region.handle]
    · simp [lockRead, Region.lock, CMeshBuffer.LockVertex, hm, hu rfl, glMapBuffer,
        GLState.binding, hab, hv0, hvm, CMeshBuffer.mapResult, World.read, GLState.store, hd1,
        Region.handle, h0, hn]
  | index =>
    have hd1 : List.lookup b.mIndexBuffer w.gl.stores = some full := hd
    have heb := heb (hx rfl)
    by_cases h0 : n = 0
    · subst h0
      simp [lockRead, Region.lock, CMeshBuffer.LockIndex, hm, hx rfl, glMapBuffer,
        GLState.binding, heb, him, CMeshBuffer.mapResult, World.read, GLState.store, hd1,
        Region.handle]
    · simp [lockRead, Region.lock, CMeshBuffer.LockIndex, hm, hx rfl, glMapBuffer,
        GLState.binding, heb, him, CMeshBuffer.mapResult, World.read, GLState.store, hd1,
        Region.handle, h0, hn]

/-- In mapped-buffer mode, on the bound buffer, in every sequence of lock/unlock pairs (`pre`,
then a pair on region `r` that writes `bytes`, then pairs `mid` on the other region) the
sequence is defined and, for the index region and for the vertex region of a STATIC buffer,
`bytes` are exactly the bytes readable through the pointer the next lock of `r` returns. -/
theorem mapped_lock_unlock_readback (w : World) (b : CMeshBuffer)
    (pre mid : List (Region × List Nat)) (r : Region) (bytes : List Nat)
    (hmap : mappedMode w b) (hx : r = .index → b.mIndexBuffer ≠ 0)
    (hu : r = .vertex → b.mBufferDesc.eUsageFlag = .STATIC)
    (hpre : ∀ op ∈ pre, op.2.length ≤ op.1.capacity b)
    (hbytes : bytes.length ≤ r.capacity b)
    (hmid : ∀ op ∈ mid, op.1 ≠ r ∧ op.2.length ≤ op.1.capacity b) :
    ∃ w1 b1 w2 b2 w3 b3,
      runPairs pre w b = some (w1, b1) ∧
      lockWriteUnlock r bytes w1 b1 = some (w2, b2) ∧
      runPairs mid w2 b2 = some (w3, b3) ∧
      lockRead r bytes.length w3 b3 = some bytes := by
  obtain ⟨w1, b1, h1, hs1, hset1, -⟩ := runPairs_mapped pre w b hmap hpre
  have hcap1 : ∀ q : Region, q.capacity b1 = q.capacity b := by
    intro q; cases q <;> simp [Region.capacity, hset1.1]
  obtain ⟨w2, b2, full, h2, hs2, hset2, hd2, hl2, ht2, -⟩ :=
    pair_mapped r w1 b1 bytes hs1 (fun e => by rw [hset1.2.1]; exact hx e)
      (by rw [hcap1]; exact hbytes)
  have hcap2 : ∀ q : Region, q.capacity b2 = q.capacity b := by
    intro q; rw [← hcap1 q]; cases q <;> simp [Region.capacity, hset2.1]
  have hhan2 : ∀ q : Region, q.handle b2 = q.handle b1 := by
    intro q; cases q <;> simp [Region.handle, hset2.2.1, hset2.2.2.1]
  obtain ⟨w3, b3, h3, hs3, hset3, hfr3⟩ := runPairs_mapped mid w2 b2 hs2 (by
    intro op hop; rw [hcap2]; exact (hmid op hop).2)
  have hhan3 : ∀ q : Region, q.handle b3 = q.handle b2 := by
    intro q; cases q <;> simp [Region.handle, hset3.2.1, hset3.2.2.1]
  have hd3 : w3.gl.store (r.handle b3) = some full := by
    rw [hhan3, hfr3 r (fun op hop => (hmid op hop).1), hhan2]; exact hd2
  have hx3 : r = .index → b3.mIndexBuffer ≠ 0 := by
    intro e; rw [hset3.2.1, hset2.2.1, hset1.2.1]; exact hx e
  have hu3 : r = .vertex → b3.mBufferDesc.eUsageFlag = .STATIC := by
    intro e; rw [hset3.1, hset2.1, hset1.1]; exact hu e
  have hb : bytes.length ≤ full.length := by rw [hl2, hcap1]; exact hbytes
  obtain ⟨hr, -⟩ := lockRead_mapped r w3 b3 full bytes.length hs3 hx3 hu3 hd3 hb
  exact ⟨w1, b1, w2, b2, w3, b3, h1, h2, h3, by rw [hr, ht2]⟩

/-- C2 (as stated, refuted): in mapped-buffer mode, on the DYNAMIC buffer, the lock/unlock pair
that wrote `1, 2, 3, 4` to the vertex region is followed by a lock through whose pointer
`0, 0, 0, 0` is read: `LockVertex` replaces the data store by an uninitialised one before it
maps it. -/
theorem C2_mapped_dynamic_lock_discards_written_bytes :
    ((filledBuffer (smallDesc .DYNAMIC) true).map fun s => s.1.gl.store s.2.mVertexBuffer)
        = some (some [1, 2, 3, 4]) ∧
    ((filledBuffer (smallDesc .DYNAMIC) true).bind fun s => lockRead .vertex 4 s.1 s.2)
        = some [0, 0, 0, 0] := by
  decide

/-- C2 (amended): on a buffer in shadow-copy mode, or in mapped-buffer mode and bound to the
GL targets with data stores of the full capacity, in every sequence of lock/unlock pairs
(`pre`, then a pair on region `r` that writes `bytes`, then pairs `mid` on the other region)
the sequence is defined and `bytes` are exactly the bytes readable through the pointer the
next lock of `r` returns, except for the vertex region of a DYNAMIC buffer in mapped-buffer
mode, which the statement leaves out. In shadow-copy mode the pair on `r` issues exactly one
GL call, the upload of the full capacity of the shadow block, and the lock of the pair and the
next lock return the same shadow block. -/
theorem C2_lock_unlock_readback (w : World) (b : CMeshBuffer)
    (pre mid : List (Region × List Nat)) (r : Region) (bytes : List Nat)
    (hst : shadowMode b ∨ mappedMode w b)
    (hx : r = .index → b.mIndexBuffer ≠ 0)
    (hu : b.mbMapBufferAvailable = true → r = .vertex → b.mBufferDesc.eUsageFlag = .STATIC)
    (hpre : ∀ op ∈ pre, op.2.length ≤ op.1.capacity b)
    (hbytes : bytes.length ≤ r.capacity b)
    (hmid : ∀ op ∈ mid, op.1 ≠ r ∧ op.2.length ≤ op.1.capacity b) :
    ∃ w1 b1 w2 b2 w3 b3,
      runPairs pre w b = some (w1, b1) ∧
      lockWriteUnlock r bytes w1 b1 = some (w2, b2) ∧
      runPairs mid w2 b2 = some (w3, b3) ∧
      lockRead r bytes.length w3 b3 = some bytes ∧
      (b.mbMapBufferAvailable = false → ∃ a full,
        w2.gl.calls = w1.gl.calls ++
          [GLCall.bufferData r.target (r.capacity b) (some full) b.mBufferUsage] ∧
        full.length = r.capacity b ∧ full.take bytes.length = bytes ∧
        (r.lock w1 b1).out.addr = some a ∧ (r.lock w3 b3).out.addr = some a) := by
  rcases hst with hs | hmap
  · obtain ⟨w1, b1, w2, b2, w3, b3, a, full, h1, h2, h3, h4, h5, h6, h7, h8, h9⟩ :=
      shadow_lock_unlock_readback w b pre mid r bytes hs hx hpre hbytes hmid
    exact ⟨w1, b1, w2, b2, w3, b3, h1, h2, h3, h9, fun _ => ⟨a, full, h4, h5, h6, h7, h8⟩⟩
  · obtain ⟨w1, b1, w2, b2, w3, b3, h1, h2, h3, h4⟩ :=
      mapped_lock_unlock_readback w b pre mid r bytes hmap hx (hu hmap.1) hpre hbytes hmid
    refine ⟨w1, b1, w2, b2, w3, b3, h1, h2, h3, h4, fun hf => ?_⟩
    rw [hmap.1] at hf
    cases hf

/-- The freshly created buffer is in shadow-copy mode with no shadow block yet. -/
theorem shadowMode_create (self : Nat) (desc : BufferDescription)
    (renderSystem : Option Nat) (w : World) :
    shadowMode (CMeshBuffer.create self desc renderSystem w).2 :=
  ⟨rfl, Or.inl rfl, Or.inl rfl⟩

/-- The freshly created STATIC buffer, switched to mapped-buffer mode, is bound, has its two
data stores and no lock outstanding. -/
theorem mappedMode_create_small :
    mappedMode (CMeshBuffer.create 7 (smallDesc .STATIC) none emptyWorld).1
      (CMeshBuffer.SetMapBufferAvailable true
        (CMeshBuffer.create 7 (smallDesc .STATIC) none emptyWorld).2) :=
  ⟨rfl, rfl, fun _ => rfl, by decide, by decide, by decide, by decide,
   ⟨[0, 0, 0, 0], rfl, rfl⟩, fun _ => ⟨[0, 0], rfl, rfl⟩⟩

/-- Witness for the amended C2: on the freshly created STATIC buffer, in shadow-copy mode and
in mapped-buffer mode, an index pair, then a vertex pair writing `1, 2, 3, 4`, then another
index pair; the next vertex lock reads `1, 2, 3, 4`. -/
theorem C2_lock_unlock_readback_witness :
    (shadowMode (CMeshBuffer.create 7 (smallDesc .STATIC) none emptyWorld).2 ∧
    ∃ w1 b1 w2 b2 w3 b3,
      runPairs [(Region.index, [9, 9])]
        (CMeshBuffer.create 7 (smallDesc .STATIC) none emptyWorld).1
        (CMeshBuffer.create 7 (smallDesc .STATIC) none emptyWorld).2 = some (w1, b1) ∧
      lockWriteUnlock .vertex [1, 2, 3, 4] w1 b1 = some (w2, b2) ∧
      runPairs [(Region.index, [5, 6])] w2 b2 = some (w3, b3) ∧
      lockRead .vertex 4 w3 b3 = some [1, 2, 3, 4] ∧
      (false = false → ∃ a full,
        w2.gl.calls = w1.gl.calls ++
          [GLCall.bufferData .arrayBuffer 4 (some full) GL_STATIC_DRAW] ∧
        full.length = 4 ∧ full.take 4 = [1, 2, 3, 4] ∧
        (CMeshBuffer.LockVertex w1 b1).out.addr = some a ∧
        (CMeshBuffer.LockVertex w3 b3).out.addr = some a)) ∧
    (mappedMode (CMeshBuffer.create 7 (smallDesc .STATIC) none emptyWorld).1
      (CMeshBuffer.SetMapBufferAvailable true
        (CMeshBuffer.create 7 (smallDesc .STATIC) none emptyWorld).2) ∧
    ∃ w1 b1 w2 b2 w3 b3,
      runPairs [(Region.index, [9, 9])]
        (CMeshBuffer.create 7 (smallDesc .STATIC) none emptyWorld).1
        (CMeshBuffer.SetMapBufferAvailable true
          (CMeshBuffer.create 7 (smallDesc .STATIC) none emptyWorld).2) = some (w1, b1) ∧
      lockWriteUnlock .vertex [1, 2, 3, 4] w1 b1 = some (w2, b2) ∧
      runPairs [(Region.index, [5, 6])] w2 b2 = some (w3, b3) ∧
      lockRead .vertex 4 w3 b3 = some [1, 2, 3, 4] ∧
      (true = false → ∃ a full,
        w2.gl.calls = w1.gl.calls ++
          [GLCall.bufferData .arrayBuffer 4 (some full) GL_STATIC_DRAW] ∧
        full.length = 4 ∧ full.take 4 = [1, 2, 3, 4] ∧
        (CMeshBuffer.LockVertex w1 b1).out.addr = some a ∧
        (CMeshBuffer.LockVertex w3 b3).out.addr = some a)) :=
  ⟨⟨shadowMode_create _ _ _ _,
    C2_lock_unlock_readback
      (CMeshBuffer.create 7 (smallDesc .STATIC) none emptyWorld).1
      (CMeshBuffer.create 7 (smallDesc .STATIC) none emptyWorld).2
      [(Region.index, [9, 9])] [(Region.index, [5, 6])] .vertex [1, 2, 3, 4]
      (Or.inl (shadowMode_create _ _ _ _)) (fun h => by cases h) (fun h => by cases h)
      (by decide) (by decide) (by decide)⟩,
   ⟨mappedMode_create_small,
    C2_lock_unlock_readback
      (CMeshBuffer.create 7 (smallDesc .STATIC) none emptyWorld).1
      (CMeshBuffer.SetMapBufferAvailable true
        (CMeshBuffer.create 7 (smallDesc .STATIC) none emptyWorld).2)
      [(Region.index, [9, 9])] [(Region.index, [5, 6])] .vertex [1, 2, 3, 4]
      (Or.inr mappedMode_create_small) (fun h => by cases h) (fun _ _ => rfl)
      (by decide) (by decide) (by decide)⟩⟩

end OpenGL
end ChilliSource

/-! # Restore without a backup (C3) -/

namespace ChilliSource
namespace OpenGL

/-- C3 (as stated, refuted): `Restore()` on the freshly created, currently bound buffer, which
has no backup, changes the global currently-bound pointer from that buffer to null. -/
theorem C3_restore_without_backup_resets_bound_pointer :
    (CMeshBuffer.create 7 (smallDesc .STATIC) none emptyWorld).2.mpVertexDataBackup = .null ∧
    (CMeshBuffer.create 7 (smallDesc .STATIC) none emptyWorld).1.pCurrentlyBoundBuffer
        = some 7 ∧
    ((CMeshBuffer.Restore (CMeshBuffer.create 7 (smallDesc .STATIC) none emptyWorld).1
        (CMeshBuffer.create 7 (smallDesc .STATIC) none emptyWorld).2).map
        fun s => s.1.pCurrentlyBoundBuffer) = some none := by
  decide

/-- C3 (amended): `Restore()` on a buffer without a backup returns with the buffer object
unchanged (handles, shadow data, cache-valid flag) and the GL context unchanged (no GL call is
issued); the only effect is that the global currently-bound pointer is null afterwards. -/
theorem C3_restore_without_backup (w : World) (b : CMeshBuffer)
    (h : b.mpVertexDataBackup = .null) :
    CMeshBuffer.Restore w b = some ({ w with pCurrentlyBoundBuffer := none }, b) := by
  simp [CMeshBuffer.Restore, h]

/-- Witness for the amended C3 on the freshly created buffer. -/
theorem C3_restore_without_backup_witness :
    CMeshBuffer.Restore (CMeshBuffer.create 7 (smallDesc .STATIC) none emptyWorld).1
        (CMeshBuffer.create 7 (smallDesc .STATIC) none emptyWorld).2
      = some ({ (CMeshBuffer.create 7 (smallDesc .STATIC) none emptyWorld).1 with
                  pCurrentlyBoundBuffer := none },
              (CMeshBuffer.create 7 (smallDesc .STATIC) none emptyWorld).2) :=
  C3_restore_without_backup _ _ (by decide)

end OpenGL
end ChilliSource

/-! # Bind (C4) -/

namespace ChilliSource
namespace OpenGL

/-- C4: `Bind()` on the globally bound buffer changes nothing (in particular it issues no GL
call); on any other buffer it issues exactly the two `glBindBuffer` calls for the vertex and
the index handle and makes the buffer the globally bound one; binding twice in a row equals
binding once. -/
theorem C4_bind (w : World) (b : CMeshBuffer) :
    (w.pCurrentlyBoundBuffer = some b.self → CMeshBuffer.Bind w b = w) ∧
    (w.pCurrentlyBoundBuffer ≠ some b.self →
      (CMeshBuffer.Bind w b).gl.calls = w.gl.calls ++
        [GLCall.bindBuffer .arrayBuffer b.mVertexBuffer,
         GLCall.bindBuffer .elementArrayBuffer b.mIndexBuffer] ∧
      (CMeshBuffer.Bind w b).gl.arrayBinding = b.mVertexBuffer ∧
      (CMeshBuffer.Bind w b).gl.elementBinding = b.mIndexBuffer ∧
      (CMeshBuffer.Bind w b).pCurrentlyBoundBuffer = some b.self) ∧
    CMeshBuffer.Bind (CMeshBuffer.Bind w b) b = CMeshBuffer.Bind w b := by
  refine ⟨fun h => by simp [CMeshBuffer.Bind, h], fun h => ?_, ?_⟩
  · simp [CMeshBuffer.Bind, h, glBindBuffer]
  · unfold CMeshBuffer.Bind
    split <;> simp_all

/-- Witness for C4: the freshly created buffer at address 7 is the bound one, so binding it
changes nothing; the buffer at address 8 with handles 5 and 6 is not, so binding it issues the
two bind calls. -/
theorem C4_bind_witness :
    CMeshBuffer.Bind (CMeshBuffer.create 7 (smallDesc .STATIC) none emptyWorld).1
        (CMeshBuffer.create 7 (smallDesc .STATIC) none emptyWorld).2
      = (CMeshBuffer.create 7 (smallDesc .STATIC) none emptyWorld).1 ∧
    (CMeshBuffer.Bind (CMeshBuffer.create 7 (smallDesc .STATIC) none emptyWorld).1
        { (CMeshBuffer.create 7 (smallDesc .STATIC) none emptyWorld).2 with
            self := 8, mVertexBuffer := 5, mIndexBuffer := 6 }).gl.arrayBinding = 5 :=
  ⟨(C4_bind _ _).1 (by decide), ((C4_bind _ _).2.1 (by decide)).2.1⟩

end OpenGL
end ChilliSource

/-! # Locking a missing index buffer (C5) -/

namespace ChilliSource
namespace OpenGL

/-- A buffer created with index capacity 0 has index handle 0. -/
theorem create_no_index (self : Nat) (desc : BufferDescription) (renderSystem : Option Nat)
    (w : World) (h : desc.IndexDataCapacity = 0) :
    (CMeshBuffer.create self desc renderSystem w).2.mIndexBuffer = 0 := by
  simp [CMeshBuffer.create, h]

/-- C5: on a buffer whose index handle is 0, `LockIndex` writes the null pointer to its
output and returns false with the world and the buffer unchanged (no shadow index buffer is
allocated, no GL call is issued, the cache-valid flag keeps its value), and `UnlockIndex`
returns false with the world and the buffer unchanged. -/
theorem C5_lock_index_without_index_buffer (w : World) (b : CMeshBuffer)
    (h : b.mIndexBuffer = 0) :
    CMeshBuffer.LockIndex w b = { ok := false, out := .null, world := w, buffer := b } ∧
    CMeshBuffer.UnlockIndex w b = some (false, w, b) := by
  simp [CMeshBuffer.LockIndex, CMeshBuffer.UnlockIndex, h]

/-- Witness for C5 on the buffer created with index capacity 0. -/
theorem C5_lock_index_without_index_buffer_witness :
    CMeshBuffer.LockIndex (CMeshBuffer.create 7 (vertexOnlyDesc .STATIC) none emptyWorld).1
        (CMeshBuffer.create 7 (vertexOnlyDesc .STATIC) none emptyWorld).2
      = { ok := false, out := .null,
          world := (CMeshBuffer.create 7 (vertexOnlyDesc .STATIC) none emptyWorld).1,
          buffer := (CMeshBuffer.create 7 (vertexOnlyDesc .STATIC) none emptyWorld).2 } ∧
    CMeshBuffer.UnlockIndex (CMeshBuffer.create 7 (vertexOnlyDesc .STATIC) none emptyWorld).1
        (CMeshBuffer.create 7 (vertexOnlyDesc .STATIC) none emptyWorld).2
      = some (false, (CMeshBuffer.create 7 (vertexOnlyDesc .STATIC) none emptyWorld).1,
              (CMeshBuffer.create 7 (vertexOnlyDesc .STATIC) none emptyWorld).2) :=
  C5_lock_index_without_index_buffer _ _ (create_no_index _ _ _ _ rfl)

end OpenGL
end ChilliSource

/-! # Destruction (C7) -/

namespace ChilliSource
namespace OpenGL

/-- `SAFE_DELETE_ARRAY` is defined on every pointer that is not a mapped one. -/
theorem safeDeleteArray_of_not_mapped (p : DataPtr) (h : ∀ n, p ≠ .mapped n) :
    CMeshBuffer.safeDeleteArray p = some .null := by
  cases p with
  | null => rfl
  | heap a bytes => rfl
  | mapped n => exact absurd rfl (h n)

/-- The freshly created buffer holds no mapped pointer. -/
theorem noMappedPointer_create (self : Nat) (desc : BufferDescription)
    (renderSystem : Option Nat) (w : World) :
    (CMeshBuffer.create self desc renderSystem w).2.noMappedPointer := by
  refine ⟨?_, ?_, ?_, ?_⟩ <;> intro n h <;> simp [CMeshBuffer.create] at h

/-- C7: destroying a mesh buffer (with no lock outstanding in mapped-buffer mode) leaves the
global currently-bound pointer not referring to it: the pointer is null afterwards if the
buffer was the bound one and unchanged otherwise; a render system set with
`SetOwningRenderSystem` receives exactly one `RemoveBuffer` call, for this buffer, and without
a render system no `RemoveBuffer` call is made. -/
theorem C7_destroy (w : World) (b : CMeshBuffer) (h : b.noMappedPointer) :
    ∃ w1, CMeshBuffer.destroy w b = some w1 ∧
      w1.pCurrentlyBoundBuffer ≠ some b.self ∧
      (w.pCurrentlyBoundBuffer = some b.self → w1.pCurrentlyBoundBuffer = none) ∧
      (w.pCurrentlyBoundBuffer ≠ some b.self →
        w1.pCurrentlyBoundBuffer = w.pCurrentlyBoundBuffer) ∧
      (∀ renderSystem, ∃ w2,
        CMeshBuffer.destroy w (CMeshBuffer.SetOwningRenderSystem (some renderSystem) b)
          = some w2 ∧
        w2.removeBufferCalls = w.removeBufferCalls ++ [(renderSystem, b.self)]) ∧
      (b.mpRenderSystem = none → w1.removeBufferCalls = w.removeBufferCalls) := by
  obtain ⟨h1, h2, h3, h4⟩ := h
  have e1 := safeDeleteArray_of_not_mapped _ h1
  have e2 := safeDeleteArray_of_not_mapped _ h2
  have e3 := safeDeleteArray_of_not_mapped _ h3
  have e4 := safeDeleteArray_of_not_mapped _ h4
  refine ⟨_, by simp [CMeshBuffer.destroy, e1, e2, e3, e4]; rfl, ?_, ?_, ?_, ?_, ?_⟩
  · cases hr : b.mpRenderSystem <;> simp [RemoveBuffer] <;> split <;> simp_all
  · intro hb
    cases hr : b.mpRenderSystem <;> simp [RemoveBuffer, hb]
  · intro hb
    cases hr : b.mpRenderSystem <;> simp [RemoveBuffer, hb]
  · intro rs
    refine ⟨_, by
      simp [CMeshBuffer.destroy, CMeshBuffer.SetOwningRenderSystem, e1, e2, e3, e4]
      rfl, ?_⟩
    simp only [RemoveBuffer]
    split <;> rfl
  · intro hr
    simp only [hr]
    split <;> rfl

/-- Witness for C7 on the freshly created, currently bound buffer at address 7. -/
theorem C7_destroy_witness :
    (CMeshBuffer.create 7 (smallDesc .STATIC) none emptyWorld).2.noMappedPointer ∧
    ∃ w1, CMeshBuffer.destroy (CMeshBuffer.create 7 (smallDesc .STATIC) none emptyWorld).1
        (CMeshBuffer.create 7 (smallDesc .STATIC) none emptyWorld).2 = some w1 ∧
      w1.pCurrentlyBoundBuffer ≠ some 7 ∧ w1.removeBufferCalls = [] :=
  ⟨noMappedPointer_create _ _ _ _,
   match C7_destroy (CMeshBuffer.create 7 (smallDesc .STATIC) none emptyWorld).1
      (CMeshBuffer.create 7 (smallDesc .STATIC) none emptyWorld).2
      (noMappedPointer_create _ _ _ _) with
   | ⟨w1, h1, h2, _, _, _, h6⟩ => ⟨w1, h1, h2, h6 rfl⟩⟩

end OpenGL
end ChilliSource

/-! # Dynamic sprite batcher (C8) -/

namespace ChilliSource
namespace Rendering

open DynamicSpriteBatch

/-- The commands of a list of flushes extended by one flush. -/
theorem issued_append (fs : List Flush) (f : Flush) :
    issued (fs ++ [f]) = issued fs ++ f.commands := by
  induction fs with
  | nil => simp [issued]
  | cons g rest ih => simp [issued, ih]

/-- While fewer sprites than the capacity are cached and all of them use material `m`, the
batcher only accumulates: the sprites are appended to the cache and counted. -/
theorem submit_same_material (m : Nat) (sprites : List SpriteData) (s : DynamicSpriteBatch)
    (hm : ∀ sp ∈ sprites, sp.pMaterial = m)
    (hl : s.mpLastMaterial = none ∨ s.mpLastMaterial = some m)
    (hc : s.maSpriteCache.length + sprites.length < s.capacity) :
    submit sprites s = { s with
      maSpriteCache := s.maSpriteCache ++ sprites,
      mpLastMaterial := if sprites = [] then s.mpLastMaterial else some m,
      mudwSpriteCommandCounter := s.mudwSpriteCommandCounter + sprites.length } := by
  induction sprites generalizing s with
  | nil => simp [submit]
  | cons sp rest ih =>
    have hsp : sp.pMaterial = m := hm sp (List.mem_cons_self _ _)
    have hr : Render sp s = { s with
        maSpriteCache := s.maSpriteCache ++ [sp], mpLastMaterial := some m,
        mudwSpriteCommandCounter := s.mudwSpriteCommandCounter + 1 } := by
      have hlen : ¬ (s.capacity ≤ s.maSpriteCache.length + 1) := by
        simp only [List.length_cons] at hc; omega
      rcases hl with hl | hl <;> simp [Render, hl, hsp, hlen]
    simp only [submit, hr]
    rw [ih _ (fun x hx => hm x (List.mem_cons_of_mem _ hx)) (Or.inr rfl)
      (by simp only [List.length_append, List.length_cons, List.length_nil] at hc ⊢; omega)]
    simp [Nat.add_assoc, Nat.add_comm 1]

/-- Submitting a list that ends with `sp` is submitting the list before it and then
rendering `sp`. -/
theorem submit_append (sprites : List SpriteData) (sp : SpriteData) (s : DynamicSpriteBatch) :
    submit (sprites ++ [sp]) s = Render sp (submit sprites s) := by
  induction sprites generalizing s with
  | nil => rfl
  | cons a rest ih => simp [submit, ih]

/-- Flushing right after a flush does nothing. -/
theorem ForceRender_BuildAndFlushBatch (s : DynamicSpriteBatch) :
    ForceRender (BuildAndFlushBatch s) = BuildAndFlushBatch s := by
  simp [ForceRender, BuildAndFlushBatch]

/-- At most `capacity` sprites, all with material `m`, submitted to a new batcher and flushed:
one flush, with all the sprites and one draw command that covers them all. -/
theorem same_material_one_command (capacity m : Nat) (sprites : List SpriteData)
    (h1 : sprites ≠ []) (h2 : sprites.length ≤ capacity)
    (hm : ∀ sp ∈ sprites, sp.pMaterial = m) :
    (submitAndFlush sprites (create capacity)).flushed =
      [{ buffer := 0, sprites := sprites,
         commands := [{ m_material := some m, m_scissorPos := (0, 0), m_scissorSize := (0, 0),
                        m_offset := 0, m_stride := sprites.length,
                        m_type := CommandType.k_draw }] }] := by
  obtain ⟨front, sp, rfl⟩ : ∃ front sp, sprites = front ++ [sp] := by
    rcases List.eq_nil_or_concat sprites with h | ⟨front, sp, h⟩
    · exact absurd h h1
    · exact ⟨front, sp, by simpa using h⟩
  have hlen : front.length < capacity := by
    simp only [List.length_append, List.length_cons, List.length_nil] at h2; omega
  have hsp : sp.pMaterial = m := hm sp (by simp)
  have hs := submit_same_material m front (create capacity)
    (fun x hx => hm x (by simp [hx])) (Or.inl rfl) (by simpa [create] using hlen)
  simp only [submitAndFlush, submit_append, hs]
  by_cases hf : front = []
  · subst hf
    by_cases hcap : capacity ≤ 1
    · simp [Render, create, ForceRender, InsertDrawCommand, BuildAndFlushBatch, hsp, hcap]
    · simp [Render, create, ForceRender, InsertDrawCommand, BuildAndFlushBatch, hsp, hcap]
  · by_cases hcap : capacity ≤ front.length + 1
    · simp [Render, create, ForceRender, InsertDrawCommand, BuildAndFlushBatch, hsp, hcap, hf]
    · simp [Render, create, ForceRender, InsertDrawCommand, BuildAndFlushBatch, hsp, hcap, hf]

/-- Rendering a sprite whose material differs from the one queued last, in a batcher whose
open range holds at most one sprite, adds exactly one render command and again leaves at most
one sprite in the open range. -/
theorem Render_oneSpriteRun (sp : SpriteData) (s : DynamicSpriteBatch) (next : Nat)
    (hs : oneSpriteRun s sp.pMaterial) (hn : sp.pMaterial ≠ next) :
    oneSpriteRun (Render sp s) next ∧ commandTotal (Render sp s) = commandTotal s + 1 := by
  rcases hs with ⟨h1, h2, h3, h4⟩ | ⟨h1, h2, m, h4, h5⟩
  · by_cases hcap : s.capacity ≤ 1
    · refine ⟨Or.inl ?_, ?_⟩
      · simp [Render, ForceRender, BuildAndFlushBatch, InsertDrawCommand, h1, h2, h3, h4, hcap]
      · simp [Render, ForceRender, BuildAndFlushBatch, InsertDrawCommand, commandTotal,
          issued_append, h1, h2, h3, h4, hcap]
    · refine ⟨Or.inr ?_, ?_⟩
      · simp [Render, h1, h2, h3, h4, hcap, hn]
      · simp [Render, commandTotal, h1, h2, h3, h4, hcap]
  · have h6 : ¬ (m = sp.pMaterial) := h5
    by_cases hcap : s.capacity ≤ s.maSpriteCache.length + 1
    · refine ⟨Or.inl ?_, ?_⟩
      · simp [Render, ForceRender, BuildAndFlushBatch, InsertDrawCommand, h1, h4, h6, hcap]
      · simp [Render, ForceRender, BuildAndFlushBatch, InsertDrawCommand, commandTotal,
          issued_append, h1, h4, h6, hcap]
        omega
    · refine ⟨Or.inr ?_, ?_⟩
      · simp [Render, InsertDrawCommand, h1, h4, h6, hcap, hn]
      · simp [Render, InsertDrawCommand, commandTotal, h1, h4, h6, hcap]
        omega

/-- Submitting `n` sprites that alternate between two different materials adds exactly `n`
render commands, flushed or still to come. -/
theorem submit_alternating (n m1 m2 : Nat) (s : DynamicSpriteBatch) (hne : m1 ≠ m2)
    (hs : oneSpriteRun s m1) :
    (∃ next, oneSpriteRun (submit (alternating m1 m2 n) s) next) ∧
    commandTotal (submit (alternating m1 m2 n) s) = commandTotal s + n := by
  induction n generalizing m1 m2 s with
  | zero => exact ⟨⟨m1, hs⟩, rfl⟩
  | succ k ih =>
    obtain ⟨h1, h2⟩ := Render_oneSpriteRun { pMaterial := m1, quad := k } s m2 hs hne
    obtain ⟨h3, h4⟩ := ih m2 m1 _ (Ne.symm hne) h1
    refine ⟨h3, ?_⟩
    simp only [alternating, submit]
    rw [h4, h2]; omega

/-- Flushing a batcher whose open range holds at most one sprite flushes every command that
was still to come. -/
theorem ForceRender_oneSpriteRun (s : DynamicSpriteBatch) (next : Nat)
    (hs : oneSpriteRun s next) :
    (issued (ForceRender s).flushed).length = commandTotal s := by
  rcases hs with ⟨h1, h2, h3, h4⟩ | ⟨h1, h2, m, h4, h5⟩
  · simp [ForceRender, commandTotal, h1, h2, h3]
  · simp [ForceRender, BuildAndFlushBatch, InsertDrawCommand, commandTotal, issued_append,
      h1, h2]
    omega

/-- Whatever the item capacity is, one sprite more than the capacity, all with material `m`,
yields two render commands: the batch is flushed when the cache is full. -/
theorem same_material_capacity_plus_one (capacity m : Nat) (front : List SpriteData)
    (x y : SpriteData) (hc : front.length + 1 = capacity)
    (hm : ∀ sp ∈ front ++ [x, y], sp.pMaterial = m) :
    (issued (submitAndFlush (front ++ [x, y]) (create capacity)).flushed).length = 2 := by
  have hx : x.pMaterial = m := hm x (by simp)
  have hs := submit_same_material m front (create capacity)
    (fun z hz => hm z (by simp [hz])) (Or.inl rfl) (by simp [create]; omega)
  have hsplit : front ++ [x, y] = (front ++ [x]) ++ [y] := by simp
  rw [hsplit]
  simp only [submitAndFlush, submit_append, hs]
  subst hc
  by_cases hf : front = []
  · subst hf
    simp [Render, create, ForceRender, InsertDrawCommand, BuildAndFlushBatch, hx, issued,
      kudwBufferArrayBounds, kudwNumBuffers]
  · have h1 : ¬ front.length + 1 ≤ 1 := by
      have : front.length ≠ 0 := fun h => hf (List.length_eq_zero.mp h)
      omega
    simp [Render, create, ForceRender, InsertDrawCommand, BuildAndFlushBatch, hx, hf, issued,
      kudwBufferArrayBounds, kudwNumBuffers, h1]

/-- C8 (as stated, refuted): with an item capacity of 4, five sprites with the same material
and no scissor call yield two render commands, and neither covers all five sprites. -/
theorem C8_same_material_beyond_capacity :
    issued (submitAndFlush (sameMaterial 3 5) (create 4)).flushed =
      [{ m_material := some 3, m_scissorPos := (0, 0), m_scissorSize := (0, 0),
         m_offset := 0, m_stride := 4, m_type := CommandType.k_draw },
       { m_material := some 3, m_scissorPos := (0, 0), m_scissorSize := (0, 0),
         m_offset := 0, m_stride := 1, m_type := CommandType.k_draw }] := by
  decide

/-- C8 (amended): for every `N` with `1 ≤ N ≤ capacity`, `N` sprites with the same material and
no scissor call, submitted to a new batcher and flushed, yield exactly one render command, of
type `k_draw`, whose range covers all `N` sprites; for every `N` and every capacity, `N`
sprites that alternate between two different materials yield exactly `N` render commands. -/
theorem C8_batching (capacity m m1 m2 N : Nat) (h1 : 1 ≤ N) (h2 : N ≤ capacity)
    (hne : m1 ≠ m2) :
    issued (submitAndFlush (sameMaterial m N) (create capacity)).flushed =
      [{ m_material := some m, m_scissorPos := (0, 0), m_scissorSize := (0, 0),
         m_offset := 0, m_stride := N, m_type := CommandType.k_draw }] ∧
    (∀ n cap,
      (issued (submitAndFlush (alternating m1 m2 n) (create cap)).flushed).length = n) := by
  have hlen : ∀ k, (sameMaterial m k).length = k := by
    intro k; induction k with
    | zero => rfl
    | succ k ih => simp [sameMaterial, ih]
  have hmat : ∀ k, ∀ sp ∈ sameMaterial m k, sp.pMaterial = m := by
    intro k; induction k with
    | zero => intro sp h; cases h
    | succ k ih =>
      intro sp h
      rcases List.mem_cons.mp h with rfl | h
      · rfl
      · exact ih sp h
  constructor
  · have hne0 : sameMaterial m N ≠ [] := by
      intro h; have := hlen N; rw [h] at this; simp at this; omega
    rw [same_material_one_command capacity m (sameMaterial m N) hne0
      (by rw [hlen]; exact h2) (hmat N)]
    simp [issued, hlen]
  · intro n cap
    obtain ⟨⟨next, h3⟩, h4⟩ := submit_alternating n m1 m2 (create cap) hne (Or.inl
      ⟨rfl, rfl, rfl, rfl⟩)
    rw [submitAndFlush, ForceRender_oneSpriteRun _ next h3, h4]
    simp [commandTotal, create, issued]

/-- Witness for the amended C8: three sprites with material 3 in a batcher of capacity 4, and
the materials 3 and 4 for the alternating sprites. -/
theorem C8_batching_witness :
    issued (submitAndFlush (sameMaterial 3 3) (create 4)).flushed =
      [{ m_material := some 3, m_scissorPos := (0, 0), m_scissorSize := (0, 0),
         m_offset := 0, m_stride := 3, m_type := CommandType.k_draw }] ∧
    (∀ n cap,
      (issued (submitAndFlush (alternating 3 4 n) (create cap)).flushed).length = n) :=
  C8_batching 4 3 3 4 3 (by decide) (by decide) (by decide)

end Rendering
end ChilliSource

/-! # Texture unit table (C9) -/

namespace ChilliSource
namespace OpenGL

/-- Counting bind calls in a trace extended at the end. -/
theorem bindCalls_append (xs ys : List TextureCall) :
    bindCalls (xs ++ ys) = bindCalls xs + bindCalls ys := by
  induction xs with
  | nil => simp [bindCalls]
  | cons c rest ih =>
    cases c <;> simp [bindCalls, ih]
    omega

/-- Setting the active unit issues no bind call. -/
theorem bindCalls_SetActiveTextureSlot (slot : Nat) (u : TextureUnits) :
    bindCalls (SetActiveTextureSlot slot u).calls = bindCalls u.calls := by
  unfold SetActiveTextureSlot
  split
  · rfl
  · simp [bindCalls_append, bindCalls]

/-- Setting the active unit keeps the number of units. -/
theorem unitCount_SetActiveTextureSlot (slot : Nat) (u : TextureUnits) :
    (SetActiveTextureSlot slot u).unitCount = u.unitCount := by
  unfold SetActiveTextureSlot
  split <;> rfl

/-- A bind on a unit that holds the object changes nothing. -/
theorem Bind_of_holds (inSlot : Nat) (u : TextureUnits) (t : CTexture)
    (h : CTexture.holds u t inSlot = true) : CTexture.Bind inSlot (u, t) = (u, t) := by
  have h1 : (u.paTextureUnits (CTexture.clampSlot u inSlot)).pObjectID = some t.self := by
    simpa [CTexture.holds] using h
  simp [CTexture.Bind, h1]

/-- After a bind the unit holds the object. -/
theorem holds_Bind (inSlot : Nat) (u : TextureUnits) (t : CTexture) :
    CTexture.holds (CTexture.Bind inSlot (u, t)).1 (CTexture.Bind inSlot (u, t)).2 inSlot
      = true := by
  by_cases h : (u.paTextureUnits (CTexture.clampSlot u inSlot)).pObjectID = some t.self
  · simp [CTexture.Bind, h, CTexture.holds]
  · have hc : ∀ v : TextureUnits, v.unitCount = u.unitCount →
        CTexture.clampSlot v inSlot = CTexture.clampSlot u inSlot := by
      intro v hv; simp [CTexture.clampSlot, hv]
    simp only [CTexture.Bind, h, if_false, CTexture.holds]
    split <;> simp [hc, unitCount_SetActiveTextureSlot]

/-- A bind on a unit that does not hold the object issues exactly one bind call. -/
theorem bindCalls_Bind_of_not_holds (inSlot : Nat) (u : TextureUnits) (t : CTexture)
    (h : CTexture.holds u t inSlot = false) :
    bindCalls (CTexture.Bind inSlot (u, t)).1.calls = bindCalls u.calls + 1 := by
  have h1 : ¬ (u.paTextureUnits (CTexture.clampSlot u inSlot)).pObjectID = some t.self := by
    simpa [CTexture.holds] using h
  simp only [CTexture.Bind, h1, if_false]
  split <;> simp [bindCalls_append, bindCalls, bindCalls_SetActiveTextureSlot]

/-- C9 (as stated, refuted): once the texture at address 5 occupies unit 0, binding it to
unit 0 twice in succession issues no GPU bind call at all: the trace holds one bind call before
the two calls and one after them. -/
theorem C9_bind_twice_on_occupied_unit_issues_no_call :
    bindCalls (CTexture.Bind 0 (ClearCache 4,
        { self := 5, mGLTexID := 9, mbHasTextureFilterModeChanged := false,
          mdwTextureSlot := -1 })).1.calls = 1 ∧
    bindCalls (CTexture.Bind 0 (CTexture.Bind 0 (CTexture.Bind 0 (ClearCache 4,
        { self := 5, mGLTexID := 9, mbHasTextureFilterModeChanged := false,
          mdwTextureSlot := -1 })))).1.calls = 1 := by
  decide

/-- C9 (amended): for `Bind(unit)` called twice in succession with the same texture object and
the same unit, the second call finds the unit holding the object and changes nothing; the two
calls together issue exactly one GPU bind call when the unit did not hold the object before
the first call, and none when it did. -/
theorem C9_bind_twice (inSlot : Nat) (u : TextureUnits) (t : CTexture) :
    CTexture.Bind inSlot (CTexture.Bind inSlot (u, t)) = CTexture.Bind inSlot (u, t) ∧
    bindCalls (CTexture.Bind inSlot (CTexture.Bind inSlot (u, t))).1.calls
      = bindCalls u.calls + (if CTexture.holds u t inSlot then 0 else 1) := by
  have h2 : CTexture.Bind inSlot (CTexture.Bind inSlot (u, t)) = CTexture.Bind inSlot (u, t) :=
    Bind_of_holds inSlot _ _ (holds_Bind inSlot u t)
  refine ⟨h2, ?_⟩
  rw [h2]
  cases h : CTexture.holds u t inSlot
  · simpa using bindCalls_Bind_of_not_holds inSlot u t h
  · simp [Bind_of_holds inSlot u t h]

end OpenGL
end ChilliSource

/-! # Skinned animation group (C10) -/

namespace ChilliSource
namespace Rendering

open CSkinnedAnimationGroup

/-- Interpolating with factor 0 yields the first number. -/
theorem lerp_zero (a b : ℚ) : lerp a b 0 = a := by
  simp [lerp]

/-- Interpolating with factor 0 yields the first frame, joint by joint. -/
theorem LerpBetweenFrames_zero (frameA frameB : SkinnedAnimationFrame) (joint : Nat) :
    LerpBetweenFrames frameA frameB 0 joint = frameA joint := by
  simp [LerpBetweenFrames, Vector3.lerp, Quaternion.lerp, lerp_zero]

/-- The search for the lower anchor keeps what it has found when every remaining clip lies
above the position. -/
theorem foldl_lower_keep (items : List AnimationItem) (x : ℚ) (found : Option AnimationItem)
    (h : ∀ it ∈ items, x < it.fBlendlinePosition) :
    items.foldl (fun found item => if item.fBlendlinePosition ≤ x then some item else found)
      found = found := by
  induction items generalizing found with
  | nil => rfl
  | cons a rest ih =>
    have ha : ¬ a.fBlendlinePosition ≤ x := not_le.mpr (h a (List.mem_cons_self _ _))
    simp only [List.foldl_cons, ha, if_false]
    exact ih found (fun it hit => h it (List.mem_cons_of_mem _ hit))

/-- With the clips in increasing order of blendline position, the search for the lower anchor
at the position of an attached clip ends at that clip. -/
theorem foldl_lower_exact (items : List AnimationItem) (item : AnimationItem)
    (found : Option AnimationItem)
    (hs : items.Pairwise (fun a b => a.fBlendlinePosition < b.fBlendlinePosition))
    (hm : item ∈ items) :
    items.foldl (fun found it =>
        if it.fBlendlinePosition ≤ item.fBlendlinePosition then some it else found) found
      = some item := by
  induction items generalizing found with
  | nil => cases hm
  | cons a rest ih =>
    obtain ⟨ha, hrest⟩ := List.pairwise_cons.mp hs
    rcases List.mem_cons.mp hm with rfl | hm
    · simp only [List.foldl_cons, le_refl, if_true]
      exact foldl_lower_keep rest _ _ ha
    · have hle : a.fBlendlinePosition ≤ item.fBlendlinePosition := le_of_lt (ha item hm)
      simp only [List.foldl_cons, hle, if_true]
      exact ih _ hrest hm

/-- C10: with the attached clips in increasing order of blendline position,
`BuildAnimationData` at a blendline position exactly equal to the position of an attached clip
makes the current animation data, for every joint, exactly that clip's frame at the given
playback position: the clip is the lower anchor, and the frame is either the clip's frame
itself or the interpolation from it towards the upper anchor with blend factor 0. -/
theorem C10_exact_blendline_position (g : CSkinnedAnimationGroup) (item : AnimationItem)
    (infPlaybackPosition : ℚ)
    (hs : g.mAnimations.Pairwise (fun a b => a.fBlendlinePosition < b.fBlendlinePosition))
    (hm : item ∈ g.mAnimations) :
    ∃ frame,
      (BuildAnimationData .LINEAR infPlaybackPosition item.fBlendlinePosition
        g).mCurrentAnimationData = some frame ∧
      (∀ joint, frame joint
        = CalculateAnimationFrame item.pSkinnedAnimation infPlaybackPosition joint) ∧
      (frame = CalculateAnimationFrame item.pSkinnedAnimation infPlaybackPosition ∨
        ∃ other : AnimationItem, frame = LerpBetweenFrames
          (CalculateAnimationFrame item.pSkinnedAnimation infPlaybackPosition)
          (CalculateAnimationFrame other.pSkinnedAnimation infPlaybackPosition) 0) := by
  have hlo : lowerAnchor g.mAnimations item.fBlendlinePosition = some item :=
    foldl_lower_exact g.mAnimations item none hs hm
  cases hhi : upperAnchor g.mAnimations item.fBlendlinePosition with
  | none =>
    refine ⟨CalculateAnimationFrame item.pSkinnedAnimation infPlaybackPosition, ?_,
      fun _ => rfl, Or.inl rfl⟩
    simp [BuildAnimationData, blendedFrame, hlo, hhi]
  | some hi =>
    refine ⟨LerpBetweenFrames
      (CalculateAnimationFrame item.pSkinnedAnimation infPlaybackPosition)
      (CalculateAnimationFrame hi.pSkinnedAnimation infPlaybackPosition) 0, ?_,
      fun joint => LerpBetweenFrames_zero _ _ joint, Or.inr ⟨hi, rfl⟩⟩
    simp [BuildAnimationData, blendedFrame, hlo, hhi, clampFactor]

/-- The clips of the example group are in increasing order of blendline position. -/
theorem idleWalkGroup_sorted :
    idleWalkGroup.mAnimations.Pairwise
      (fun a b => a.fBlendlinePosition < b.fBlendlinePosition) := by
  simp [idleWalkGroup, AttachAnimation, create, walkItem]

/-- The "walk" item is attached to the example group. -/
theorem walkItem_mem : walkItem ∈ idleWalkGroup.mAnimations := by
  simp [idleWalkGroup, AttachAnimation, create, walkItem]

/-- Witness for C10: the example group at the blendline position of its "walk" clip and
playback position 1/2. -/
theorem C10_exact_blendline_position_witness :
    idleWalkGroup.mAnimations.Pairwise
      (fun a b => a.fBlendlinePosition < b.fBlendlinePosition) ∧
    walkItem ∈ idleWalkGroup.mAnimations ∧
    ∃ frame,
      (BuildAnimationData .LINEAR (1 / 2) walkItem.fBlendlinePosition
        idleWalkGroup).mCurrentAnimationData = some frame ∧
      (∀ joint,
        frame joint = CalculateAnimationFrame walkItem.pSkinnedAnimation (1 / 2) joint) ∧
      (frame = CalculateAnimationFrame walkItem.pSkinnedAnimation (1 / 2) ∨
        ∃ other : AnimationItem, frame = LerpBetweenFrames
          (CalculateAnimationFrame walkItem.pSkinnedAnimation (1 / 2))
          (CalculateAnimationFrame other.pSkinnedAnimation (1 / 2)) 0) :=
  ⟨idleWalkGroup_sorted, walkItem_mem,
   C10_exact_blendline_position idleWalkGroup walkItem (1 / 2) idleWalkGroup_sorted
     walkItem_mem⟩

end Rendering
end ChilliSource

/-! # Resource providers (C11) -/

namespace ChilliSource
namespace Core

/-- The provider returned does not depend on the interface identifier asked for. -/
theorem GetResourceProviderProducing_ignores_kind (providers : List IResourceProvider)
    (kind1 kind2 : InterfaceIDType) (inExtension : String) :
    GetResourceProviderProducing providers kind1 inExtension =
      GetResourceProviderProducing providers kind2 inExtension := rfl

/-- A provider that is returned is registered and accepts the extension. -/
theorem GetResourceProviderProducing_accepts (providers : List IResourceProvider)
    (kind : InterfaceIDType) (inExtension : String) (p : IResourceProvider)
    (h : GetResourceProviderProducing providers kind inExtension = some p) :
    p ∈ providers ∧ p.CanCreateResourceFromFileWithExtension inExtension = true := by
  unfold GetResourceProviderProducing at h
  exact ⟨List.mem_of_find?_eq_some h, by simpa using List.find?_some h⟩

/-- C11 (code defect): with the scene provider as the only registered provider, asking for a
provider of textures for the extension `moscene` returns the scene provider, which cannot
create a texture; no registered provider produces textures, so the claim has the call return
null. The parameter `inInterfaceID` is never read. -/
theorem C11_provider_of_other_kind_is_returned :
    ((GetResourceProviderProducing [CSceneProvider 1] ITexture_InterfaceID "moscene").map
      fun p => (p.address, p.CanCreateResourceOfKind ITexture_InterfaceID)) =
      some (1, false) ∧
    ∀ p ∈ [CSceneProvider 1], p.CanCreateResourceOfKind ITexture_InterfaceID = false := by
  decide

end Core
end ChilliSource

/-! # Resource directories (C12) -/

namespace ChilliSource
namespace Core

/-- The loop test is the conjunction of the two bounds. -/
theorem fitsScreen_iff (res : Nat) (d : ℚ) (e : ResourceDirectoryInfo) :
    fitsScreen res d e = true ↔ e.admits res d := by
  simp [fitsScreen, ResourceDirectoryInfo.admits]

/-- When no entry passes the test the loop leaves the initial values. -/
theorem selectDirectory_not_found (res : Nat) (d : ℚ) (l : List ResourceDirectoryInfo)
    (h : ∀ e ∈ l, fitsScreen res d e = false) : selectDirectory res d l = ("", 1) := by
  induction l with
  | nil => rfl
  | cons a t ih =>
    have ha : fitsScreen res d a = false := h a (List.mem_cons_self _ _)
    simp only [selectDirectory, ha, Bool.false_eq_true, if_false]
    exact ih fun e he => h e (List.mem_cons_of_mem _ he)

/-- On a table sorted by resolution the loop stops at an entry that passes the test and whose
maximum resolution is the least among the entries that pass. -/
theorem selectDirectory_found (res : Nat) (d : ℚ) (l : List ResourceDirectoryInfo)
    (hs : l.Pairwise fun a b => ResolutionSortPredicate b a = false)
    (h : ∃ e ∈ l, fitsScreen res d e = true) :
    ∃ e ∈ l, fitsScreen res d e = true ∧
      (∀ e1 ∈ l, fitsScreen res d e1 = true → e.udwMaxRes ≤ e1.udwMaxRes) ∧
      selectDirectory res d l = (e.strDirectory, e.fResourcesDensity) := by
  induction l with
  | nil =>
    obtain ⟨e, he, -⟩ := h
    cases he
  | cons a t ih =>
    rw [List.pairwise_cons] at hs
    by_cases ha : fitsScreen res d a = true
    · refine ⟨a, List.mem_cons_self _ _, ha, ?_, by simp [selectDirectory, ha]⟩
      intro e1 he1 _
      rcases List.mem_cons.mp he1 with rfl | he1
      · exact le_rfl
      · have := hs.1 e1 he1
        simp only [ResolutionSortPredicate, decide_eq_false_iff_not, not_lt] at this
        exact this
    · have hrest : ∃ e ∈ t, fitsScreen res d e = true := by
        obtain ⟨e, he, hfit⟩ := h
        rcases List.mem_cons.mp he with rfl | he
        · exact absurd hfit ha
        · exact ⟨e, he, hfit⟩
      obtain ⟨e, he, hfit, hmin, hsel⟩ := ih hs.2 hrest
      refine ⟨e, List.mem_cons_of_mem _ he, hfit, ?_, by simp [selectDirectory, ha, hsel]⟩
      intro e1 he1 hfit1
      rcases List.mem_cons.mp he1 with rfl | he1
      · exact absurd hfit1 ha
      · exact hmin e1 he1 hfit1

/-- Ordered insertion adds exactly the new entry. -/
theorem insertByResolution_perm (x : ResourceDirectoryInfo) (l : List ResourceDirectoryInfo) :
    (insertByResolution x l).Perm (x :: l) := by
  induction l with
  | nil => exact List.Perm.refl _
  | cons y t ih =>
    unfold insertByResolution
    split
    · exact ((List.Perm.cons y ih).trans (List.Perm.swap x y t))
    · exact List.Perm.refl _

/-- Ordered insertion into a sorted table gives a sorted table. -/
theorem insertByResolution_sorted (x : ResourceDirectoryInfo) (l : List ResourceDirectoryInfo)
    (hs : l.Pairwise fun a b => ResolutionSortPredicate b a = false) :
    (insertByResolution x l).Pairwise fun a b => ResolutionSortPredicate b a = false := by
  induction l with
  | nil => simp [insertByResolution]
  | cons y t ih =>
    rw [List.pairwise_cons] at hs
    unfold insertByResolution
    split
    · rename_i hyx
      rw [List.pairwise_cons]
      refine ⟨?_, ih hs.2⟩
      intro b hb
      rcases List.mem_cons.mp ((insertByResolution_perm x t).subset hb) with rfl | hb
      · simp only [ResolutionSortPredicate, decide_eq_true_eq] at hyx
        simp only [ResolutionSortPredicate, decide_eq_false_iff_not, not_lt]
        exact le_of_lt hyx
      · exact hs.1 b hb
    · rename_i hyx
      rw [List.pairwise_cons]
      refine ⟨?_, List.pairwise_cons.mpr hs⟩
      have hxy : x.udwMaxRes ≤ y.udwMaxRes := by
        simp only [ResolutionSortPredicate, decide_eq_true_eq, not_lt] at hyx
        exact hyx
      intro b hb
      simp only [ResolutionSortPredicate, decide_eq_false_iff_not, not_lt]
      rcases List.mem_cons.mp hb with rfl | hb
      · exact hxy
      · have := hs.1 b hb
        simp only [ResolutionSortPredicate, decide_eq_false_iff_not, not_lt] at this
        exact le_trans hxy this

/-- Insertion sort by resolution is an admissible `std::sort`. -/
theorem sortByResolution_sorts : SortsByResolution sortByResolution := by
  intro l
  induction l with
  | nil => exact ⟨List.Perm.refl _, List.Pairwise.nil⟩
  | cons x t ih =>
    exact ⟨(insertByResolution_perm x _).trans (List.Perm.cons x ih.1),
      insertByResolution_sorted x _ ih.2⟩

/-- C12 (as stated, refuted): the only entry of the table admits the 640 x 480 screen of
density 1, yet the directory handed to the file system is the default device directory
`Default/`, not the entry's directory `""`, and the density handed over is the entry's 2,
not 1: an entry whose directory is the empty string is taken for "none found" by the test
`strDeviceDir.empty()`. -/
theorem C12_empty_directory_entry_yields_default :
    (∃ e ∈ rootDirectory, e.admits (640 * 480) 1) ∧
    (¬ ∃ e ∈ rootDirectory, e.admits (640 * 480) 1 ∧
      (DetermineResourceDirectories sortByResolution rootDirectory "Default/" "Common/"
        640 480 1).strDeviceDir = e.strDirectory) ∧
    (DetermineResourceDirectories sortByResolution rootDirectory "Default/" "Common/"
      640 480 1).strDeviceDir = "Default/" ∧
    (DetermineResourceDirectories sortByResolution rootDirectory "Default/" "Common/"
      640 480 1).fAssetDensity = 2 := by
  decide

/-- C12 (amended): for every admissible `std::sort` and a screen whose pixel count fits 32
bits, when some entry admits the screen (maximum resolution and maximum density at least the
screen's) the file system receives the resource density of an admitting entry of least
maximum resolution, and that entry's directory, or the default device directory when that
entry's directory is the empty string; when no entry admits the screen it receives the
default device directory and the density 1. The two default directories are passed on as
they are. -/
theorem C12_determine_resource_directories
    (stdSort : List ResourceDirectoryInfo → List ResourceDirectoryInfo)
    (hsort : SortsByResolution stdSort) (infos : List ResourceDirectoryInfo)
    (strDefaultDeviceDir strDefaultDir : String) (width height : Nat) (density : ℚ)
    (hres : width * height < 2 ^ 32) :
    (DetermineResourceDirectories stdSort infos strDefaultDeviceDir strDefaultDir
      width height density).strDefaultDeviceDir = strDefaultDeviceDir ∧
    (DetermineResourceDirectories stdSort infos strDefaultDeviceDir strDefaultDir
      width height density).strDefaultDir = strDefaultDir ∧
    ((∃ e ∈ infos, e.admits (width * height) density) →
      ∃ e ∈ infos, e.admits (width * height) density ∧
        (∀ e1 ∈ infos, e1.admits (width * height) density → e.udwMaxRes ≤ e1.udwMaxRes) ∧
        (DetermineResourceDirectories stdSort infos strDefaultDeviceDir strDefaultDir
          width height density).fAssetDensity = e.fResourcesDensity ∧
        (DetermineResourceDirectories stdSort infos strDefaultDeviceDir strDefaultDir
          width height density).strDeviceDir =
            if e.strDirectory = "" then strDefaultDeviceDir else e.strDirectory) ∧
    ((∀ e ∈ infos, ¬ e.admits (width * height) density) →
      (DetermineResourceDirectories stdSort infos strDefaultDeviceDir strDefaultDir
        width height density).strDeviceDir = strDefaultDeviceDir ∧
      (DetermineResourceDirectories stdSort infos strDefaultDeviceDir strDefaultDir
        width height density).fAssetDensity = 1) := by
  obtain ⟨hperm, hsorted⟩ := hsort infos
  have hmod : width * height % 2 ^ 32 = width * height := Nat.mod_eq_of_lt hres
  refine ⟨rfl, rfl, ?_, ?_⟩
  · rintro ⟨e, he, hadm⟩
    have hex : ∃ e ∈ stdSort infos, fitsScreen (width * height) density e = true :=
      ⟨e, hperm.symm.subset he, (fitsScreen_iff _ _ _).mpr hadm⟩
    obtain ⟨e0, he0, hfit, hmin, hsel⟩ := selectDirectory_found _ _ _ hsorted hex
    refine ⟨e0, hperm.subset he0, (fitsScreen_iff _ _ _).mp hfit, ?_, ?_, ?_⟩
    · intro e1 he1 hadm1
      exact hmin e1 (hperm.symm.subset he1) ((fitsScreen_iff _ _ _).mpr hadm1)
    · simp only [DetermineResourceDirectories, hmod, hsel]
    · simp only [DetermineResourceDirectories, hmod, hsel]
  · intro hnone
    have hsel : selectDirectory (width * height) density (stdSort infos) = ("", 1) := by
      apply selectDirectory_not_found
      intro e he
      have := hnone e (hperm.subset he)
      rw [← fitsScreen_iff] at this
      simpa using this
    simp only [DetermineResourceDirectories, hmod, hsel]
    simp

/-- Witness for C12: on the table with the entries `HD/` and `SD/`, a 640 x 480 screen of
density 1 is admitted by both; the entry chosen has the least maximum resolution. A screen of
density 4 is admitted by none. -/
theorem C12_determine_resource_directories_witness :
    (∃ e ∈ twoDirectories, e.admits (640 * 480) 1 ∧
      (∀ e1 ∈ twoDirectories, e1.admits (640 * 480) 1 → e.udwMaxRes ≤ e1.udwMaxRes) ∧
      (DetermineResourceDirectories sortByResolution twoDirectories "Default/" "Common/"
        640 480 1).fAssetDensity = e.fResourcesDensity ∧
      (DetermineResourceDirectories sortByResolution twoDirectories "Default/" "Common/"
        640 480 1).strDeviceDir =
          if e.strDirectory = "" then "Default/" else e.strDirectory) ∧
    ((DetermineResourceDirectories sortByResolution twoDirectories "Default/" "Common/"
        640 480 4).strDeviceDir = "Default/" ∧
      (DetermineResourceDirectories sortByResolution twoDirectories "Default/" "Common/"
        640 480 4).fAssetDensity = 1) :=
  ⟨(C12_determine_resource_directories sortByResolution sortByResolution_sorts twoDirectories
      "Default/" "Common/" 640 480 1 (by decide)).2.2.1 (by decide),
   (C12_determine_resource_directories sortByResolution sortByResolution_sorts twoDirectories
      "Default/" "Common/" 640 480 4 (by decide)).2.2.2 (by decide)⟩

end Core
end ChilliSource

/-! # Localised text (C13, C14, C15) -/

namespace ChilliSource
namespace Core
namespace CLocalisedText

/-- A character that is no terminator is passed over by the first loop. -/
theorem countLines_cons_other (c : Char) (rest : List Char) (lc cur : Nat)
    (h1 : c ≠ '\n') (h2 : c ≠ '\r') :
    countLines (c :: rest) lc cur = countLines rest lc (cur + 1) := by
  cases rest with
  | nil => simp [countLines, h1, h2]
  | cons d t => simp [countLines, h1, h2]

/-- The terminators the first loop counts are added to the count it starts from. -/
theorem countLines_fst (l : List Char) (lc cur : Nat) : ∀ lc1 cur1 : Nat,
    (countLines l lc cur).1 + lc1 = (countLines l lc1 cur1).1 + lc := by
  induction l, lc, cur using countLines.induct with
  | case1 lc cur => intro lc1 cur1; simp [countLines]; omega
  | case2 c lc cur h => intro lc1 cur1; simp [countLines, h]; omega
  | case3 c lc cur h => intro lc1 cur1; simp [countLines, h]; omega
  | case4 rest lc cur ih => intro lc1 cur1; simp only [countLines, if_true]; have := ih (lc1 + 1) 0; omega
  | case5 next rest lc cur hn ih => intro lc1 cur1; simp only [countLines, if_true, hn, if_false]; have := ih (lc1 + 1) 0; omega
  | case6 rest lc cur hx ih => intro lc1 cur1; simp only [countLines, if_true]; simp; have := ih (lc1 + 1) 0; omega
  | case7 next rest lc cur hn hx ih => intro lc1 cur1; simp [countLines, hn]; have := ih (lc1 + 1) 0; omega
  | case8 c next rest lc cur h1 h2 ih => intro lc1 cur1; simp [countLines, h1, h2]; have := ih lc1 (cur1 + 1); omega

/-- A line feed, with a carriage return right after it when there is one, is one
terminator. -/
theorem terminators_nl (next : Char) (rest : List Char) :
    (countLines ('\n' :: next :: rest) 0 0).1 =
      1 + (countLines (if next = '\r' then rest else next :: rest) 0 0).1 := by
  by_cases h : next = '\r'
  · subst h
    simp only [countLines, if_true]
    have := countLines_fst rest (0 + 1) 0 0 0
    omega
  · simp only [countLines, if_true, h, if_false]
    have := countLines_fst (next :: rest) (0 + 1) 0 0 0
    omega

/-- A carriage return, with a line feed right after it when there is one, is one
terminator. -/
theorem terminators_cr (next : Char) (rest : List Char) :
    (countLines ('\r' :: next :: rest) 0 0).1 =
      1 + (countLines (if next = '\n' then rest else next :: rest) 0 0).1 := by
  by_cases h : next = '\n'
  · subst h
    simp [countLines]
    have := countLines_fst rest 1 0 0 0
    omega
  · simp [countLines, h]
    have := countLines_fst (next :: rest) 1 0 0 0
    omega

/-- An assignment inside the array succeeds and keeps the length of the array. -/
theorem assign_ok (arr : List UTF8String) (i : Nat) (v : UTF8String) (h : i < arr.length) :
    ∃ arr1, assign arr i v = some arr1 ∧ arr1.length = arr.length := by
  refine ⟨arr.set i v, by simp [assign, h], by simp⟩

/-- The second loop never writes outside an array that has room for every terminator of the
file, and it keeps the length of the array. -/
theorem storeLines_total (l : List Char) (acc : UTF8String) (cur : Nat)
    (arr : List UTF8String) :
    cur + (countLines l 0 0).1 ≤ arr.length →
    ∃ arr1, storeLines l acc cur arr = some arr1 ∧ arr1.length = arr.length := by
  induction l, acc, cur, arr using storeLines.induct with
  | case1 acc cur arr => intro _; exact ⟨arr, rfl, rfl⟩
  | case2 c acc cur arr h =>
    intro hle
    have h1 : (countLines [c] 0 0).1 = 1 := by simp [countLines, h]
    simp only [storeLines, h, if_true]
    exact assign_ok _ _ _ (by omega)
  | case3 c acc cur arr h =>
    intro _
    exact ⟨arr, by simp [storeLines, h], rfl⟩
  | case4 next rest acc cur arr ih1 ih2 =>
    intro hle
    rw [terminators_nl] at hle
    obtain ⟨arr1, h1, hl1⟩ := assign_ok arr cur acc (by omega)
    simp only [storeLines, if_true, h1, Option.some_bind]
    by_cases hn : next = '\r'
    · simp only [hn, if_true] at hle ⊢
      obtain ⟨arr2, h2, hl2⟩ := ih1 arr1 (by omega)
      exact ⟨arr2, h2, by omega⟩
    · simp only [hn, if_false] at hle ⊢
      obtain ⟨arr2, h2, hl2⟩ := ih2 arr1 (by omega)
      exact ⟨arr2, h2, by omega⟩
  | case5 next rest acc cur arr hx ih1 ih2 =>
    intro hle
    rw [terminators_cr] at hle
    obtain ⟨arr1, h1, hl1⟩ := assign_ok arr cur acc (by omega)
    simp only [storeLines, hx, if_false, if_true, h1, Option.some_bind]
    by_cases hn : next = '\n'
    · simp only [hn, if_true] at hle ⊢
      obtain ⟨arr2, h2, hl2⟩ := ih1 arr1 (by omega)
      exact ⟨arr2, h2, by omega⟩
    · simp only [hn, if_false] at hle ⊢
      obtain ⟨arr2, h2, hl2⟩ := ih2 arr1 (by omega)
      exact ⟨arr2, h2, by omega⟩
  | case6 c next rest acc cur arr h1 h2 h3 ih =>
    intro hle
    have hc : (countLines (c :: next :: rest) 0 0).1 = (countLines rest 0 0).1 := by
      rw [countLines_cons_other c _ 0 0 h1 h2, h3.2,
        countLines_cons_other 'n' rest 0 (0 + 1) (by decide) (by decide)]
      have := countLines_fst rest 0 (0 + 1 + 1) 0 0
      omega
    simp only [storeLines, h1, h2, h3, if_false, if_true, and_self]
    exact ih (by omega)
  | case7 c next rest acc cur arr h1 h2 h3 ih =>
    intro hle
    have hc : (countLines (c :: next :: rest) 0 0).1 = (countLines (next :: rest) 0 0).1 := by
      rw [countLines_cons_other c _ 0 0 h1 h2]
      have := countLines_fst (next :: rest) 0 (0 + 1) 0 0
      omega
    simp only [storeLines, h1, h2, h3, if_false]
    exact ih (by omega)

/-- The line count is at least the number of terminators. -/
theorem terminators_le_lineCount (strFile : List Char) :
    (countLines strFile 0 0).1 ≤ lineCount strFile := by
  unfold lineCount
  simp only
  split <;> omega

/-- On a good stream `LoadLocalisedText` returns true with an array of `lineCount` entries;
the loop that fills the array stays inside it. -/
theorem LoadLocalisedText_good (s : CLocalisedText) (file : FileStream)
    (h : file.bad = false) :
    ∃ text, text.length = lineCount file.content ∧
      LoadLocalisedText s (some file) =
        some (true, { s with mudwLineCount := lineCount file.content, mpText := some text },
          file.Close) := by
  obtain ⟨text, h1, h2⟩ := storeLines_total file.content [] 0
    (List.replicate (lineCount file.content) []) (by
      have := terminators_le_lineCount file.content
      simp only [List.length_replicate]
      omega)
  refine ⟨text, by simpa using h2, ?_⟩
  simp [LoadLocalisedText, h, h1]

/-- On a bad stream `LoadLocalisedText` and `LoadTextID` return false and leave the state as
it is. -/
theorem load_bad_stream (s : CLocalisedText) (file : FileStream) (h : file.bad = true) :
    LoadLocalisedText s (some file) = some (false, s, file.closeIfOpen) ∧
    LoadTextID s (some file) = some (false, s, file.closeIfOpen) := by
  simp [LoadLocalisedText, LoadTextID, h]

/-- The conversion to `s32` keeps a value below `2 ^ 31`. -/
theorem toS32_of_lt (n : Nat) (h : n < 2 ^ 31) : toS32 n = n := by
  have h1 : n % 2 ^ 32 = n := Nat.mod_eq_of_lt (by omega)
  unfold toS32
  rw [h1, if_pos h]

/-- After a load whose text stream is bad, `LoadTextFromFile` has returned false, the state is
empty and every key yields the missing-text marker. -/
theorem LoadTextFromFile_bad_text (s : CLocalisedText) (file : FileStream)
    (idFile : Option FileStream) (h : file.bad = true) :
    LoadTextFromFile s (some file) idFile = some (false, initial) ∧
    ∀ key : Int, GetText initial key = some UTF8_MISSING := by
  constructor
  · simp [LoadTextFromFile, LoadLocalisedText, h, initial]
  · intro key
    have h0 : toS32 0 = 0 := by decide
    have hc : ¬ (0 ≤ key ∧ key < 0) := by omega
    simp only [GetText, initial, h0, hc, if_false]

/-- After a load whose text stream is good and whose identifier stream is bad,
`LoadTextFromFile` has returned false, yet the lines of the text file stay loaded: key 0
yields the first line. -/
theorem LoadTextFromFile_bad_id_keeps_text :
    (LoadTextFromFile initial (some (textStream "a\nb\n")) (some badStream)).map
      (fun r => (r.1, r.2.mudwLineCount, GetText r.2 0)) = some (false, 2, some ['a']) := by
  decide

/-- C13 (code defect): for the file `a`, line feed, `b`, `LoadLocalisedText` returns true with
line count 2 and key 0 yields `a`, but key 1, the final line without a terminator, yields the
empty string, not `b`: the first loop counts the final line ("catch if last line has no
newline"), the second loop stores a line only when it meets a terminator. -/
theorem C13_last_line_without_terminator_is_not_stored :
    (LoadLocalisedText initial (some (textStream "a\nb"))).map
      (fun r => (r.1, r.2.1.mudwLineCount, GetText r.2.1 0, GetText r.2.1 1)) =
      some (true, 2, some ['a'], some []) := by
  decide

/-- C14 (as stated, refuted): without a lookup table, before any load and after a load
whose identifier file was bad, `GetText(stringID)` fails the assertion
`MOFLOW_ASSERT(mpTextLookup, ...)`; it does not return the missing-text marker for the
identifier `ID_A`, which is not registered. -/
theorem C14_get_text_by_id_without_lookup_asserts :
    GetTextByID initial "ID_A" = none ∧
    (LoadTextFromFile initial (some (textStream "a\n")) (some badStream)).map
      (fun r => (r.1, GetText r.2 0, GetTextByID r.2 "ID_A")) =
      some (false, some ['a'], none) := by
  decide

/-- C14 (amended): in a state whose text array has `mudwLineCount` entries, with the line
count below `2 ^ 31` (where the conversion to `s32` keeps it), `GetText(key)` returns the
stored line for every key with `0 <= key < mudwLineCount` and the missing-text marker for
every other key; with a lookup table present, `GetText(stringID)` returns what `GetText`
returns for the key registered under the identifier, and the missing-text marker for an
identifier that is not registered; without a lookup table it fails its assertion. -/
theorem C14_get_text (s : CLocalisedText) (text : List UTF8String)
    (hText : s.mpText = some text) (hLen : text.length = s.mudwLineCount)
    (hCount : s.mudwLineCount < 2 ^ 31) :
    (∀ key : Int, 0 ≤ key → key < s.mudwLineCount →
      ∃ line, text[key.toNat]? = some line ∧ GetText s key = some line) ∧
    (∀ key : Int, key < 0 ∨ (s.mudwLineCount : Int) ≤ key →
      GetText s key = some UTF8_MISSING) ∧
    (∀ lookup, s.mpTextLookup = some lookup → ∀ instrID : String,
      (∀ key, lookup.lookup instrID = some key → GetTextByID s instrID = GetText s key) ∧
      (lookup.lookup instrID = none → GetTextByID s instrID = some UTF8_MISSING)) ∧
    (s.mpTextLookup = none → ∀ instrID : String, GetTextByID s instrID = none) := by
  have hcast : toS32 s.mudwLineCount = s.mudwLineCount := toS32_of_lt _ hCount
  refine ⟨?_, ?_, ?_, fun hl instrID => by simp [GetTextByID, hl]⟩
  · intro key h0 h1
    have hlt : key.toNat < text.length := by omega
    refine ⟨text[key.toNat], List.getElem?_eq_getElem hlt, ?_⟩
    have hc : 0 ≤ key ∧ key < (s.mudwLineCount : Int) := ⟨h0, h1⟩
    simp only [GetText, hcast, hText, hc, and_self, if_true]
    exact List.getElem?_eq_getElem hlt
  · intro key h
    have hc : ¬ (0 ≤ key ∧ key < (s.mudwLineCount : Int)) := by omega
    simp only [GetText, hcast, hc, if_false]
  · intro lookup hl instrID
    constructor
    · intro key hk
      simp [GetTextByID, hl, hk]
    · intro hk
      have hc : ¬ (0 ≤ (-1 : Int) ∧ (-1 : Int) < (s.mudwLineCount : Int)) := by omega
      have hneg : GetText s (-1) = some UTF8_MISSING := by
        simp only [GetText, hcast, hc, if_false]
      simp [GetTextByID, hl, hk, hneg]

/-- Witness for C14 on the state with the lines `a` and `b`: key 1 yields `b`, key 2 and
key -1 yield the marker, `ID_B` yields what key 1 yields and `ID_C` yields the marker. -/
theorem C14_get_text_witness :
    (∃ line, ["a".toList, "b".toList][(1 : Int).toNat]? = some line ∧
      GetText twoLines 1 = some line) ∧
    GetText twoLines 2 = some UTF8_MISSING ∧
    GetText twoLines (-1) = some UTF8_MISSING ∧
    GetTextByID twoLines "ID_B" = GetText twoLines 1 ∧
    GetTextByID twoLines "ID_C" = some UTF8_MISSING :=
  ⟨(C14_get_text twoLines _ rfl rfl (by decide)).1 1 (by decide) (by decide),
   (C14_get_text twoLines _ rfl rfl (by decide)).2.1 2 (by decide),
   (C14_get_text twoLines _ rfl rfl (by decide)).2.1 (-1) (by decide),
   ((C14_get_text twoLines _ rfl rfl (by decide)).2.2.1 _ rfl "ID_B").1 1 (by decide),
   ((C14_get_text twoLines _ rfl rfl (by decide)).2.2.1 _ rfl "ID_C").2 (by decide)⟩

/-- C15 (code defect): a null stream makes `LoadLocalisedText` and `LoadTextID` dereference it
(the test `stream == NULL || stream->IsBad()` is entered for a null stream and its body calls
`stream->IsOpen()`): undefined behaviour instead of the result false, and so for
`LoadTextFromFile` when the file system hands it a null stream for the text file or for the
identifier file. -/
theorem C15_null_stream_is_dereferenced :
    LoadLocalisedText initial none = none ∧
    LoadTextID initial none = none ∧
    LoadTextFromFile initial none (some (idStream ["ID_A"])) = none ∧
    LoadTextFromFile initial (some (textStream "a\n")) none = none := by
  decide

end CLocalisedText
end Core
end ChilliSource

/-! # Counting the items of a string (C16) -/

namespace ChilliSource
namespace Core

/-- The scanned prefix, cut at an index inside it. -/
theorem drop_take_cons (s : List Char) (size k : Nat) (hsize : size ≤ s.length) (hk : k < size) :
    (s.take size).drop k = charAt s k :: (s.take size).drop (k + 1) := by
  have hlen : (s.take size).length = size := by simp [hsize]
  have hk1 : k < (s.take size).length := by omega
  rw [List.drop_eq_getElem_cons hk1]
  congr 1
  rw [List.getElem_take]
  unfold charAt
  rw [List.getD_eq_getElem]

/-- Nothing of the scanned prefix is left at its end. -/
theorem drop_take_end (s : List Char) (size : Nat) :
    (s.take size).drop size = [] := by
  apply List.drop_eq_nil_of_le
  simp

/-- With fuel for the rest of the prefix the first inner loop returns: it stops at the first
space at or after `i`, or at `size`. -/
theorem skipItem_spec (s : List Char) (size : Nat) (fuel : Nat) : ∀ i, i ≤ size →
    size - i < fuel →
    ∃ j, skipItem s size fuel i = some j ∧ i ≤ j ∧ j ≤ size ∧
      (∀ k, i ≤ k → k < j → charAt s k ≠ ' ') ∧ (j < size → charAt s j = ' ') := by
  induction fuel with
  | zero => intro i _ h; omega
  | succ fuel ih =>
    intro i hi hf
    unfold skipItem
    by_cases hc : charAt s i ≠ ' ' ∧ i < size
    · rw [if_pos hc]
      obtain ⟨j, hj, h1, h2, h3, h4⟩ := ih (i + 1) (by omega) (by omega)
      refine ⟨j, hj, by omega, h2, ?_, h4⟩
      intro k hk1 hk2
      by_cases hk : k = i
      · subst hk
        exact hc.1
      · exact h3 k (by omega) hk2
    · rw [if_neg hc]
      refine ⟨i, rfl, le_rfl, hi, fun k h1 h2 => by omega, ?_⟩
      intro hlt
      by_contra hne
      exact hc ⟨hne, hlt⟩

/-- With fuel for the rest of the prefix the second inner loop returns: it stops at the first
non-space character at or after `i`, or at `size`. -/
theorem skipSpaces_spec (s : List Char) (size : Nat) (fuel : Nat) : ∀ i, i ≤ size →
    size - i < fuel →
    ∃ j, skipSpaces s size fuel i = some j ∧ i ≤ j ∧ j ≤ size ∧
      (∀ k, i ≤ k → k < j → charAt s k = ' ') ∧ (j < size → charAt s j ≠ ' ') := by
  induction fuel with
  | zero => intro i _ h; omega
  | succ fuel ih =>
    intro i hi hf
    unfold skipSpaces
    by_cases hc : charAt s i = ' ' ∧ i < size
    · rw [if_pos hc]
      obtain ⟨j, hj, h1, h2, h3, h4⟩ := ih (i + 1) (by omega) (by omega)
      refine ⟨j, hj, by omega, h2, ?_, h4⟩
      intro k hk1 hk2
      by_cases hk : k = i
      · subst hk
        exact hc.1
      · exact h3 k (by omega) hk2
    · rw [if_neg hc]
      refine ⟨i, rfl, le_rfl, hi, fun k h1 h2 => by omega, ?_⟩
      intro hlt hne
      exact hc ⟨hne, hlt⟩

/-- Inside a run of non-space characters only its first character can be a start. -/
theorem runStarts_item (s : List Char) (size : Nat) (hsize : size ≤ s.length) (n : Nat) :
    ∀ i b, i + n ≤ size → (∀ k, i ≤ k → k < i + n → charAt s k ≠ ' ') →
    runStarts b ((s.take size).drop i) =
      (if b ∧ 0 < n then 1 else 0) + runStarts (b && n == 0) ((s.take size).drop (i + n)) := by
  induction n with
  | zero => intro i b _ _; simp
  | succ n ih =>
    intro i b hle hall
    have hi : charAt s i ≠ ' ' := hall i le_rfl (by omega)
    rw [drop_take_cons s size i hsize (by omega)]
    simp only [runStarts]
    rw [ih (i + 1) (charAt s i == ' ') (by omega) (fun k h1 h2 => hall k (by omega) (by omega))]
    have hb : (charAt s i == ' ') = false := by simpa using hi
    rw [show i + 1 + n = i + (n + 1) by omega]
    simp [hb, hi]

/-- A stretch of spaces holds no start, and what follows it comes after a space. -/
theorem runStarts_spaces (s : List Char) (size : Nat) (hsize : size ≤ s.length) (n : Nat) :
    ∀ i b, i + n ≤ size → (∀ k, i ≤ k → k < i + n → charAt s k = ' ') →
    runStarts b ((s.take size).drop i) =
      runStarts (b || decide (0 < n)) ((s.take size).drop (i + n)) := by
  induction n with
  | zero => intro i b _ _; simp
  | succ n ih =>
    intro i b hle hall
    have hi : charAt s i = ' ' := hall i le_rfl (by omega)
    rw [drop_take_cons s size i hsize (by omega)]
    simp only [runStarts]
    rw [ih (i + 1) (charAt s i == ' ') (by omega) (fun k h1 h2 => hall k (by omega) (by omega))]
    rw [show i + 1 + n = i + (n + 1) by omega]
    simp [hi]

/-- The outer loop adds to the item count the number of run starts in what is left of the
scanned prefix. -/
theorem enumerateLoop_spec (s : List Char) (size : Nat) (hsize : size ≤ s.length)
    (fuel : Nat) : ∀ i itemCount, i ≤ size → size - i < fuel →
    enumerateLoop s size fuel i itemCount =
      some (itemCount + runStarts true ((s.take size).drop i)) := by
  induction fuel with
  | zero => intro i _ _ h; omega
  | succ fuel ih =>
    intro i itemCount hi hf
    unfold enumerateLoop
    by_cases hlt : i < size
    · rw [if_pos hlt]
      by_cases hc : charAt s i ≠ ' '
      · rw [if_pos hc]
        obtain ⟨j, hj, h1, h2, h3, h4⟩ := skipItem_spec s size (fuel + 1) i hi hf
        obtain ⟨k, hk, g1, g2, g3, g4⟩ := skipSpaces_spec s size (fuel + 1) j h2 (by omega)
        have hij : i < j := by
          rcases Nat.lt_or_ge i j with h | h
          · exact h
          · have : j = i := by omega
            subst this
            exact absurd (h4 hlt) hc
        simp only [hj, Option.map_some', Option.some_bind, hk]
        rw [ih k (itemCount + 1) g2 (by omega)]
        have e1 := runStarts_item s size hsize (j - i) i true (by omega)
          (fun m hm1 hm2 => h3 m hm1 (by omega))
        have e2 := runStarts_spaces s size hsize (k - j) j false (by omega)
          (fun m hm1 hm2 => g3 m hm1 (by omega))
        rw [show i + (j - i) = j by omega] at e1
        rw [show j + (k - j) = k by omega] at e2
        have hji : 0 < j - i := by omega
        have hji2 : (j - i == 0) = false := by simp; omega
        simp only [hji, and_self, if_true, Bool.true_and, hji2] at e1
        rw [e1, e2]
        by_cases hkj : k = j
        · subst hkj
          have hjs : k = size := by
            by_contra hne
            have hlt2 : k < size := by omega
            exact g4 hlt2 (h4 hlt2)
          subst hjs
          simp [drop_take_end, runStarts]
        · have : 0 < k - j := by omega
          simp [this]
          omega
      · rw [if_neg hc]
        have hsp : charAt s i = ' ' := by
          by_contra h
          exact hc h
        obtain ⟨k, hk, g1, g2, g3, g4⟩ := skipSpaces_spec s size (fuel + 1) i hi hf
        have hik : i < k := by
          rcases Nat.lt_or_ge i k with h | h
          · exact h
          · have : k = i := by omega
            subst this
            exact absurd hsp (g4 hlt)
        simp only [Option.some_bind, hk]
        rw [ih k itemCount g2 (by omega)]
        have e2 := runStarts_spaces s size hsize (k - i) i true (by omega)
          (fun m hm1 hm2 => g3 m hm1 (by omega))
        rw [show i + (k - i) = k by omega] at e2
        rw [e2]
        simp
    · rw [if_neg hlt]
      have : i = size := by omega
      subst this
      simp [drop_take_end, runStarts]

/-- A string of spaces has no run. -/
theorem maximalRuns_spaces (n : Nat) : maximalRuns (List.replicate n ' ') = 0 := by
  unfold maximalRuns
  induction n with
  | zero => rfl
  | succ n ih => simpa [List.replicate_succ, runStarts] using ih

/-- A space in front adds no run. -/
theorem maximalRuns_space_cons (s : List Char) : maximalRuns (' ' :: s) = maximalRuns s := by
  simp [maximalRuns, runStarts]

/-- A word in front, followed by a space or by the end of the string, adds one run. -/
theorem maximalRuns_word_append (w rest : List Char) (hw : w ≠ []) (hns : ∀ c ∈ w, c ≠ ' ')
    (hrest : rest = [] ∨ ∃ t, rest = ' ' :: t) :
    maximalRuns (w ++ rest) = 1 + maximalRuns rest := by
  have key : ∀ (w : List Char) (b : Bool), (∀ c ∈ w, c ≠ ' ') →
      runStarts b (w ++ rest) =
        (if b ∧ w ≠ [] then 1 else 0) + runStarts (b && w.isEmpty) rest := by
    intro w
    induction w with
    | nil => intro b _; simp
    | cons c t ih =>
      intro b hall
      have hc : c ≠ ' ' := hall c (List.mem_cons_self _ _)
      have hb : (c == ' ') = false := by simpa using hc
      have e : runStarts b (c :: t ++ rest) =
          (if b ∧ c ≠ ' ' then 1 else 0) + runStarts (c == ' ') (t ++ rest) := rfl
      rw [e, ih (c == ' ') fun d hd => hall d (List.mem_cons_of_mem _ hd)]
      simp [hb, hc]
  unfold maximalRuns
  rw [key w true hns]
  have hwe : w.isEmpty = false := by
    cases w with
    | nil => exact absurd rfl hw
    | cons c t => rfl
  rcases hrest with rfl | ⟨t, rfl⟩
  · simp [hw, runStarts]
  · simp [hw, hwe, runStarts]

/-- With more fuel than the stored length, `EnumerateItems` returns the number of maximal
runs of the prefix it scans. -/
theorem EnumerateItems_scanned (s : List Char) (fuel : Nat) (hfuel : s.length % 2 ^ 32 < fuel) :
    EnumerateItems fuel s = some (maximalRuns (s.take (s.length % 2 ^ 32))) := by
  unfold EnumerateItems maximalRuns
  rw [enumerateLoop_spec s _ (Nat.mod_le _ _) fuel 0 0 (Nat.zero_le _) (by omega)]
  simp

/-- C16 (as stated, refuted): for the string of `2 ^ 32` letters `a`, which is one maximal run
of non-space characters, `EnumerateItems` returns 0: the length is stored in a `u32` and
wraps to 0, so the loop scans nothing. -/
theorem C16_length_wraps_at_two_pow_32 :
    EnumerateItems 1 (List.replicate (2 ^ 32) 'a') = some 0 ∧
    maximalRuns (List.replicate (2 ^ 32) 'a') = 1 := by
  have hlen : (List.replicate (2 ^ 32) 'a').length % 2 ^ 32 = 0 := by
    rw [List.length_replicate]
    exact Nat.mod_self _
  constructor
  · rw [EnumerateItems_scanned _ 1 (by rw [hlen]; exact Nat.one_pos), hlen, List.take_zero]
    rfl
  · have h := maximalRuns_word_append (List.replicate (2 ^ 32) 'a') []
      (fun h => absurd (congrArg List.length h) (by
        rw [List.length_replicate, List.length_nil]
        exact Nat.pos_iff_ne_zero.mp (Nat.pow_pos (Nat.succ_pos 1))))
      (fun c hc => by rw [List.eq_of_mem_replicate hc]; decide) (Or.inl rfl)
    rw [List.append_nil] at h
    rw [h]
    rfl

/-- C16 (amended): run with more fuel than the stored length, `EnumerateItems` returns for
every string, and for a string of fewer than `2 ^ 32` characters, whose length fits the `u32`
it is stored in, the result is the number of maximal runs of non-space characters of the
string. -/
theorem C16_enumerate_items (s : List Char) (fuel : Nat) (hfuel : s.length % 2 ^ 32 < fuel) :
    (∃ n, EnumerateItems fuel s = some n) ∧
    (s.length < 2 ^ 32 → EnumerateItems fuel s = some (maximalRuns s)) := by
  refine ⟨⟨_, EnumerateItems_scanned s fuel hfuel⟩, fun hlen => ?_⟩
  rw [EnumerateItems_scanned s fuel hfuel, Nat.mod_eq_of_lt hlen, List.take_length]

/-- Witness for C16: the string ` ab  c d ` has three items, and so the loop counts. -/
theorem C16_enumerate_items_witness :
    (∃ n, EnumerateItems 10 " ab  c d ".toList = some n) ∧
    EnumerateItems 10 " ab  c d ".toList = some (maximalRuns " ab  c d ".toList) ∧
    maximalRuns " ab  c d ".toList = 3 :=
  ⟨(C16_enumerate_items " ab  c d ".toList 10 (by decide)).1,
   (C16_enumerate_items " ab  c d ".toList 10 (by decide)).2 (by decide), by decide⟩

end Core
end ChilliSource

/-! # Widget properties (C17) -/

namespace ChilliSource
namespace UI

/-- A property that was set is read back from the property map. -/
theorem PropertyMap_set_get {V : Type} (m m1 : PropertyMap V) (name : String) (v : V)
    (h : PropertyMap.SetProperty m name v = some m1) :
    PropertyMap.GetProperty m1 name = some v := by
  unfold PropertyMap.SetProperty at h
  split at h
  · rename_i hs
    cases h
    unfold PropertyMap.GetProperty
    induction m with
    | nil => simp at hs
    | cons kv t ih =>
      obtain ⟨k, x⟩ := kv
      rw [List.map_cons]
      by_cases hk : k = name
      · subst hk
        rw [if_pos rfl]
        exact List.lookup_cons_self
      · have hk2 : (name == k) = false := by
          simpa using fun h => hk h.symm
        rw [if_neg hk, List.lookup_cons, hk2]
        rw [List.lookup_cons, hk2] at hs
        exact ih hs
  · cases h

/-- A property that can be read can be set. -/
theorem PropertyMap_set_isSome {V : Type} (m : PropertyMap V) (name : String) (v : V)
    (h : (PropertyMap.GetProperty m name).isSome = true) :
    ∃ m1, PropertyMap.SetProperty m name v = some m1 := by
  unfold PropertyMap.GetProperty at h
  unfold PropertyMap.SetProperty
  rw [if_pos h]
  exact ⟨_, rfl⟩

/-- Replacing a widget by one with the same link tables keeps the link tables at every
address. -/
theorem set_links {F V : Type} (ws : Widgets F V) (i : Nat) (w w1 : Widget F V)
    (hw : ws[i]? = some w) (hl : links w1 = links w) (j : Nat) :
    ((ws.set i w1)[j]?).map links = (ws[j]?).map links := by
  by_cases hij : i = j
  · subst hij
    have hlt : i < ws.length := by
      rcases List.getElem?_eq_some_iff.mp hw with ⟨h, -⟩
      exact h
    rw [List.getElem?_set_self hlt, hw]
    simp [hl]
  · rw [List.getElem?_set_ne hij]

/-- `SetProperty` changes no link table. -/
theorem SetProperty_links {F V : Type} (v : V) (fuel : Nat) :
    ∀ (ws ws1 : Widgets F V) (self : Nat) (name : String),
    Widget.SetProperty fuel ws self name v = some ws1 →
    ∀ j : Nat, (ws1[j]?).map links = (ws[j]?).map links := by
  induction fuel with
  | zero => intro ws ws1 self name h; cases h
  | succ fuel ih =>
    intro ws ws1 self name h j
    unfold Widget.SetProperty at h
    split at h
    · cases h
    · rename_i w hw
      split at h
      · rename_i accessor ha
        unfold Widget.accessorSet at h
        split at h
        · rename_i o ho
          cases h
          refine set_links ws _ o _ ho ?_ j
          rfl
        · cases h
      · split at h
        · rename_i link hlk
          exact ih ws ws1 _ _ h j
        · rcases Option.map_eq_some'.mp h with ⟨m, -, rfl⟩
          refine set_links ws _ w _ hw ?_ j
          rfl

/-- After a change that keeps the link tables, the widget at an address is still there, with
the link tables it had. -/
theorem widget_after {F V : Type} (ws ws1 : Widgets F V)
    (hsame : ∀ j : Nat, (ws1[j]?).map links = (ws[j]?).map links) (self : Nat) (w : Widget F V)
    (hw : ws[self]? = some w) :
    ∃ w1, ws1[self]? = some w1 ∧ w1.m_defaultPropertyLinks = w.m_defaultPropertyLinks ∧
      w1.m_customPropertyLinks = w.m_customPropertyLinks := by
  have h := hsame self
  rw [hw] at h
  rcases Option.map_eq_some'.mp h with ⟨w1, h1, h2⟩
  simp only [links, Prod.mk.injEq] at h2
  exact ⟨w1, h1, h2.1, h2.2⟩

/-- What a table lookup finds is an entry of the table. -/
theorem mem_of_lookup {A : Type} (l : List (String × A)) (k : String) (a : A)
    (h : l.lookup k = some a) : (k, a) ∈ l := by
  induction l with
  | nil => cases h
  | cons kv t ih =>
    obtain ⟨k1, x⟩ := kv
    rw [List.lookup_cons] at h
    by_cases hk : k = k1
    · subst hk
      simp only [beq_self_eq_true, Option.some.injEq] at h
      subst h
      exact List.mem_cons_self _ _
    · have hk2 : (k == k1) = false := by simpa using hk
      rw [hk2] at h
      exact List.mem_cons_of_mem _ (ih h)

/-- A property that can be read can be set, and is then read back. -/
theorem set_then_get {F V : Type} (v : V) (fuel : Nat) :
    ∀ (ws : Widgets F V) (self : Nat) (name : String), LawfulAccessors ws →
    (Widget.GetProperty fuel ws self name).isSome = true →
    ∃ ws1, Widget.SetProperty fuel ws self name v = some ws1 ∧
      Widget.GetProperty fuel ws1 self name = some v := by
  induction fuel with
  | zero => intro ws self name _ h; simp [Widget.GetProperty] at h
  | succ fuel ih =>
    intro ws self name hlaw h
    unfold Widget.GetProperty at h
    cases hw : ws[self]? with
    | none => simp [hw] at h
    | some w =>
      simp only [hw] at h
      have hmem : w ∈ ws := List.getElem?_mem hw
      have hstep : ∀ ws1, Widget.SetProperty (fuel + 1) ws self name v = some ws1 →
          ∃ w1, ws1[self]? = some w1 ∧ w1.m_defaultPropertyLinks = w.m_defaultPropertyLinks ∧
            w1.m_customPropertyLinks = w.m_customPropertyLinks := fun ws1 h1 =>
        widget_after ws ws1 (SetProperty_links v (fuel + 1) ws ws1 self name h1) self w hw
      cases ha : w.m_defaultPropertyLinks.lookup name with
      | some accessor =>
        simp only [ha] at h
        unfold Widget.accessorGet at h
        cases ho : ws[accessor.owner]? with
        | none => simp [ho] at h
        | some o =>
          have hset : Widget.SetProperty (fuel + 1) ws self name v =
              some (ws.set accessor.owner
                { o with fields := accessor.setter o.fields v }) := by
            simp [Widget.SetProperty, hw, ha, Widget.accessorSet, ho]
          refine ⟨_, hset, ?_⟩
          obtain ⟨w1, hw1, hd1, -⟩ := hstep _ hset
          have hlt : accessor.owner < ws.length := by
            rcases List.getElem?_eq_some_iff.mp ho with ⟨hlt, -⟩
            exact hlt
          have hlaw1 : accessor.getter (accessor.setter o.fields v) = v :=
            hlaw w hmem (name, accessor) (mem_of_lookup _ _ _ ha) o.fields v
          simp [Widget.GetProperty, hw1, hd1, ha, Widget.accessorGet,
            List.getElem?_set_self hlt, hlaw1]
      | none =>
        simp only [ha] at h
        cases hlk : w.m_customPropertyLinks.lookup name with
        | some link =>
          simp only [hlk] at h
          obtain ⟨ws1, h1, h2⟩ := ih ws link.1 link.2 hlaw h
          have hset : Widget.SetProperty (fuel + 1) ws self name v = some ws1 := by
            simp [Widget.SetProperty, hw, ha, hlk, h1]
          refine ⟨ws1, hset, ?_⟩
          obtain ⟨w1, hw1, hd1, hc1⟩ := hstep _ hset
          simp [Widget.GetProperty, hw1, hd1, hc1, ha, hlk, h2]
        | none =>
          simp only [hlk] at h
          obtain ⟨m1, hm1⟩ := PropertyMap_set_isSome w.m_customProperties name v h
          have hset : Widget.SetProperty (fuel + 1) ws self name v =
              some (ws.set self { w with m_customProperties := m1 }) := by
            simp [Widget.SetProperty, hw, ha, hlk, hm1]
          refine ⟨_, hset, ?_⟩
          have hlt : self < ws.length := by
            rcases List.getElem?_eq_some_iff.mp hw with ⟨hlt, -⟩
            exact hlt
          simp [Widget.GetProperty, List.getElem?_set_self hlt, ha, hlk,
            PropertyMap_set_get _ _ _ _ hm1]

/-- A name that cannot be read cannot be set: where `GetProperty` asserts, `SetProperty`
asserts. -/
theorem set_fails_where_get_fails {F V : Type} (v : V) (fuel : Nat) :
    ∀ (ws : Widgets F V) (self : Nat) (name : String),
    Widget.GetProperty fuel ws self name = none →
    Widget.SetProperty fuel ws self name v = none := by
  induction fuel with
  | zero => intro ws self name _; rfl
  | succ fuel ih =>
    intro ws self name h
    unfold Widget.GetProperty at h
    unfold Widget.SetProperty
    cases hw : ws[self]? with
    | none => rfl
    | some w =>
      simp only [hw] at h ⊢
      cases ha : w.m_defaultPropertyLinks.lookup name with
      | some accessor =>
        simp only [ha] at h ⊢
        unfold Widget.accessorGet at h
        unfold Widget.accessorSet
        cases ho : ws[accessor.owner]? with
        | none => rfl
        | some o => simp [ho] at h
      | none =>
        simp only [ha] at h ⊢
        cases hlk : w.m_customPropertyLinks.lookup name with
        | some link =>
          simp only [hlk] at h ⊢
          exact ih ws link.1 link.2 h
        | none =>
          simp only [hlk] at h ⊢
          unfold PropertyMap.GetProperty at h
          simp [PropertyMap.SetProperty, h]

/-- The accessors of the slider example are lawful. -/
theorem sliderWidgets_lawful : LawfulAccessors sliderWidgets := by
  intro w hw link hl f v
  simp only [sliderWidgets, List.mem_cons, List.mem_singleton, List.not_mem_nil, or_false] at hw
  rcases hw with rfl | rfl
  · simp only [List.mem_singleton] at hl
    subst hl
    rfl
  · simp only [List.mem_singleton] at hl
    subst hl
    rfl

/-- C17 (as stated, refuted): the slider has no property named `Colour`, neither a default
link, nor a custom link, nor an entry of its custom property map; `SetProperty("Colour", 9)`
asserts, as the comment on `SetProperty` announces, and so does `GetProperty("Colour")`: the
value 9 is not returned. -/
theorem C17_set_property_of_unknown_name_asserts :
    (Widget.SetProperty 3 sliderWidgets 0 "Colour" 9).isNone = true ∧
    Widget.GetProperty 3 sliderWidgets 0 "Colour" = none ∧
    ((Widget.SetProperty 3 sliderWidgets 0 "Colour" 9).bind fun ws =>
      Widget.GetProperty 3 ws 0 "Colour") ≠ some 9 := by
  decide

/-- C17 (amended): with accessors that return what they were last given, for every name under
which the widget has a property (the name can be read: it resolves through a default link,
through custom links to a property of a linked widget, or to an entry of the widget's own
custom property map) and every value `v`, `SetProperty(name, v)` succeeds and `GetProperty(name)`
then returns `v`; both resolve the name in the same order. For a name that cannot be read,
`SetProperty` asserts as well. -/
theorem C17_set_then_get_property {F V : Type} (fuel : Nat) (ws : Widgets F V) (self : Nat)
    (name : String) (v : V) (hlaw : LawfulAccessors ws) :
    ((Widget.GetProperty fuel ws self name).isSome = true →
      ∃ ws1, Widget.SetProperty fuel ws self name v = some ws1 ∧
        Widget.GetProperty fuel ws1 self name = some v) ∧
    (Widget.GetProperty fuel ws self name = none →
      Widget.SetProperty fuel ws self name v = none) :=
  ⟨set_then_get v fuel ws self name hlaw, set_fails_where_get_fails v fuel ws self name⟩

/-- Witness for C17 on the slider: `HandleSize` is forwarded to the property `Size` of the
sub-widget, `Rotation` goes through the default accessor, `Value` is in the slider's own
custom property map. -/
theorem C17_set_then_get_property_witness :
    (∃ ws1, Widget.SetProperty 3 sliderWidgets 0 "HandleSize" 9 = some ws1 ∧
      Widget.GetProperty 3 ws1 0 "HandleSize" = some 9) ∧
    (∃ ws1, Widget.SetProperty 3 sliderWidgets 0 "Rotation" 9 = some ws1 ∧
      Widget.GetProperty 3 ws1 0 "Rotation" = some 9) ∧
    (∃ ws1, Widget.SetProperty 3 sliderWidgets 0 "Value" 9 = some ws1 ∧
      Widget.GetProperty 3 ws1 0 "Value" = some 9) :=
  ⟨(C17_set_then_get_property 3 sliderWidgets 0 "HandleSize" 9 sliderWidgets_lawful).1
      (by decide),
   (C17_set_then_get_property 3 sliderWidgets 0 "Rotation" 9 sliderWidgets_lawful).1
      (by decide),
   (C17_set_then_get_property 3 sliderWidgets 0 "Value" 9 sliderWidgets_lawful).1
      (by decide)⟩

end UI
end ChilliSource

/-! # Frames while suspended, and the frame after the resume (C18) -/

namespace ChilliSource
namespace WindowsPlatform
open CApplicationDelegates

/-- The outcome of a frame adds its `k` fixed updates to the trace. -/
theorem fixedUpdates_frameOutcome (k : Nat) (infDt : ℚ) (ts : Nat) (s : AppState) :
    (frameOutcome k infDt ts s).1.fixedUpdates = s.1.fixedUpdates + k := by
  unfold frameOutcome CApplication.fixedUpdates
  cases s.1.hasInputSystem <;> simp [List.filter_append, List.filter_replicate]

end WindowsPlatform
end ChilliSource

/-! # The fixed-update loop in binary32 arithmetic (C19) -/

namespace ChilliSource
namespace WindowsPlatform
namespace Binary32

/-- One step of the exponent search. -/
theorem shiftUp_succ (fuel s n : Nat) :
    shiftUp (fuel + 1) s n = if n < 2 ^ (s + 24) then s else shiftUp fuel (s + 1) n := rfl

/-- With enough fuel the exponent search ends at an `s` with `n < 2 ^ (s + 24)`, and with
`2 ^ (s + 23) ≤ n` unless `s = 0`: the quotient `n / 2 ^ s` is a 24-bit significand. -/
theorem shiftUp_spec (fuel : Nat) : ∀ s n : Nat, n ≤ fuel + s → (s = 0 ∨ 2 ^ (s + 23) ≤ n) →
    n < 2 ^ (shiftUp fuel s n + 24) ∧ (shiftUp fuel s n = 0 ∨ 2 ^ (shiftUp fuel s n + 23) ≤ n) := by
  induction fuel with
  | zero =>
    intro s n h hs
    simp only [shiftUp]
    refine ⟨?_, hs⟩
    have h1 : n < 2 ^ n := Nat.lt_two_pow n
    have h2 : 2 ^ n ≤ 2 ^ (s + 24) := Nat.pow_le_pow_right (by norm_num) (by omega)
    omega
  | succ fuel ih =>
    intro s n h hs
    rw [shiftUp_succ]
    by_cases hlt : n < 2 ^ (s + 24)
    · rw [if_pos hlt]
      exact ⟨hlt, hs⟩
    · rw [if_neg hlt]
      exact ih (s + 1) n (by omega) (Or.inr (Nat.le_of_not_lt hlt))

/-- A magnitude below one half (`2 ^ 148` units) is rounded at an exponent of at most 124. -/
theorem shift_le (n : Nat) (hn : n < 2 ^ 148) : shiftUp n 0 n ≤ 124 := by
  obtain ⟨-, h2⟩ := shiftUp_spec n 0 n (by omega) (Or.inl rfl)
  rcases h2 with h0 | hle
  · omega
  · by_contra hgt
    have : 2 ^ 148 ≤ 2 ^ (shiftUp n 0 n + 23) := Nat.pow_le_pow_right (by norm_num) (by omega)
    omega

/-- Below one half, rounding moves a magnitude by at most `2 ^ 123` units (`2 ^ (-26)`, half
the spacing of the binary32 values between one quarter and one half). -/
theorem roundMagnitude_near (n : Nat) (hn : n < 2 ^ 148) :
    roundMagnitude n ≤ n + 2 ^ 123 ∧ n ≤ roundMagnitude n + 2 ^ 123 := by
  have hs := shift_le n hn
  unfold roundMagnitude
  simp only
  generalize shiftUp n 0 n = s at hs
  have hP : 0 < 2 ^ s := Nat.pow_pos (by norm_num)
  have hdm := Nat.div_add_mod n (2 ^ s)
  have hr := Nat.mod_lt n hP
  have hP2 : 2 ^ s ≤ 2 ^ 124 := Nat.pow_le_pow_right (by norm_num) hs
  have e1 : (n / 2 ^ s + 1) * 2 ^ s = 2 ^ s * (n / 2 ^ s) + 2 ^ s := by ring
  have e2 : n / 2 ^ s * 2 ^ s = 2 ^ s * (n / 2 ^ s) := by ring
  rw [e1, e2]
  generalize 2 ^ s * (n / 2 ^ s) = M at hdm ⊢
  generalize n % 2 ^ s = r at hdm hr ⊢
  generalize n / 2 ^ s = q
  generalize 2 ^ s = P at *
  have h124 : (2 : Nat) ^ 124 = 2 * 2 ^ 123 := by norm_num
  split
  · rename_i hc
    constructor
    · rcases hc with hc | ⟨hc, -⟩ <;> omega
    · omega
  · rename_i hc
    have : ¬ (2 * r > P) := fun h => hc (Or.inl h)
    constructor
    · omega
    · omega

/-- Rounding moves a value between zero and one half by at most `2 ^ (-26)`. -/
theorem roundF32_near (x : Int) (h0 : 0 ≤ x) (h1 : x < 2 ^ 148) :
    x - 2 ^ 123 ≤ roundF32 x ∧ roundF32 x ≤ x + 2 ^ 123 := by
  have hn : x.natAbs < 2 ^ 148 := by omega
  obtain ⟨h2, h3⟩ := roundMagnitude_near x.natAbs hn
  unfold roundF32
  rw [if_neg (by omega)]
  generalize roundMagnitude x.natAbs = m at h2 h3 ⊢
  omega

/-- Rounding keeps a value that is not positive from becoming positive. -/
theorem roundF32_nonpos (x : Int) (h : x ≤ 0) : roundF32 x ≤ 0 := by
  unfold roundF32
  by_cases hx : x < 0
  · rw [if_pos hx]
    omega
  · have h0 : x = 0 := by omega
    subst h0
    decide

/-- The maximum `0.33f` is below one half. -/
theorem kfUpdateIntervalMax_lt : kfUpdateIntervalMax < 2 ^ 148 := by
  norm_num [kfUpdateIntervalMax, ofBits]

/-- After the first frame, with an update interval of at least `2 ^ (-25)` and fuel for one pass
per `2 ^ (-26)` of remainder, the loop returns; the remainder it leaves is below the interval
and not above the one it started from, and the number `n` of fixed updates satisfies
`n * (interval - 2 ^ (-26)) + 2 ^ (-26) ≤ remainder < interval + n * (interval + 2 ^ (-26))`
(the lower bound for `n ≥ 1`). -/
theorem fixedUpdateLoop_returns (interval : Int) (hI : 2 ^ 124 ≤ interval) (fuel : Nat) :
    ∀ (r : Int) (c : Nat), r ≤ kfUpdateIntervalMax → r < (fuel + 1) * 2 ^ 123 →
    ∃ (n : Nat) (r1 : Int),
      fixedUpdateLoop interval (fuel + 1) ⟨r, false, c⟩ = some ⟨r1, false, c + n⟩ ∧
      r1 < interval ∧ r1 ≤ r ∧
      (1 ≤ n → n * (interval - 2 ^ 123) + 2 ^ 123 ≤ r) ∧
      r < interval + n * (interval + 2 ^ 123) := by
  have hK := kfUpdateIntervalMax_lt
  induction fuel with
  | zero =>
    intro r c hmax hlt
    have hr : ¬ (r ≥ interval) := by omega
    exact ⟨0, r, by simp [fixedUpdateLoop, hr], by omega, le_rfl, by omega, by omega⟩
  | succ fuel ih =>
    intro r c hmax hlt
    by_cases hr : r ≥ interval
    · obtain ⟨hlo, hhi⟩ := roundF32_near (r - interval) (by omega) (by omega)
      rw [Nat.cast_succ] at hlt
      obtain ⟨n, r1, hloop, h1, h2, h3, h4⟩ := ih (sub r interval) (c + 1)
        (by simp only [sub]; omega) (by simp only [sub]; omega)
      simp only [sub] at hloop h2 h3 h4
      refine ⟨n + 1, r1, ?_, h1, by omega, ?_, ?_⟩
      · rw [fixedUpdateLoop]
        simp only [hr, true_or, if_true, sub]
        rw [hloop]
        simp only [Option.some.injEq, UpdateState.mk.injEq, true_and]
        omega
      · intro _
        rw [Nat.cast_succ]
        rcases Nat.eq_zero_or_pos n with h0 | hpos
        · subst h0
          simp only [Nat.cast_zero, zero_add, one_mul]
          omega
        · have := h3 hpos
          linarith
      · rw [Nat.cast_succ]
        linarith
    · exact ⟨0, r, by simp [fixedUpdateLoop, hr], by omega, le_rfl, by omega, by omega⟩

set_option maxRecDepth 4000 in
/-- Fuel for one pass per `2 ^ (-26)` of the time to work off. -/
theorem fuel_covers (t : Int) (fuel : Nat) (hfuel : (t / 2 ^ 123).toNat + 3 ≤ fuel + 2) :
    t < ((fuel : Int) + 1) * 2 ^ 123 := by
  omega

/-- The constants of the model are the binary32 values nearest to 0.33 and to 1/60. -/
theorem constants_nearest :
    |(kfUpdateIntervalMax : ℚ) / 2 ^ 149 - 33 / 100| < 1 / 2 ^ 26 ∧
    |(kfDefaultUpdateInterval : ℚ) / 2 ^ 149 - 1 / 60| < 1 / 2 ^ 30 := by
  constructor
  · rw [abs_lt]
    norm_num [kfUpdateIntervalMax, ofBits]
  · rw [abs_lt]
    norm_num [kfDefaultUpdateInterval, ofBits]

/-- For the update interval `1e-9f` and the remainder `0.1f` the loop never returns: the
subtraction leaves the remainder as it is. -/
theorem tiny_interval_loop_never_returns (fuel : Nat) :
    ∀ c, fixedUpdateLoop oneBillionth fuel ⟨oneTenth, false, c⟩ = none := by
  induction fuel with
  | zero => intro c; rfl
  | succ fuel ih =>
    intro c
    have h1 : oneTenth ≥ oneBillionth := by decide
    have h2 : sub oneTenth oneBillionth = oneTenth := by decide
    rw [fixedUpdateLoop]
    simp only [h1, true_or, if_true, h2]
    exact ih (c + 1)

/-- A frame of `0.1f` with the update interval `1e-9f` does not return, whatever the fuel. -/
theorem tiny_interval_frame_never_returns (fuel : Nat) :
    runFixedUpdates oneBillionth oneTenth fuel ⟨0, false, 0⟩ = none := by
  have h : clampedTime ⟨0, false, 0⟩ oneTenth = oneTenth := by decide
  simp only [runFixedUpdates, h]
  exact tiny_interval_loop_never_returns fuel 0

/-- C19 (as stated, refuted): in the binary32 arithmetic of the program, with the default
update interval `1.0f/60.0f`, remainder 0 and frame time `0.1f`, a frame that is not the first
makes 6 fixed updates, while `floor(min(remainder + dt, 0.33) / interval)` is 5 (five
intervals fit into the clamped time `0.1f`, six do not); and for the update interval `1e-9f`
the subtraction `0.1f - 1e-9f` returns `0.1f`, so the loop, whose condition holds, does not
terminate. -/
theorem C19_binary32_count_and_termination :
    runFixedUpdates kfDefaultUpdateInterval oneTenth 10 ⟨0, false, 0⟩ =
      some ⟨ofBits 1 121, false, 6⟩ ∧
    clampedTime ⟨0, false, 0⟩ oneTenth = oneTenth ∧
    5 * kfDefaultUpdateInterval ≤ oneTenth ∧ oneTenth < 6 * kfDefaultUpdateInterval ∧
    0 < oneBillionth ∧ oneBillionth ≤ oneTenth ∧ sub oneTenth oneBillionth = oneTenth := by
  decide

/-- C19 (amended): in binary32 arithmetic, for every update interval of at least `2 ^ (-25)`
(`2 ^ 124` units) and every frame time, lines 120 to 128 of `OnFrameBegin` return for every
fuel from some bound on (the loop terminates); the remainder carried to the next frame is
less than the update interval and at most the maximum `0.33f`; on the first frame
`FixedUpdate` is called at least once; on a later frame, with `t` the clamped time
`min(remainder + dt, 0.33f)`, the number `n` of calls is 0 exactly when `t < interval`, and
`n * (interval - 2 ^ (-26)) + 2 ^ (-26) ≤ t` for `n ≥ 1` and
`t < interval + n * (interval + 2 ^ (-26))`: the floor of `t / interval` up to the rounding of
each subtraction. -/
theorem C19_fixed_update_loop (interval infDt : Int) (s : UpdateState)
    (hI : 2 ^ 124 ≤ interval) :
    ∃ fuel0, ∀ fuel, fuel0 ≤ fuel → ∃ s1,
      runFixedUpdates interval infDt fuel s = some s1 ∧
      s1.mfUpdateIntervalRemainder < interval ∧
      s1.mfUpdateIntervalRemainder ≤ kfUpdateIntervalMax ∧
      s1.mbIsFirstFrame = false ∧
      (s.mbIsFirstFrame = true → s.fixedUpdates + 1 ≤ s1.fixedUpdates) ∧
      (s.mbIsFirstFrame = false → ∃ n : Nat, s1.fixedUpdates = s.fixedUpdates + n ∧
        (n = 0 ↔ clampedTime s infDt < interval) ∧
        (1 ≤ n → n * (interval - 2 ^ 123) + 2 ^ 123 ≤ clampedTime s infDt) ∧
        clampedTime s infDt < interval + n * (interval + 2 ^ 123)) := by
  obtain ⟨r, first, c⟩ := s
  have hK := kfUpdateIntervalMax_lt
  have hK0 : 0 ≤ kfUpdateIntervalMax := by decide
  have ht : clampedTime ⟨r, first, c⟩ infDt ≤ kfUpdateIntervalMax := min_le_right _ _
  simp only [runFixedUpdates]
  generalize clampedTime ⟨r, first, c⟩ infDt = t at ht ⊢
  refine ⟨(t / 2 ^ 123).toNat + 3, fun fuel hfuel => ?_⟩
  have h2 : 2 ≤ fuel := le_trans (Nat.le_add_left 2 ((t / 2 ^ 123).toNat + 1)) hfuel
  obtain ⟨fuel, rfl⟩ : ∃ k, fuel = k + 2 := ⟨fuel - 2, by omega⟩
  have hbound : t < ((fuel : Int) + 1) * 2 ^ 123 := fuel_covers t fuel hfuel
  clear hfuel h2
  cases first with
  | false =>
    obtain ⟨n, r1, hloop, h1, h2, h3, h4⟩ :=
      fixedUpdateLoop_returns interval hI (fuel + 1) t c ht (by
        rw [Nat.cast_succ]
        omega)
    have hle : r1 ≤ kfUpdateIntervalMax := by omega
    refine ⟨⟨r1, false, c + n⟩, hloop, h1, hle, rfl, fun h => absurd h (by decide),
      fun _ => ⟨n, rfl, ?_, h3, h4⟩⟩
    constructor
    · intro h0
      subst h0
      rw [Nat.cast_zero, zero_mul, add_zero] at h4
      exact h4
    · intro hlt
      by_contra hn
      have h5 := h3 (by omega)
      have h6 : (1 : Int) ≤ n := by omega
      have h8 : 0 ≤ interval - 2 ^ 123 := by omega
      have h7 : interval - 2 ^ 123 ≤ n * (interval - 2 ^ 123) := by nlinarith
      omega
  | true =>
    have hsub : sub t interval ≤ kfUpdateIntervalMax ∧
        sub t interval < ((fuel : Int) + 1) * 2 ^ 123 := by
      simp only [sub]
      by_cases hge : interval ≤ t
      · obtain ⟨-, hhi⟩ := roundF32_near (t - interval) (by omega) (by omega)
        constructor <;> omega
      · have := roundF32_nonpos (t - interval) (by omega)
        constructor <;> omega
    obtain ⟨n, r1, hloop, h1, h2, h3, h4⟩ :=
      fixedUpdateLoop_returns interval hI fuel (sub t interval) (c + 1) hsub.1 hsub.2
    have hle : r1 ≤ kfUpdateIntervalMax := by omega
    have hcount : c + 1 ≤ c + 1 + n := by omega
    refine ⟨⟨r1, false, c + 1 + n⟩, ?_, h1, hle, rfl, fun _ => hcount,
      fun h => absurd h (by decide)⟩
    rw [fixedUpdateLoop]
    simp only [or_true, if_true]
    exact hloop

/-- Witness for C19 with the default update interval `1.0f/60.0f` and the frame time `0.1f`, on
a later frame and on the first frame, both starting from the remainder 0: the loop returns and
carries less than the interval. -/
theorem C19_fixed_update_loop_witness :
    (∃ fuel0, ∀ fuel, fuel0 ≤ fuel → ∃ s1,
      runFixedUpdates kfDefaultUpdateInterval oneTenth fuel ⟨0, false, 0⟩ = some s1 ∧
      s1.mfUpdateIntervalRemainder < kfDefaultUpdateInterval ∧
      s1.mfUpdateIntervalRemainder ≤ kfUpdateIntervalMax) ∧
    (∃ fuel0, ∀ fuel, fuel0 ≤ fuel → ∃ s1,
      runFixedUpdates kfDefaultUpdateInterval oneTenth fuel ⟨0, true, 0⟩ = some s1 ∧
      1 ≤ s1.fixedUpdates) :=
  ⟨(C19_fixed_update_loop kfDefaultUpdateInterval oneTenth ⟨0, false, 0⟩
      (by norm_num [kfDefaultUpdateInterval, ofBits])).imp fun _ h fuel hfuel =>
        (h fuel hfuel).imp fun _ hs => ⟨hs.1, hs.2.1, hs.2.2.1⟩,
   (C19_fixed_update_loop kfDefaultUpdateInterval oneTenth ⟨0, true, 0⟩
      (by norm_num [kfDefaultUpdateInterval, ofBits])).imp fun _ h fuel hfuel =>
        (h fuel hfuel).imp fun _ hs => ⟨hs.1, by simpa using hs.2.2.2.2.1 rfl⟩⟩

end Binary32
end WindowsPlatform
end ChilliSource

/-! # Locking the index region after a backup and restore (C20) -/

namespace ChilliSource
namespace OpenGL

/-- `Bind` does not touch the buffer object, `LockVertex` and `UnlockVertex` keep its index
handle: none of them gives a buffer an index handle. -/
theorem vertex_ops_keep_index_handle (w : World) (b : CMeshBuffer) :
    (CMeshBuffer.LockVertex w b).buffer.mIndexBuffer = b.mIndexBuffer ∧
    ∀ r, CMeshBuffer.UnlockVertex w b = some r → r.2.2.mIndexBuffer = b.mIndexBuffer := by
  constructor
  · unfold CMeshBuffer.LockVertex
    split <;> rfl
  · intro r hr
    unfold CMeshBuffer.UnlockVertex at hr
    split at hr
    · cases hr
      rfl
    · rcases Option.map_eq_some'.mp hr with ⟨d, -, rfl⟩
      rfl

/-- `Backup()` leaves both handles at 0. -/
theorem Backup_handles (w w1 : World) (b b1 : CMeshBuffer)
    (h : CMeshBuffer.Backup w b = some (w1, b1)) :
    b1.mVertexBuffer = 0 ∧ b1.mIndexBuffer = 0 := by
  unfold CMeshBuffer.Backup at h
  rcases Option.bind_eq_some.mp h with ⟨s3, -, h3⟩
  rcases Option.map_eq_some'.mp h3 with ⟨s4, -, h4⟩
  cases h4
  exact ⟨rfl, rfl⟩

/-- C20 (code defect): a buffer created with index capacity 0 has index handle 0 and `LockIndex`
fails on it, but after `Backup()` and `Restore()` in shadow-copy mode the buffer has the index
handle 3 and `LockIndex` succeeds with a non-null pointer (the block at address 103).
`Backup()` allocates `mpIndexDataBackup` whether or not there is an index buffer, and
`Restore()` generates an index handle whenever that pointer is not null. -/
theorem C20_backup_restore_gives_index_handle :
    (CMeshBuffer.create 7 (vertexOnlyDesc .STATIC) none emptyWorld).2.mIndexBuffer = 0 ∧
    (CMeshBuffer.LockIndex (CMeshBuffer.create 7 (vertexOnlyDesc .STATIC) none emptyWorld).1
      (CMeshBuffer.create 7 (vertexOnlyDesc .STATIC) none emptyWorld).2).ok = false ∧
    ((backupThenRestore (CMeshBuffer.create 7 (vertexOnlyDesc .STATIC) none emptyWorld).1
        (CMeshBuffer.create 7 (vertexOnlyDesc .STATIC) none emptyWorld).2).map fun s =>
      (s.2.mIndexBuffer, (CMeshBuffer.LockIndex s.1 s.2).ok,
       (CMeshBuffer.LockIndex s.1 s.2).out.addr)) = some (3, true, some 103) := by
  decide

end OpenGL
end ChilliSource
